import Mathlib

/-!
# CMC_Tutorial: custom character movement component

A shallow embedding of `Source/TutorialResearch/Character/TutCharacterMovementComponent.{h,cpp}`.

Conventions of the embedding.

* `float` values and the components of `FVector` are elements of a scalar type `R`.
  Every function asks only for the operations it uses (an addition, a zero, a
  decidable equality, an ordered ring for the wall-run geometry); rounding, NaN and
  signed zeros of IEEE arithmetic are outside the model, and `==` / `!=` on scalars
  are equality and disequality of `R`.
* `uint8` values are natural numbers (below 256).
* Object pointers (`CustomCharacter`, `CharacterOwner`, `UpdatedComponent`) are
  represented by their validity, a `Bool`.
* The component is a record; a member function is a function from the record to
  the updated record (paired with the returned value when there is one).
* The engine base class `UCharacterMovementComponent` is not part of the repository.
  Its state that the repository reads or writes is the record `Inherited`; its
  `Super::` implementations are parameters (`Engine`, `Host`, `JumpEngine`), typed so
  that they can only touch `Inherited`: the base class cannot name a member of the
  derived class. Base implementations that run a movement step or request a mode
  (`StartNewPhysics`, `Super::DoJump`, `Super::MoveAutonomous`) reach the virtual
  functions of the component and therefore act on the whole record.
* The `while` loop of `PhysWallRun` is a recursion on the distance from `Iterations`
  to `MaxSimulationIterations`; every pass through its body is recorded (`SubTick`),
  as are the arguments of a hand-over to `StartNewPhysics`.
* Calls that leave the component (the `OnLaunched` notification, the
  `BlueprintNativeEvent` enter/exit handlers) are recorded in the `Trace` of the
  component, oldest first, together with the mode fields the component held at
  the moment of the call.
* A saved move and a move data record carry the part of their engine base class
  (`FSavedMove_Character`, `FCharacterNetworkMoveData`) as a value of a type
  parameter; the `Super::` implementations that act on it are parameters
  (`SavedMoveEngine`, `BaseCodec`).
* An archive is a stream of typed entries (`Item`): single bits and whole values.
  The bit-level layout of a value is not modelled.
-/

namespace TutCMC

/-! ## Engine value types -/

/-- Engine type `FVector`: three scalar components. -/
structure FVector (R : Type) where
  X : R
  Y : R
  Z : R
deriving DecidableEq, Repr

namespace FVector

variable {R : Type}

/-- The constant `FVector::ZeroVector`, also written `FVector(0.f, 0.f, 0.f)`. -/
def ZeroVector [Zero R] : FVector R := ⟨0, 0, 0⟩

/-- The constant `FVector::DownVector`, the vector `(0, 0, -1)`. -/
def DownVector [Zero R] [One R] [Neg R] : FVector R := ⟨0, 0, -1⟩

/-- Engine `FVector::IsZero`: all three components compare equal to zero. -/
def IsZero [Zero R] [DecidableEq R] (v : FVector R) : Bool :=
  decide (v.X = 0) && decide (v.Y = 0) && decide (v.Z = 0)

/-- Component-wise `operator+`. -/
def add [Add R] (a b : FVector R) : FVector R := ⟨a.X + b.X, a.Y + b.Y, a.Z + b.Z⟩

/-- Component-wise `operator-`. -/
def sub [Sub R] (a b : FVector R) : FVector R := ⟨a.X - b.X, a.Y - b.Y, a.Z - b.Z⟩

/-- Scaling `operator*(float)`. -/
def scale [Mul R] (a : FVector R) (k : R) : FVector R := ⟨a.X * k, a.Y * k, a.Z * k⟩

/-- Dot product, `operator|`. -/
def dot [Add R] [Mul R] (a b : FVector R) : R := a.X * b.X + a.Y * b.Y + a.Z * b.Z

/-- Engine `FVector::SizeSquared2D`: squared length of the XY part. -/
def SizeSquared2D [Add R] [Mul R] (a : FVector R) : R := a.X * a.X + a.Y * a.Y

/-- Engine `FVector::VectorPlaneProject(V, PlaneNormal)`: `V - PlaneNormal * (V | PlaneNormal)`. -/
def VectorPlaneProject [Add R] [Sub R] [Mul R] (V PlaneNormal : FVector R) : FVector R :=
  sub V (scale PlaneNormal (dot V PlaneNormal))

end FVector

/-- Engine `FMath::Clamp(X, Min, Max)`. -/
def Clamp {R : Type} [LT R] [DecidableRel (fun a b : R => a < b)] (X Min Max : R) : R :=
  if X < Min then Min else if X < Max then X else Max

/-- Engine constant `SMALL_NUMBER`, `1.e-8f`. -/
def SMALL_NUMBER (R : Type) [LinearOrderedField R] : R := 1 / 100000000

/-- Engine constant `KINDA_SMALL_NUMBER`, `1.e-4f`. -/
def KINDA_SMALL_NUMBER (R : Type) [LinearOrderedField R] : R := 1 / 10000

/-- Engine constant `UCharacterMovementComponent::MIN_TICK_TIME`, `1e-6f`. -/
def MIN_TICK_TIME (R : Type) [LinearOrderedField R] : R := 1 / 1000000

/-- Unary `operator-` of `FVector`. -/
def FVector.neg {R : Type} [Neg R] (a : FVector R) : FVector R := ⟨-a.X, -a.Y, -a.Z⟩

/-- Left scaling `float * FVector`. -/
def FVector.scaleLeft {R : Type} [Mul R] (k : R) (a : FVector R) : FVector R :=
  ⟨k * a.X, k * a.Y, k * a.Z⟩

/-- Division `FVector / float`. -/
def FVector.div {R : Type} [Div R] (a : FVector R) (k : R) : FVector R :=
  ⟨a.X / k, a.Y / k, a.Z / k⟩

/-- Engine `FVector::IsNearlyZero()`: every component is within `KINDA_SMALL_NUMBER` of zero. -/
def FVector.IsNearlyZero {R : Type} [LinearOrderedField R] (v : FVector R) : Bool :=
  decide (|v.X| ≤ KINDA_SMALL_NUMBER R) && decide (|v.Y| ≤ KINDA_SMALL_NUMBER R)
    && decide (|v.Z| ≤ KINDA_SMALL_NUMBER R)

/-- Engine `FVector::GetSafeNormal()`: the vector itself when its squared length is 1, the zero
vector when the squared length is below `SMALL_NUMBER`, and otherwise the vector scaled by
`FMath::InvSqrt` of the squared length (the inverse square root is a parameter). -/
def FVector.GetSafeNormal {R : Type} [LinearOrderedField R] (InvSqrt : R → R) (v : FVector R) :
    FVector R :=
  let SquareSum := v.X * v.X + v.Y * v.Y + v.Z * v.Z
  if SquareSum = 1 then v
  else if SquareSum < SMALL_NUMBER R then FVector.ZeroVector
  else
    let Scale := InvSqrt SquareSum
    ⟨v.X * Scale, v.Y * Scale, v.Z * Scale⟩

/-- Engine `FVector::GetSafeNormal2D()`: the same on the XY part, with Z set to zero. -/
def FVector.GetSafeNormal2D {R : Type} [LinearOrderedField R] (InvSqrt : R → R) (v : FVector R) :
    FVector R :=
  let SquareSum := v.X * v.X + v.Y * v.Y
  if SquareSum = 1 then (if v.Z = 0 then v else ⟨v.X, v.Y, 0⟩)
  else if SquareSum < SMALL_NUMBER R then FVector.ZeroVector
  else
    let Scale := InvSqrt SquareSum
    ⟨v.X * Scale, v.Y * Scale, 0⟩

/-- Engine enumeration `EMovementMode`. -/
inductive EMovementMode where
  | MOVE_None
  | MOVE_Walking
  | MOVE_NavWalking
  | MOVE_Falling
  | MOVE_Swimming
  | MOVE_Flying
  | MOVE_Custom
  | MOVE_MAX
deriving DecidableEq, Repr

/-- Enumerator `MOVE_CustomNone` of `ECustomMovementMode`, stored in the `uint8` sub-mode. -/
def MOVE_CustomNone : Nat := 0

/-- Enumerator `MOVE_WallRunning` of `ECustomMovementMode`, stored in the `uint8` sub-mode. -/
def MOVE_WallRunning : Nat := 1

/-- Enumerator `EMovementFlag::CFLAG_WantsToFly`, `1 << 0`. -/
def CFLAG_WantsToFly : Nat := 1 <<< 0

/-- Engine enumeration `ENetRole`; the order of the constructors is the numeric order. -/
inductive ENetRole where
  | ROLE_None
  | ROLE_SimulatedProxy
  | ROLE_AutonomousProxy
  | ROLE_Authority
deriving DecidableEq, Repr

/-- Numeric value of a net role, used by the comparison `GetLocalRole() > ROLE_SimulatedProxy`. -/
def ENetRole.toNat : ENetRole → Nat
  | .ROLE_None => 0
  | .ROLE_SimulatedProxy => 1
  | .ROLE_AutonomousProxy => 2
  | .ROLE_Authority => 3

/-- Engine type `FHitResult`, the members read by the repository. -/
structure FHitResult (R : Type) where
  bBlockingHit : Bool
  bStartPenetrating : Bool
  Normal : FVector R
deriving DecidableEq, Repr

/-- Engine `FHitResult::IsValidBlockingHit`: a blocking hit that did not start in penetration. -/
def FHitResult.IsValidBlockingHit {R : Type} (h : FHitResult R) : Bool :=
  h.bBlockingHit && !h.bStartPenetrating

/-! ## The movement component -/

/-- The four `BlueprintNativeEvent` handlers of the component. -/
inductive Handler where
  | EnterFlying
  | ExitFlying
  | EnterWallRun
  | ExitWallRun
deriving DecidableEq, Repr

/-- A call that leaves the component. `handler h m c` records that handler `h` was invoked
while the component held `MovementMode = m` and `CustomMovementMode = c`; `OnLaunched` is
the notification `CustomCharacter->OnLaunched(v, bXYOverride, bZOverride)`. -/
inductive Event (R : Type) where
  | handler (h : Handler) (MovementMode : EMovementMode) (CustomMovementMode : Nat)
  | OnLaunched (LaunchVelocity : FVector R) (bXYOverride : Bool) (bZOverride : Bool)
deriving DecidableEq, Repr

/-- State of the engine base class `UCharacterMovementComponent` (and of the updated
component it moves) that the repository reads or writes. -/
structure Inherited (R : Type) where
  MovementMode : EMovementMode
  CustomMovementMode : Nat
  Velocity : FVector R
  Acceleration : FVector R
  PendingLaunchVelocity : FVector R
  bForceNextFloorCheck : Bool
  bJustTeleported : Bool
  /-- Value of `UActorComponent::IsActive()`. -/
  bIsActive : Bool
  /-- Validity of the `UpdatedComponent` pointer. -/
  UpdatedComponent : Bool
  /-- Validity of the `CharacterOwner` pointer. -/
  CharacterOwner : Bool
  /-- Value of `CharacterOwner->GetLocalRole()` (the engine calls the hooks that read it with
  a valid owner; a dereference of an invalid owner is not modelled). -/
  LocalRole : ENetRole
  /-- Value of `UpdatedComponent->GetComponentLocation()`. -/
  Location : FVector R
  /-- Value of `UpdatedComponent->GetRightVector()`. -/
  RightVector : FVector R
deriving DecidableEq, Repr

/-- The class `UTutCharacterMovementComponent`: the inherited state, the members the
class declares, and the trace of outgoing calls. -/
structure UTutCharacterMovementComponent (R : Type) extends Inherited R where
  bWantsToSprint : Bool
  bIsSprinting : Bool
  CustomMaxSpeed : R
  MovementFlagCustom : Nat
  bIsFlying : Bool
  LaunchVelocityCustom : FVector R
  bWallRunIsRight : Bool
  MinWallRunSpeed : R
  MaxWallRunSpeed : R
  MaxVerticalWallRunSpeed : R
  MinWallRunHeight : R
  /-- Validity of the `CustomCharacter` pointer. -/
  CustomCharacter : Bool
  Trace : List (Event R)
deriving DecidableEq, Repr

/-- The `Super::` implementations of the engine base class that the movement functions
of the repository call, and the facts about the world the engine answers. -/
structure Engine (R : Type) where
  /-- Base `UCharacterMovementComponent::OnMovementModeChanged(PreviousMovementMode, PreviousCustomMode)`. -/
  Super_OnMovementModeChanged : EMovementMode → Nat → Inherited R → Inherited R
  /-- Base `UCharacterMovementComponent::OnMovementUpdated(DeltaSeconds, OldLocation, OldVelocity)`. -/
  Super_OnMovementUpdated : R → FVector R → FVector R → Inherited R → Inherited R
  /-- Whether `GetNavData()` is non-null (read by `SetMovementMode`). -/
  bHasNavData : Bool

/-- The world the component queries: the line trace
`GetWorld()->LineTraceSingleByProfile(OutHit, Start, End, "BlockAll", Params)` as a function
of `Start` and `End` giving the returned flag and `OutHit`, and the owner's capsule. -/
structure World (R : Type) where
  LineTraceSingleByProfile : FVector R → FVector R → Bool × FHitResult R
  /-- Value of `GetCapsuleComponent()->GetScaledCapsuleRadius()`. -/
  ScaledCapsuleRadius : R
  /-- Value of `GetCapsuleComponent()->GetScaledCapsuleHalfHeight()`. -/
  ScaledCapsuleHalfHeight : R

/-- What the rest of the engine supplies to the physics functions of the component: further
`Super::` implementations, engine services, state of the base class and of the owner that the
repository only reads, and the configuration that only `PhysWallRun` reads. All of it is fixed
for the duration of a call. -/
structure Host (R : Type) where
  /-- Base `UCharacterMovementComponent::UpdateCharacterStateBeforeMovement(DeltaSeconds)`. -/
  Super_UpdateCharacterStateBeforeMovement : R → Inherited R → Inherited R
  /-- Base `UCharacterMovementComponent::GetMaxSpeed()`. -/
  Super_GetMaxSpeed : Inherited R → R
  /-- Base `UCharacterMovementComponent::PhysCustom(deltaTime, Iterations)`. -/
  Super_PhysCustom : R → Int → Inherited R → Inherited R
  /-- Value of `CharacterOwner->GetActorForwardVector()`. -/
  GetActorForwardVector : FVector R
  /-- Engine `FMath::InvSqrt`. -/
  InvSqrt : R → R
  /-- Engine `FMath::Sin`. -/
  Sin : R → R
  /-- Engine `FMath::DegreesToRadians`. -/
  DegreesToRadians : R → R
  /-- Validity of `CharacterOwner->Controller`. -/
  Controller : Bool
  bRunPhysicsWithNoController : Bool
  /-- Value of `HasAnimRootMotion()`. -/
  HasAnimRootMotion : Bool
  /-- Value of `CurrentRootMotion.HasOverrideVelocity()`. -/
  HasOverrideVelocity : Bool
  MaxSimulationIterations : Int
  /-- Engine `GetSimulationTimeStep(RemainingTime, Iterations)`. -/
  GetSimulationTimeStep : R → Int → R
  /-- Engine `GetMaxBrakingDeceleration()`. -/
  GetMaxBrakingDeceleration : Inherited R → R
  /-- Engine `GetGravityZ()`. -/
  GetGravityZ : Inherited R → R
  /-- Engine `CalcVelocity(DeltaTime, Friction, bFluid, BrakingDeceleration)`: it reads the
  component (also through the virtual `GetMaxSpeed`) and writes inherited members. -/
  CalcVelocity : R → R → Bool → R → UTutCharacterMovementComponent R → Inherited R
  /-- Engine `SafeMoveUpdatedComponent(Delta, GetComponentQuat(), true, Hit)`. -/
  SafeMoveUpdatedComponent : FVector R → Inherited R → Inherited R
  /-- Engine `StartNewPhysics(deltaTime, Iterations)`: the physics of whatever mode the
  component is in, which may run any code of the component. -/
  StartNewPhysics : R → Int → UTutCharacterMovementComponent R → UTutCharacterMovementComponent R
  WallRunPullAwayAngle : R
  WallAttractionForce : R
  /-- The curve asset `WallRunGravityScaleCurve`: `none` for a null pointer, otherwise its
  `GetFloatValue`. -/
  WallRunGravityScaleCurve : Option (R → R)

/-- How a sub-tick of `PhysWallRun` ended: the wall cast missed or the player pulled away
(`lostWall`), the speed test failed (`tooSlow`), the component did not move (`stalled`), or the
movement was carried out (`moved`). -/
inductive SubTickEnd where
  | lostWall
  | tooSlow
  | stalled
  | moved
deriving DecidableEq, Repr

/-- Record of one pass through the sub-tick loop of `PhysWallRun`: the time step
`GetSimulationTimeStep` returned for it and how the pass ended. -/
structure SubTick (R : Type) where
  timeTick : R
  ending : SubTickEnd
deriving DecidableEq, Repr

/-- What follows one pass through the body of the sub-tick loop: the function returns after
handing `remainingTime` and `Iterations` to `StartNewPhysics`, the loop is left by `break`, or
the loop condition is tested again. -/
inductive Step (R : Type) where
  | returned (s : UTutCharacterMovementComponent R) (remainingTime : R) (Iterations : Int)
  | broke (s : UTutCharacterMovementComponent R) (remainingTime : R)
  | next (s : UTutCharacterMovementComponent R) (remainingTime : R)

/-- The sub-tick loop of `PhysWallRun` when it is left: the component, the local variables
`remainingTime` and `Iterations`, the passes made (oldest first), and the arguments of
`StartNewPhysics` when the function returned from inside the loop. -/
structure LoopResult (R : Type) where
  state : UTutCharacterMovementComponent R
  remainingTime : R
  Iterations : Int
  subTicks : List (SubTick R)
  handoff : Option (R × Int)

/-- A call of `PhysWallRun` when it returns: the component, the passes through the sub-tick
loop (oldest first), and the arguments of `StartNewPhysics` when it was called. -/
structure PhysWallRunResult (R : Type) where
  state : UTutCharacterMovementComponent R
  subTicks : List (SubTick R)
  handoff : Option (R × Int)

/-- The fatal log `UE_LOG(LogTemp, Fatal, TEXT("Invalid Movement Mode"))`, which ends the
program. -/
inductive FatalError where
  | InvalidMovementMode
deriving DecidableEq, Repr

namespace UTutCharacterMovementComponent

variable {R : Type}

/-- Engine `HasValidData()`: `UpdatedComponent && IsValid(CharacterOwner)`. -/
def HasValidData (s : UTutCharacterMovementComponent R) : Bool :=
  s.UpdatedComponent && s.CharacterOwner

/-- Engine `IsActive()`. -/
def IsActive (s : UTutCharacterMovementComponent R) : Bool := s.bIsActive

/-- Engine `IsFalling()`: `(MovementMode == MOVE_Falling) && UpdatedComponent`. -/
def IsFalling (s : UTutCharacterMovementComponent R) : Bool :=
  decide (s.MovementMode = .MOVE_Falling) && s.UpdatedComponent

/-- Member `IsFlagActive(TestFlag)`: `MovementFlagCustom & TestFlag`, converted to `bool`. -/
def IsFlagActive (s : UTutCharacterMovementComponent R) (TestFlag : Nat) : Bool :=
  decide ((s.MovementFlagCustom &&& TestFlag) ≠ 0)

/-- Member `CanFly()`: always true. -/
def CanFly (_s : UTutCharacterMovementComponent R) : Bool := true

/-- Appends an outgoing handler call to the trace, with the mode fields held at the call. -/
def record (h : Handler) (s : UTutCharacterMovementComponent R) :
    UTutCharacterMovementComponent R :=
  { s with Trace := s.Trace ++ [Event.handler h s.MovementMode s.CustomMovementMode] }

/-- Member `EnterFlying_Implementation`. -/
def EnterFlying_Implementation (s : UTutCharacterMovementComponent R) :
    UTutCharacterMovementComponent R :=
  { s with bIsFlying := true }

/-- Member `ExitFlying_Implementation`. -/
def ExitFlying_Implementation (s : UTutCharacterMovementComponent R) :
    UTutCharacterMovementComponent R :=
  { s with bIsFlying := false }

/-- Member `EnterWallRun_Implementation`: empty body. -/
def EnterWallRun_Implementation (s : UTutCharacterMovementComponent R) :
    UTutCharacterMovementComponent R := s

/-- Member `ExitWallRun_Implementation`: empty body. -/
def ExitWallRun_Implementation (s : UTutCharacterMovementComponent R) :
    UTutCharacterMovementComponent R := s

/-- The native event `EnterFlying()`: the call is recorded, then the implementation runs. -/
def EnterFlying (s : UTutCharacterMovementComponent R) : UTutCharacterMovementComponent R :=
  EnterFlying_Implementation (record .EnterFlying s)

/-- The native event `ExitFlying()`. -/
def ExitFlying (s : UTutCharacterMovementComponent R) : UTutCharacterMovementComponent R :=
  ExitFlying_Implementation (record .ExitFlying s)

/-- The native event `EnterWallRun()`. -/
def EnterWallRun (s : UTutCharacterMovementComponent R) : UTutCharacterMovementComponent R :=
  EnterWallRun_Implementation (record .EnterWallRun s)

/-- The native event `ExitWallRun()`. -/
def ExitWallRun (s : UTutCharacterMovementComponent R) : UTutCharacterMovementComponent R :=
  ExitWallRun_Implementation (record .ExitWallRun s)

/-- Member `OnMovementModeChanged(PreviousMovementMode, PreviousCustomMode)`: without valid data
nothing happens; otherwise the exit handler selected by the previous mode, then the entry
handler selected by the current `MovementMode` / `CustomMovementMode`, then the base class. -/
def OnMovementModeChanged (E : Engine R) (PreviousMovementMode : EMovementMode)
    (PreviousCustomMode : Nat) (s : UTutCharacterMovementComponent R) :
    UTutCharacterMovementComponent R :=
  if !s.HasValidData then s
  else
    let s1 :=
      if PreviousMovementMode = .MOVE_Custom then
        (if PreviousCustomMode = MOVE_WallRunning then s.ExitWallRun else s)
      else
        (if PreviousMovementMode = .MOVE_Flying then s.ExitFlying else s)
    let s2 :=
      if s1.MovementMode = .MOVE_Custom then
        (if s1.CustomMovementMode = MOVE_WallRunning then s1.EnterWallRun else s1)
      else
        (if s1.MovementMode = .MOVE_Flying then s1.EnterFlying else s1)
    { s2 with toInherited :=
        E.Super_OnMovementModeChanged PreviousMovementMode PreviousCustomMode s2.toInherited }

/-- Engine `UCharacterMovementComponent::SetMovementMode(NewMovementMode, NewCustomMode)`,
the caller of the virtual `OnMovementModeChanged` ("Called after MovementMode has changed"):
the sub-mode is forced to 0 unless the new mode is custom, `MOVE_NavWalking` falls back to
walking without navigation data, an unchanged mode returns at once, and otherwise the mode
fields are written and then, with valid data, `OnMovementModeChanged` is called with the
previous mode and sub-mode. -/
def SetMovementMode (E : Engine R) (NewMovementMode : EMovementMode) (NewCustomMode : Nat)
    (s : UTutCharacterMovementComponent R) : UTutCharacterMovementComponent R :=
  let NewCustomMode := if NewMovementMode ≠ .MOVE_Custom then 0 else NewCustomMode
  let NewMovementMode :=
    if NewMovementMode = .MOVE_NavWalking ∧ E.bHasNavData = false then EMovementMode.MOVE_Walking
    else NewMovementMode
  if s.MovementMode = NewMovementMode ∧
      (NewMovementMode ≠ .MOVE_Custom ∨ NewCustomMode = s.CustomMovementMode) then s
  else
    let PrevMovementMode := s.MovementMode
    let PrevCustomMode := s.CustomMovementMode
    let s1 := { s with MovementMode := NewMovementMode, CustomMovementMode := NewCustomMode }
    if !s1.HasValidData then s1
    else OnMovementModeChanged E PrevMovementMode PrevCustomMode s1

/-- Member `LaunchCharacterReplicated(NewLaunchVelocity, bXYOverride, bZOverride)`. -/
def LaunchCharacterReplicated [Add R] (NewLaunchVelocity : FVector R) (bXYOverride : Bool)
    (bZOverride : Bool) (s : UTutCharacterMovementComponent R) :
    UTutCharacterMovementComponent R :=
  if !s.CustomCharacter then s
  else
    let FinalVel := NewLaunchVelocity
    let FinalVel :=
      if !bXYOverride then
        { FinalVel with X := FinalVel.X + s.Velocity.X, Y := FinalVel.Y + s.Velocity.Y }
      else FinalVel
    let FinalVel :=
      if !bZOverride then { FinalVel with Z := FinalVel.Z + s.Velocity.Z } else FinalVel
    { s with
      LaunchVelocityCustom := FinalVel
      Trace := s.Trace ++ [Event.OnLaunched NewLaunchVelocity bXYOverride bZOverride] }

/-- Member `HandlePendingLaunch()`: the returned flag and the component afterwards. -/
def HandlePendingLaunch [Zero R] [DecidableEq R] (E : Engine R)
    (s : UTutCharacterMovementComponent R) : Bool × UTutCharacterMovementComponent R :=
  if !s.PendingLaunchVelocity.IsZero && s.HasValidData then
    let s1 := { s with Velocity := s.PendingLaunchVelocity }
    let s2 := SetMovementMode E .MOVE_Falling 0 s1
    let s3 := { s2 with PendingLaunchVelocity := FVector.ZeroVector }
    let s4 := { s3 with bForceNextFloorCheck := true }
    (true, s4)
  else (false, s)

/-- Member `TryWallRun()`: the returned flag and the component afterwards. The wall hit kept
for the projection is the left one when it qualifies and the right one otherwise, as the
second trace overwrites the local `WallHit`. -/
def TryWallRun [LinearOrderedRing R] (E : Engine R) (W : World R)
    (s : UTutCharacterMovementComponent R) : Bool × UTutCharacterMovementComponent R :=
  if !s.IsFalling then (false, s)
  else if s.Velocity.SizeSquared2D < s.MinWallRunSpeed ^ 2 then (false, s)
  else if s.Velocity.Z < -s.MaxVerticalWallRunSpeed then (false, s)
  else if !s.CustomCharacter then (false, s)
  else
    let Start := s.Location
    let LeftEnd := FVector.sub Start
      (FVector.scale (FVector.scale s.RightVector W.ScaledCapsuleRadius) 2)
    let RightEnd := FVector.add Start
      (FVector.scale (FVector.scale s.RightVector W.ScaledCapsuleRadius) 2)
    if (W.LineTraceSingleByProfile Start
        (FVector.add Start
          (FVector.scale FVector.DownVector (W.ScaledCapsuleHalfHeight + s.MinWallRunHeight)))).1
    then (false, s)
    else
      let LeftHit := (W.LineTraceSingleByProfile Start LeftEnd).2
      let finish := fun (s1 : UTutCharacterMovementComponent R) (WallHit : FHitResult R) =>
        let ProjectedVelocity := FVector.VectorPlaneProject s1.Velocity WallHit.Normal
        if ProjectedVelocity.SizeSquared2D < s1.MinWallRunSpeed ^ 2 then (false, s1)
        else
          let s2 := { s1 with Velocity := ProjectedVelocity }
          let s3 := { s2 with Velocity :=
            { s2.Velocity with Z := Clamp s2.Velocity.Z 0 s2.MaxVerticalWallRunSpeed } }
          (true, SetMovementMode E .MOVE_Custom MOVE_WallRunning s3)
      if LeftHit.IsValidBlockingHit && decide (FVector.dot s.Velocity LeftHit.Normal < 0) then
        finish { s with bWallRunIsRight := false } LeftHit
      else
        let RightHit := (W.LineTraceSingleByProfile Start RightEnd).2
        if RightHit.IsValidBlockingHit && decide (FVector.dot s.Velocity RightHit.Normal < 0) then
          finish { s with bWallRunIsRight := true } RightHit
        else (false, s)

/-- Member `OnMovementUpdated(DeltaSeconds, OldLocation, OldVelocity)`: the base class, the
flight scheduling for roles above the simulated proxy, then the latch of the queued launch. -/
def OnMovementUpdated [Zero R] (E : Engine R) (DeltaSeconds : R) (OldLocation : FVector R)
    (OldVelocity : FVector R) (s : UTutCharacterMovementComponent R) :
    UTutCharacterMovementComponent R :=
  let s0 := { s with toInherited :=
    E.Super_OnMovementUpdated DeltaSeconds OldLocation OldVelocity s.toInherited }
  let s1 :=
    if s0.LocalRole.toNat > ENetRole.ROLE_SimulatedProxy.toNat then
      if s0.IsFlagActive CFLAG_WantsToFly then
        (if s0.CanFly then SetMovementMode E .MOVE_Flying 0 s0 else s0)
      else if (!s0.IsFlagActive CFLAG_WantsToFly || !s0.CanFly)
          && decide (s0.MovementMode = .MOVE_Flying) then
        SetMovementMode E .MOVE_Falling 0 s0
      else s0
    else s0
  if decide (s1.MovementMode ≠ .MOVE_None) && s1.IsActive && s1.HasValidData then
    let s2 := { s1 with PendingLaunchVelocity := s1.LaunchVelocityCustom }
    { s2 with LaunchVelocityCustom := ⟨0, 0, 0⟩ }
  else s1

/-- Engine `IsMovingOnGround()`: walking or nav-walking, with an updated component. -/
def IsMovingOnGround (s : UTutCharacterMovementComponent R) : Bool :=
  (decide (s.MovementMode = .MOVE_Walking) || decide (s.MovementMode = .MOVE_NavWalking))
    && s.UpdatedComponent

/-- Member `IsCustomMovementMode(TestCustomMovementMode)`. -/
def IsCustomMovementMode (s : UTutCharacterMovementComponent R) (TestCustomMovementMode : Nat) :
    Bool :=
  decide (s.MovementMode = .MOVE_Custom) && decide (s.CustomMovementMode = TestCustomMovementMode)

/-- Member `IsWallRunning()`. -/
def IsWallRunning (s : UTutCharacterMovementComponent R) : Bool :=
  s.IsCustomMovementMode MOVE_WallRunning

/-- Member `GetMaxSpeed()`. -/
def GetMaxSpeed (P : Host R) (s : UTutCharacterMovementComponent R) : R :=
  if s.MovementMode = .MOVE_Custom ∧ s.CustomMovementMode = MOVE_WallRunning then
    s.MaxWallRunSpeed
  else if s.bIsSprinting then s.CustomMaxSpeed
  else P.Super_GetMaxSpeed s.toInherited

/-- Member `CanSprint()`. -/
def CanSprint [LinearOrderedField R] (P : Host R) (s : UTutCharacterMovementComponent R) : Bool :=
  if s.CustomCharacter && s.IsMovingOnGround && s.bWantsToSprint then
    let Forward := P.GetActorForwardVector
    let MoveDirection := FVector.GetSafeNormal P.InvSqrt s.Velocity
    let VelocityDot := FVector.dot Forward MoveDirection
    decide (VelocityDot > 7 / 10)
  else false

end UTutCharacterMovementComponent

/-- The wall cast of a sub-tick of `PhysWallRun`, on the locked side: from the location to
twice the capsule radius along the right vector (right side) or against it (left side). -/
def lockedCast {R : Type} [LinearOrderedField R] (W : World R)
    (s : UTutCharacterMovementComponent R) : FHitResult R :=
  (W.LineTraceSingleByProfile s.Location
    (if s.bWallRunIsRight then FVector.add s.Location
        (FVector.scale (FVector.scale s.RightVector W.ScaledCapsuleRadius) 2)
      else FVector.sub s.Location
        (FVector.scale (FVector.scale s.RightVector W.ScaledCapsuleRadius) 2))).2

/-- The hand-over of a sub-tick to the fallback integrator: `SetMovementMode(MOVE_Falling)`
followed by `StartNewPhysics(remainingTime, Iterations)`. -/
def exitToFalling {R : Type} (E : Engine R) (P : Host R) (remainingTime : R) (Iterations : Int)
    (s : UTutCharacterMovementComponent R) : UTutCharacterMovementComponent R :=
  P.StartNewPhysics remainingTime Iterations
    (UTutCharacterMovementComponent.SetMovementMode E .MOVE_Falling 0 s)

/-- The steering part of the velocity update of a sub-tick of `PhysWallRun`: the acceleration
projected on the wall plane with its Z cleared, `CalcVelocity`, and the velocity projected on
the wall plane. -/
def steerAlongWall {R : Type} [LinearOrderedField R] (P : Host R) (timeTick : R)
    (WallHit : FHitResult R) (s : UTutCharacterMovementComponent R) :
    UTutCharacterMovementComponent R :=
  let s := { s with Acceleration := FVector.VectorPlaneProject s.Acceleration WallHit.Normal }
  let s := { s with Acceleration := { s.Acceleration with Z := 0 } }
  let s := { s with toInherited :=
    (P.CalcVelocity timeTick 0 false (P.GetMaxBrakingDeceleration s.toInherited) s) }
  { s with Velocity := FVector.VectorPlaneProject s.Velocity WallHit.Normal }

/-- The gravity part of the velocity update of a sub-tick of `PhysWallRun`: `TangentAccel`,
`bVelUp`, and the scaled gravity added to the Z of the velocity. -/
def applyWallGravity {R : Type} [LinearOrderedField R] (P : Host R) (timeTick : R)
    (s : UTutCharacterMovementComponent R) : UTutCharacterMovementComponent R :=
  let TangentAccel := FVector.dot (FVector.GetSafeNormal P.InvSqrt s.Acceleration)
    (FVector.GetSafeNormal2D P.InvSqrt s.Velocity)
  let bVelUp := decide (s.Velocity.Z > 0)
  { s with Velocity := { s.Velocity with Z := s.Velocity.Z + P.GetGravityZ s.toInherited *
    (match P.WallRunGravityScaleCurve with
     | some GetFloatValue => GetFloatValue (if bVelUp then 0 else TangentAccel) * timeTick
     | none => 0) } }

/-- The velocity update of a sub-tick of `PhysWallRun`: the acceleration projected on the wall
plane with its Z cleared, `CalcVelocity`, the velocity projected on the wall plane, and the
scaled gravity added to its Z. -/
def integrateWallRun {R : Type} [LinearOrderedField R] (P : Host R) (timeTick : R)
    (WallHit : FHitResult R) (s : UTutCharacterMovementComponent R) :
    UTutCharacterMovementComponent R :=
  applyWallGravity P timeTick (steerAlongWall P timeTick WallHit s)

/-- The position update of a sub-tick of `PhysWallRun`, with the remaining time it leaves:
nothing (and no time left) for a nearly zero delta, and otherwise the sweep along the velocity
followed by the sweep towards the wall. -/
def moveAlongWall {R : Type} [LinearOrderedField R] (P : Host R) (timeTick : R)
    (remainingTime : R) (WallHit : FHitResult R) (s : UTutCharacterMovementComponent R) :
    UTutCharacterMovementComponent R × R :=
  if (FVector.scaleLeft timeTick s.Velocity).IsNearlyZero then (s, (0 : R))
  else
    let s1 := { s with toInherited :=
      (P.SafeMoveUpdatedComponent (FVector.scaleLeft timeTick s.Velocity) s.toInherited) }
    ({ s1 with toInherited := (P.SafeMoveUpdatedComponent
        (FVector.scale (FVector.scale (FVector.neg WallHit.Normal) P.WallAttractionForce) timeTick)
        s1.toInherited) },
      remainingTime)

namespace UTutCharacterMovementComponent

variable {R : Type}

/-- One pass through the body of the `while` loop of `PhysWallRun`, entered with the local
`remainingTime` and with `Iterations` already incremented: what follows the pass, and its
record. The cast, the two hand-overs, the velocity update and the position update are
`lockedCast`, `exitToFalling`, `integrateWallRun` and `moveAlongWall`. -/
def PhysWallRun.subTick [LinearOrderedField R] (E : Engine R) (W : World R) (P : Host R)
    (s : UTutCharacterMovementComponent R) (remainingTime : R) (Iterations : Int) :
    Step R × SubTick R :=
  let s := { s with bJustTeleported := false }
  let timeTick := P.GetSimulationTimeStep remainingTime Iterations
  let remainingTime := remainingTime - timeTick
  let OldLocation := s.Location
  let SinPullAwayAngle := P.Sin (P.DegreesToRadians P.WallRunPullAwayAngle)
  let WallHit := lockedCast W s
  let bWantsToPullAway := WallHit.IsValidBlockingHit && !s.Acceleration.IsNearlyZero
    && decide (FVector.dot (FVector.GetSafeNormal P.InvSqrt s.Acceleration) WallHit.Normal
        > SinPullAwayAngle)
  if !WallHit.IsValidBlockingHit || bWantsToPullAway then
    (Step.returned (exitToFalling E P remainingTime Iterations s) remainingTime Iterations,
      ⟨timeTick, .lostWall⟩)
  else
    let s := integrateWallRun P timeTick WallHit s
    if decide (s.Velocity.SizeSquared2D < s.MinWallRunSpeed ^ 2)
        || decide (s.Velocity.Z < -s.MaxVerticalWallRunSpeed) then
      (Step.returned (exitToFalling E P remainingTime Iterations s) remainingTime Iterations,
        ⟨timeTick, .tooSlow⟩)
    else
      let moved := moveAlongWall P timeTick remainingTime WallHit s
      let s := moved.1
      let remainingTime := moved.2
      if s.Location = OldLocation then (Step.broke s 0, ⟨timeTick, .stalled⟩)
      else
        let s := { s with Velocity := FVector.div (FVector.sub s.Location OldLocation) timeTick }
        (Step.next s remainingTime, ⟨timeTick, .moved⟩)

/-- The `while` loop of `PhysWallRun`: as long as `remainingTime >= MIN_TICK_TIME`,
`Iterations < MaxSimulationIterations`, the owner is valid and has a controller (or physics
runs without one, or the owner is a simulated proxy), `Iterations` is incremented and the
body runs. The recursion is on the distance from `Iterations` to `MaxSimulationIterations`. -/
def PhysWallRun.loop [LinearOrderedField R] (E : Engine R) (W : World R) (P : Host R)
    (s : UTutCharacterMovementComponent R) (remainingTime : R) (Iterations : Int)
    (subTicks : List (SubTick R)) : LoopResult R :=
  if _h : MIN_TICK_TIME R ≤ remainingTime ∧ Iterations < P.MaxSimulationIterations ∧
      s.CharacterOwner = true ∧ (P.Controller = true ∨ P.bRunPhysicsWithNoController = true ∨
        s.LocalRole = .ROLE_SimulatedProxy) then
    match PhysWallRun.subTick E W P s remainingTime (Iterations + 1) with
    | (Step.next s1 remainingTime1, t) =>
      PhysWallRun.loop E W P s1 remainingTime1 (Iterations + 1) (subTicks ++ [t])
    | (Step.broke s1 remainingTime1, t) =>
      ⟨s1, remainingTime1, Iterations + 1, subTicks ++ [t], none⟩
    | (Step.returned s1 remainingTime1 Iterations1, t) =>
      ⟨s1, remainingTime1, Iterations1, subTicks ++ [t], some (remainingTime1, Iterations1)⟩
  else ⟨s, remainingTime, Iterations, subTicks, none⟩
termination_by (P.MaxSimulationIterations - Iterations).toNat
decreasing_by omega

/-- Member `PhysWallRun(deltaTime, Iterations)`. -/
def PhysWallRun [LinearOrderedField R] (E : Engine R) (W : World R) (P : Host R)
    (deltaTime : R) (Iterations : Int) (s : UTutCharacterMovementComponent R) :
    PhysWallRunResult R :=
  if deltaTime < MIN_TICK_TIME R then ⟨s, [], none⟩
  else if !s.CustomCharacter || (!P.Controller && !P.bRunPhysicsWithNoController
      && !P.HasAnimRootMotion && !P.HasOverrideVelocity
      && decide (s.LocalRole ≠ .ROLE_SimulatedProxy)) then
    let s := { s with Acceleration := FVector.ZeroVector }
    let s := { s with Velocity := FVector.ZeroVector }
    ⟨s, [], none⟩
  else
    let s := { s with bJustTeleported := false }
    let r := PhysWallRun.loop E W P s deltaTime Iterations []
    match r.handoff with
    | some h => ⟨r.state, r.subTicks, some h⟩
    | none =>
      let s := r.state
      let Start := s.Location
      let CastDelta := FVector.scale (FVector.scale s.RightVector W.ScaledCapsuleRadius) 2
      let End :=
        if s.bWallRunIsRight then FVector.add Start CastDelta else FVector.sub Start CastDelta
      let WallHit := (W.LineTraceSingleByProfile Start End).2
      let FloorHit := (W.LineTraceSingleByProfile Start
        (FVector.add Start (FVector.scale FVector.DownVector
          (W.ScaledCapsuleHalfHeight + s.MinWallRunHeight * (1 / 2))))).2
      if FloorHit.IsValidBlockingHit || !WallHit.IsValidBlockingHit
          || decide (s.Velocity.SizeSquared2D < s.MinWallRunSpeed ^ 2) then
        ⟨SetMovementMode E .MOVE_Falling 0 s, r.subTicks, none⟩
      else ⟨s, r.subTicks, none⟩

/-- Member `PhysCustom(deltaTime, Iterations)`: the component afterwards, or the fatal error
of the `default` branch. -/
def PhysCustom [LinearOrderedField R] (E : Engine R) (W : World R) (P : Host R)
    (deltaTime : R) (Iterations : Int) (s : UTutCharacterMovementComponent R) :
    Except FatalError (UTutCharacterMovementComponent R) :=
  if s.LocalRole = .ROLE_SimulatedProxy then Except.ok s
  else if s.CustomMovementMode = MOVE_WallRunning then
    let s := (PhysWallRun E W P deltaTime Iterations s).state
    Except.ok { s with toInherited := P.Super_PhysCustom deltaTime Iterations s.toInherited }
  else Except.error FatalError.InvalidMovementMode

/-- Member `UpdateCharacterStateBeforeMovement(DeltaSeconds)`. -/
def UpdateCharacterStateBeforeMovement [LinearOrderedField R] (E : Engine R) (W : World R)
    (P : Host R) (DeltaSeconds : R) (s : UTutCharacterMovementComponent R) :
    UTutCharacterMovementComponent R :=
  let s := { s with toInherited :=
    P.Super_UpdateCharacterStateBeforeMovement DeltaSeconds s.toInherited }
  if s.LocalRole ≠ .ROLE_SimulatedProxy then
    let s := if CanSprint P s then { s with bIsSprinting := true }
      else { s with bIsSprinting := false }
    if s.IsFalling then (TryWallRun E W s).2 else s
  else s

end UTutCharacterMovementComponent

/-! ## Saved moves -/

/-- The class `FCustomSavedMove`: the part of the engine base class `FSavedMove_Character`,
kept as a value of a type `S`, and the five saved members with their in-class initialisers
(`SavedMaxCustomSpeed = 800.f`). -/
structure FCustomSavedMove (S R : Type) where
  Super : S
  bWantsToSprintSaved : Bool
  bWallRunIsRightSaved : Bool
  SavedMovementFlagCustom : Nat
  SavedMaxCustomSpeed : R
  SavedLaunchVelocityCustom : FVector R
deriving DecidableEq, Repr

/-- The `Super::` implementations of `FSavedMove_Character` called by `FCustomSavedMove`. The
character argument of the engine is given as the movement component it owns. -/
structure SavedMoveEngine (S R : Type) where
  /-- Base `FSavedMove_Character::CanCombineWith(NewMove, Character, MaxDelta)`. -/
  Super_CanCombineWith : S → S → Inherited R → R → Bool
  /-- Base `FSavedMove_Character::SetMoveFor(Character, InDeltaTime, NewAccel, ClientData)`. -/
  Super_SetMoveFor : Inherited R → R → FVector R → S → S
  /-- Base `FSavedMove_Character::PrepMoveFor(Character)`: its effect on the character's movement. -/
  Super_PrepMoveFor : S → Inherited R → Inherited R
  /-- Base `FSavedMove_Character::Clear()`. -/
  Super_Clear : S → S
  /-- Default-constructed `FSavedMove_Character`. -/
  Super_new : S

namespace FCustomSavedMove

variable {S R : Type}

/-- Constructor `FCustomSavedMove()` as used by `AllocateNewMove`: the in-class initialisers
of the header. -/
def new [Zero R] [NatCast R] (E : SavedMoveEngine S R) : FCustomSavedMove S R :=
  { Super := E.Super_new
    bWantsToSprintSaved := false
    bWallRunIsRightSaved := false
    SavedMovementFlagCustom := 0
    SavedMaxCustomSpeed := ((800 : Nat) : R)
    SavedLaunchVelocityCustom := ⟨0, 0, 0⟩ }

/-- Member `CanCombineWith(NewMove, Character, MaxDelta)`. -/
def CanCombineWith [DecidableEq R] (E : SavedMoveEngine S R) (self : FCustomSavedMove S R)
    (NewMove : FCustomSavedMove S R) (Character : UTutCharacterMovementComponent R)
    (MaxDelta : R) : Bool :=
  if self.bWantsToSprintSaved ≠ NewMove.bWantsToSprintSaved then false
  else if self.bWallRunIsRightSaved ≠ NewMove.bWallRunIsRightSaved then false
  else if self.SavedMaxCustomSpeed ≠ NewMove.SavedMaxCustomSpeed then false
  else if self.SavedLaunchVelocityCustom ≠ NewMove.SavedLaunchVelocityCustom then false
  else if self.SavedMovementFlagCustom ≠ NewMove.SavedMovementFlagCustom then false
  else E.Super_CanCombineWith self.Super NewMove.Super Character.toInherited MaxDelta

/-- Member `SetMoveFor(Character, InDeltaTime, NewAccel, ClientData)`. `isCustom` is the
outcome of `Cast<UTutCharacterMovementComponent>(Character->GetCharacterMovement())`:
whether the character's movement component is of the custom class. -/
def SetMoveFor (E : SavedMoveEngine S R) (Character : UTutCharacterMovementComponent R)
    (isCustom : Bool) (InDeltaTime : R) (NewAccel : FVector R) (self : FCustomSavedMove S R) :
    FCustomSavedMove S R :=
  let m := { self with
    Super := E.Super_SetMoveFor Character.toInherited InDeltaTime NewAccel self.Super }
  if isCustom then
    { m with
      bWantsToSprintSaved := Character.bWantsToSprint
      bWallRunIsRightSaved := Character.bWallRunIsRight
      SavedMaxCustomSpeed := Character.CustomMaxSpeed
      SavedLaunchVelocityCustom := Character.LaunchVelocityCustom
      SavedMovementFlagCustom := Character.MovementFlagCustom }
  else m

/-- Member `PrepMoveFor(Character)`: the character's movement component afterwards. -/
def PrepMoveFor (E : SavedMoveEngine S R) (self : FCustomSavedMove S R) (isCustom : Bool)
    (Character : UTutCharacterMovementComponent R) : UTutCharacterMovementComponent R :=
  let c := { Character with toInherited := E.Super_PrepMoveFor self.Super Character.toInherited }
  if isCustom then
    { c with
      bWantsToSprint := self.bWantsToSprintSaved
      bWallRunIsRight := self.bWallRunIsRightSaved
      CustomMaxSpeed := self.SavedMaxCustomSpeed
      LaunchVelocityCustom := self.SavedLaunchVelocityCustom
      MovementFlagCustom := self.SavedMovementFlagCustom }
  else c

/-- Member `Clear()`. -/
def Clear [Zero R] [NatCast R] (E : SavedMoveEngine S R) (self : FCustomSavedMove S R) :
    FCustomSavedMove S R :=
  { self with
    Super := E.Super_Clear self.Super
    bWantsToSprintSaved := false
    bWallRunIsRightSaved := false
    SavedMaxCustomSpeed := ((800 : Nat) : R)
    SavedLaunchVelocityCustom := ⟨0, 0, 0⟩
    SavedMovementFlagCustom := 0 }

end FCustomSavedMove

/-- Member `FCustomNetworkPredictionData_Client::AllocateNewMove()`: `new FCustomSavedMove()`. -/
def AllocateNewMove {S R : Type} [Zero R] [NatCast R] (E : SavedMoveEngine S R) :
    FCustomSavedMove S R :=
  FCustomSavedMove.new E


/-! ## Move data and its wire format -/

/-- Engine enumeration `ENetworkMoveType`. -/
inductive ENetworkMoveType where
  | NewMove
  | PendingMove
  | OldMove
deriving DecidableEq, Repr

/-- One entry of an archive stream: a single bit written by `SerializeBits(&b, 1)`, or a value
written by `Ar << Value` for one of the four types the move data streams. -/
inductive Item (R : Type) where
  | bit (b : Bool)
  | flag (b : Bool)
  | float (x : R)
  | vector (v : FVector R)
  | byte (n : Nat)
deriving DecidableEq, Repr

/-- Engine type `FArchive`, as far as `Serialize` uses it: the direction (`IsSaving()`), the
stream (a saving archive appends at the end, a loading archive reads from the front) and the
error flag (`IsError()`). -/
structure FArchive (R : Type) where
  bIsSaving : Bool
  Stream : List (Item R)
  bError : Bool
deriving DecidableEq, Repr

/-- The stream operator `Ar << Value` for a type `T`: the entry a value is written as, and
the value an entry is read as. -/
structure Wire (R T : Type) where
  put : T → Item R
  get : Item R → Option T

/-- Stream operator for `bool`. -/
def Wire.ofBool {R : Type} : Wire R Bool :=
  { put := Item.flag, get := fun i => match i with | Item.flag b => some b | _ => none }

/-- Stream operator for `float`. -/
def Wire.ofFloat {R : Type} : Wire R R :=
  { put := Item.float, get := fun i => match i with | Item.float x => some x | _ => none }

/-- Stream operator for `FVector`. -/
def Wire.ofVector {R : Type} : Wire R (FVector R) :=
  { put := Item.vector, get := fun i => match i with | Item.vector v => some v | _ => none }

/-- Stream operator for `uint8`. -/
def Wire.ofUInt8 {R : Type} : Wire R Nat :=
  { put := Item.byte, get := fun i => match i with | Item.byte n => some n | _ => none }

namespace FArchive

variable {R : Type}

/-- Engine `Ar.SerializeBits(&b, 1)`: a saving archive appends the bit; a loading archive
reads it from the front, and on a stream that does not start with a bit raises the error
flag and yields a cleared bit. -/
def SerializeBit (Ar : FArchive R) (b : Bool) : Bool × FArchive R :=
  if Ar.bIsSaving then (b, { Ar with Stream := Ar.Stream ++ [Item.bit b] })
  else
    match Ar.Stream with
    | Item.bit b1 :: rest => (b1, { Ar with Stream := rest })
    | _ => (false, { Ar with bError := true })

/-- Engine `Ar << Value`: a saving archive appends the value; a loading archive reads it from
the front, and on a stream that does not start with a value of the type raises the error flag
and keeps `Value`. -/
def Serialize {T : Type} (w : Wire R T) (Ar : FArchive R) (Value : T) : T × FArchive R :=
  if Ar.bIsSaving then (Value, { Ar with Stream := Ar.Stream ++ [w.put Value] })
  else
    match Ar.Stream with
    | i :: rest =>
      (match w.get i with
       | some v => (v, { Ar with Stream := rest })
       | none => (Value, { Ar with bError := true }))
    | [] => (Value, { Ar with bError := true })

end FArchive

/-- Modelled from the spec: the engine helper template `SerializeOptionalValue<T>(bIsSaving, Ar,
Value, DefaultValue)` is not part of the repository sources. "Each field may be encoded only
when it differs from a known default; decoding must supply the same default when the field is
absent": when saving, one bit says whether `Value` differs from `DefaultValue` and the value
follows only if it does; when loading, the bit is read and the value is read if the bit is
set and is `DefaultValue` otherwise. -/
def SerializeOptionalValue {R T : Type} [DecidableEq T] (w : Wire R T) (bIsSaving : Bool)
    (Ar : FArchive R) (Value : T) (DefaultValue : T) : T × FArchive R :=
  if bIsSaving then
    let bNotDefault := decide (Value ≠ DefaultValue)
    let r := Ar.SerializeBit bNotDefault
    if r.1 then FArchive.Serialize w r.2 Value else (Value, r.2)
  else
    let r := Ar.SerializeBit false
    if r.1 then FArchive.Serialize w r.2 Value else (DefaultValue, r.2)

/-- The wire format of the engine base class `FCharacterNetworkMoveData`, whose `Serialize` is
not part of the repository: the entries a base record is written as, and the reading of a base
record from the front of a stream (the record and the rest of the stream, or a failure). -/
structure BaseCodec (B R : Type) where
  encode : ENetworkMoveType → B → List (Item R)
  decode : ENetworkMoveType → List (Item R) → Option (B × List (Item R))

/-- Base `FCharacterNetworkMoveData::Serialize`: a saving archive appends the encoding of the
base record, a loading archive reads a base record from the front and raises the error flag
when it cannot. -/
def BaseCodec.Super_Serialize {B R : Type} (C : BaseCodec B R) (MoveType : ENetworkMoveType)
    (Ar : FArchive R) (b : B) : B × FArchive R :=
  if Ar.bIsSaving then (b, { Ar with Stream := Ar.Stream ++ C.encode MoveType b })
  else
    match C.decode MoveType Ar.Stream with
    | some (b1, rest) => (b1, { Ar with Stream := rest })
    | none => (b, { Ar with bError := true })

/-- The class `FCustomNetworkMoveData`: the part of the engine base class
`FCharacterNetworkMoveData`, kept as a value of a type `B`, and the four custom members. -/
structure FCustomNetworkMoveData (B R : Type) where
  Super : B
  bWantsToSprintMoveData : Bool
  MaxCustomSpeedMoveData : R
  LaunchVelocityCustomMoveData : FVector R
  MovementFlagCustomMoveData : Nat
deriving DecidableEq, Repr

namespace FCustomNetworkMoveData

variable {B R : Type}

/-- Default-constructed move data over a base record: the in-class initialisers of the header
(`false`, `800.f`, `FVector(0.f, 0.f, 0.f)`, `0`). -/
def new [Zero R] [NatCast R] (b : B) : FCustomNetworkMoveData B R :=
  { Super := b
    bWantsToSprintMoveData := false
    MaxCustomSpeedMoveData := ((800 : Nat) : R)
    LaunchVelocityCustomMoveData := ⟨0, 0, 0⟩
    MovementFlagCustomMoveData := 0 }

/-- Member `Serialize(CharacterMovement, Ar, PackageMap, MoveType)`: the returned flag
(`!Ar.IsError()`), the move data and the archive afterwards. -/
def Serialize [Zero R] [NatCast R] [DecidableEq R] (C : BaseCodec B R)
    (MoveType : ENetworkMoveType) (Ar : FArchive R) (self : FCustomNetworkMoveData B R) :
    Bool × FCustomNetworkMoveData B R × FArchive R :=
  let r0 := C.Super_Serialize MoveType Ar self.Super
  let self := { self with Super := r0.1 }
  let Ar := r0.2
  let r1 := SerializeOptionalValue Wire.ofBool Ar.bIsSaving Ar self.bWantsToSprintMoveData false
  let self := { self with bWantsToSprintMoveData := r1.1 }
  let Ar := r1.2
  let r2 := SerializeOptionalValue Wire.ofFloat Ar.bIsSaving Ar self.MaxCustomSpeedMoveData
    ((800 : Nat) : R)
  let self := { self with MaxCustomSpeedMoveData := r2.1 }
  let Ar := r2.2
  let r3 := SerializeOptionalValue Wire.ofVector Ar.bIsSaving Ar
    self.LaunchVelocityCustomMoveData ⟨0, 0, 0⟩
  let self := { self with LaunchVelocityCustomMoveData := r3.1 }
  let Ar := r3.2
  let r4 := SerializeOptionalValue Wire.ofUInt8 Ar.bIsSaving Ar self.MovementFlagCustomMoveData 0
  let self := { self with MovementFlagCustomMoveData := r4.1 }
  let Ar := r4.2
  (!Ar.bError, self, Ar)

end FCustomNetworkMoveData

/-- The entries one optional field occupies on the wire: a cleared bit when the field is
absent, a set bit followed by the value when it is present. -/
def wireField {R T : Type} (w : Wire R T) : Option T → List (Item R)
  | none => [Item.bit false]
  | some v => [Item.bit true, w.put v]

/-- The field as sent: absent when the value equals the default, present otherwise. -/
def omitDefault {T : Type} [DecidableEq T] (Value DefaultValue : T) : Option T :=
  if Value = DefaultValue then none else some Value

/-! ## Movement flags, jumping and received moves -/

/-- The `Super::` implementations of the engine base class behind the two jump overrides, and
the jump configuration of the component. -/
structure JumpEngine (R : Type) where
  /-- Base `UCharacterMovementComponent::CanAttemptJump()`. -/
  Super_CanAttemptJump : Inherited R → Bool
  /-- Base `UCharacterMovementComponent::DoJump(bReplayingMoves)`: the returned flag and the
  component afterwards (the base implementation requests a mode, which reaches the
  component's own `OnMovementModeChanged`). -/
  Super_DoJump : Bool → UTutCharacterMovementComponent R → Bool × UTutCharacterMovementComponent R
  WallJumpForce : R

namespace UTutCharacterMovementComponent

variable {R : Type}

/-- Member `ActivateMovementFlag(FlagToActivate)`: `MovementFlagCustom |= FlagToActivate`,
stored back into the `uint8`. -/
def ActivateMovementFlag (FlagToActivate : Nat) (s : UTutCharacterMovementComponent R) :
    UTutCharacterMovementComponent R :=
  { s with MovementFlagCustom := (s.MovementFlagCustom ||| FlagToActivate) % 256 }

/-- Member `ClearMovementFlag(FlagToClear)`: `MovementFlagCustom &= ~FlagToClear`, stored back
into the `uint8`. The complement of the promoted byte has all its bits above the eighth set and
its low eight bits flipped; under the conjunction with a byte only the low eight matter. -/
def ClearMovementFlag (FlagToClear : Nat) (s : UTutCharacterMovementComponent R) :
    UTutCharacterMovementComponent R :=
  { s with MovementFlagCustom := (s.MovementFlagCustom &&& (FlagToClear ^^^ 255)) % 256 }

/-- Member `DoesCharacterWantToFly()`. -/
def DoesCharacterWantToFly (s : UTutCharacterMovementComponent R) : Bool :=
  s.IsFlagActive CFLAG_WantsToFly

/-- Member `CanAttemptJump()`. -/
def CanAttemptJump (J : JumpEngine R) (s : UTutCharacterMovementComponent R) : Bool :=
  J.Super_CanAttemptJump s.toInherited || s.IsWallRunning

/-- Member `DoJump(bReplayingMoves)`: the returned flag and the component afterwards. -/
def DoJump [Add R] [Sub R] [Mul R] [OfNat R 2] (J : JumpEngine R) (W : World R)
    (bReplayingMoves : Bool) (s : UTutCharacterMovementComponent R) :
    Bool × UTutCharacterMovementComponent R :=
  let bWasWallRunning := s.IsWallRunning
  let r := J.Super_DoJump bReplayingMoves s
  if r.1 then
    let s := r.2
    if bWasWallRunning && s.CustomCharacter then
      let Start := s.Location
      let CastDelta := FVector.scale (FVector.scale s.RightVector W.ScaledCapsuleRadius) 2
      let End := if s.bWallRunIsRight then FVector.add Start CastDelta
        else FVector.sub Start CastDelta
      let WallHit := (W.LineTraceSingleByProfile Start End).2
      (true, { s with Velocity :=
        (FVector.add s.Velocity (FVector.scale WallHit.Normal J.WallJumpForce)) })
    else (true, s)
  else (false, r.2)

/-- Member `MoveAutonomous(ClientTimeStamp, DeltaTime, CompressedFlags, NewAccel)`.
`CurrentMoveData` is the outcome of `GetCurrentNetworkMoveData()` (`none` for a null pointer)
and `Super_MoveAutonomous` the base implementation, which runs the movement step and with it
any code of the component. -/
def MoveAutonomous {B : Type}
    (Super_MoveAutonomous : R → R → Nat → FVector R → UTutCharacterMovementComponent R →
      UTutCharacterMovementComponent R)
    (CurrentMoveData : Option (FCustomNetworkMoveData B R)) (ClientTimeStamp DeltaTime : R)
    (CompressedFlags : Nat) (NewAccel : FVector R) (s : UTutCharacterMovementComponent R) :
    UTutCharacterMovementComponent R :=
  Super_MoveAutonomous ClientTimeStamp DeltaTime CompressedFlags NewAccel
    (match CurrentMoveData with
     | some d =>
       { s with
         bWantsToSprint := d.bWantsToSprintMoveData
         CustomMaxSpeed := d.MaxCustomSpeedMoveData
         LaunchVelocityCustom := d.LaunchVelocityCustomMoveData
         MovementFlagCustom := d.MovementFlagCustomMoveData }
     | none => s)

end UTutCharacterMovementComponent

/-- Member `FCustomNetworkMoveData::ClientFillNetworkMoveData(ClientMove, MoveType)`.
`Super_ClientFillNetworkMoveData` is the base implementation, which fills the base record from
the base part of the saved move. -/
def FCustomNetworkMoveData.ClientFillNetworkMoveData {S B R : Type}
    (Super_ClientFillNetworkMoveData : S → ENetworkMoveType → B → B)
    (ClientMove : FCustomSavedMove S R) (MoveType : ENetworkMoveType)
    (self : FCustomNetworkMoveData B R) : FCustomNetworkMoveData B R :=
  { self with
    Super := Super_ClientFillNetworkMoveData ClientMove.Super MoveType self.Super
    bWantsToSprintMoveData := ClientMove.bWantsToSprintSaved
    MaxCustomSpeedMoveData := ClientMove.SavedMaxCustomSpeed
    LaunchVelocityCustomMoveData := ClientMove.SavedLaunchVelocityCustom
    MovementFlagCustomMoveData := ClientMove.SavedMovementFlagCustom }

/-! ## Assumptions on the engine base class

The base class is a parameter; a statement that depends on what a `Super::` call does to an
inherited member names that dependence as one of the following conditions. -/

/-- The base `OnMovementModeChanged` leaves `Velocity` as it finds it. -/
def Engine.ModeChangeKeepsVelocity {R : Type} (E : Engine R) : Prop :=
  ∀ p c b, (E.Super_OnMovementModeChanged p c b).Velocity = b.Velocity

/-- The base `OnMovementModeChanged` leaves `MovementMode` as it finds it. -/
def Engine.ModeChangeKeepsMode {R : Type} (E : Engine R) : Prop :=
  ∀ p c b, (E.Super_OnMovementModeChanged p c b).MovementMode = b.MovementMode

/-- The base `OnMovementModeChanged` leaves `PendingLaunchVelocity` as it finds it. -/
def Engine.ModeChangeKeepsPendingLaunch {R : Type} (E : Engine R) : Prop :=
  ∀ p c b, (E.Super_OnMovementModeChanged p c b).PendingLaunchVelocity = b.PendingLaunchVelocity

/-- The base `OnMovementUpdated` leaves `PendingLaunchVelocity` as it finds it. -/
def Engine.UpdateKeepsPendingLaunch {R : Type} (E : Engine R) : Prop :=
  ∀ dt ol ov b, (E.Super_OnMovementUpdated dt ol ov b).PendingLaunchVelocity
    = b.PendingLaunchVelocity

/-- A stream operator reads back the entry it writes. -/
def Wire.Faithful {R T : Type} (w : Wire R T) : Prop := ∀ v, w.get (w.put v) = some v

/-- A base wire format reads back what it wrote and leaves the rest of the stream. -/
def BaseCodec.RoundTrips {B R : Type} (C : BaseCodec B R) : Prop :=
  ∀ t b rest, C.decode t (C.encode t b ++ rest) = some (b, rest)

/-- The base `OnMovementModeChanged` leaves `CustomMovementMode` as it finds it. -/
def Engine.ModeChangeKeepsCustomMode {R : Type} (E : Engine R) : Prop :=
  ∀ p c b, (E.Super_OnMovementModeChanged p c b).CustomMovementMode = b.CustomMovementMode

/-- The base `OnMovementUpdated` leaves `MovementMode` and `CustomMovementMode` as it finds
them. -/
def Engine.UpdateKeepsMode {R : Type} (E : Engine R) : Prop :=
  ∀ dt ol ov b, (E.Super_OnMovementUpdated dt ol ov b).MovementMode = b.MovementMode ∧
    (E.Super_OnMovementUpdated dt ol ov b).CustomMovementMode = b.CustomMovementMode

/-- The base `OnMovementUpdated` leaves the owner's local role as it finds it. -/
def Engine.UpdateKeepsRole {R : Type} (E : Engine R) : Prop :=
  ∀ dt ol ov b, (E.Super_OnMovementUpdated dt ol ov b).LocalRole = b.LocalRole

/-- The mode fields are a valid pair: the mode is not `MOVE_Custom`, or it is `MOVE_Custom`
with the sub-mode `MOVE_WallRunning`. -/
def ModeTagged {R : Type} (b : Inherited R) : Prop :=
  b.MovementMode = .MOVE_Custom → b.CustomMovementMode = MOVE_WallRunning

/-- The engine never breaks a valid pair of mode fields: each base implementation and engine
service that the operations of the component call returns a valid pair when it is given
one. -/
structure KeepsModeTagged {R : Type} (E : Engine R) (P : Host R) : Prop where
  modeChanged : ∀ p c b, ModeTagged b → ModeTagged (E.Super_OnMovementModeChanged p c b)
  movementUpdated : ∀ dt ol ov b, ModeTagged b → ModeTagged (E.Super_OnMovementUpdated dt ol ov b)
  beforeMovement : ∀ dt b,
    ModeTagged b → ModeTagged (P.Super_UpdateCharacterStateBeforeMovement dt b)
  calcVelocity : ∀ dt f fl br (s : UTutCharacterMovementComponent R),
    ModeTagged s.toInherited → ModeTagged (P.CalcVelocity dt f fl br s)
  safeMove : ∀ d b, ModeTagged b → ModeTagged (P.SafeMoveUpdatedComponent d b)
  startNewPhysics : ∀ rt it (s : UTutCharacterMovementComponent R),
    ModeTagged s.toInherited → ModeTagged (P.StartNewPhysics rt it s).toInherited

/-! ## Concrete instances used to exercise the statements -/

/-- An engine over the integers: the base mode-change notification clears `bJustTeleported`,
the base `OnMovementUpdated` is empty, and there is no navigation data. -/
def demoEngine : Engine ℤ :=
  { Super_OnMovementModeChanged := fun _ _ b => { b with bJustTeleported := false }
    Super_OnMovementUpdated := fun _ _ _ b => b
    bHasNavData := false }

/-- A walking component with valid owner, moving at `(300, 0, -50)`, nothing queued. -/
def demoWalking : UTutCharacterMovementComponent ℤ :=
  { MovementMode := .MOVE_Walking
    CustomMovementMode := 0
    Velocity := ⟨300, 0, -50⟩
    Acceleration := ⟨0, 0, 0⟩
    PendingLaunchVelocity := ⟨0, 0, 0⟩
    bForceNextFloorCheck := false
    bJustTeleported := false
    bIsActive := true
    UpdatedComponent := true
    CharacterOwner := true
    LocalRole := .ROLE_Authority
    Location := ⟨0, 0, 100⟩
    RightVector := ⟨0, 1, 0⟩
    bWantsToSprint := false
    bIsSprinting := false
    CustomMaxSpeed := 800
    MovementFlagCustom := 0
    bIsFlying := false
    LaunchVelocityCustom := ⟨0, 0, 0⟩
    bWallRunIsRight := false
    MinWallRunSpeed := 200
    MaxWallRunSpeed := 800
    MaxVerticalWallRunSpeed := 200
    MinWallRunHeight := 50
    CustomCharacter := true
    Trace := [] }

/-- The walking component with the launch `(300, 0, 500)` pending. -/
def demoPending : UTutCharacterMovementComponent ℤ :=
  { demoWalking with PendingLaunchVelocity := ⟨300, 0, 500⟩ }

/-- The walking component with the launch `(300, 0, 500)` queued and the stale launch
`(1, 2, 3)` pending. -/
def demoQueued : UTutCharacterMovementComponent ℤ :=
  { demoWalking with LaunchVelocityCustom := ⟨300, 0, 500⟩, PendingLaunchVelocity := ⟨1, 2, 3⟩ }

/-- A flying component with valid owner. -/
def demoFlying : UTutCharacterMovementComponent ℤ :=
  { demoWalking with MovementMode := .MOVE_Flying, bIsFlying := true }

/-- A component whose owner and custom character are not set yet. -/
def demoUnowned : UTutCharacterMovementComponent ℤ :=
  { demoPending with CharacterOwner := false, CustomCharacter := false }

/-- A world without any geometry: every trace misses. -/
def demoWorld : World ℤ :=
  { LineTraceSingleByProfile := fun _ _ => (false, ⟨false, false, ⟨0, 0, 0⟩⟩)
    ScaledCapsuleRadius := 34
    ScaledCapsuleHalfHeight := 88 }

/-- A base saved move that holds a time stamp: two base moves combine when their time stamps
are at most `MaxDelta` apart, `SetMoveFor` stores the delta time, `Clear` resets it. -/
def demoSavedMoveEngine : SavedMoveEngine ℤ ℤ :=
  { Super_CanCombineWith := fun a b _ d => decide (b - a ≤ d)
    Super_SetMoveFor := fun _ dt _ _ => dt
    Super_PrepMoveFor := fun _ b => { b with bForceNextFloorCheck := true }
    Super_Clear := fun _ => 0
    Super_new := 0 }

/-- A saved move of a sprinting client with a queued launch and the fly flag set. -/
def demoSavedMove : FCustomSavedMove ℤ ℤ :=
  { Super := 7
    bWantsToSprintSaved := true
    bWallRunIsRightSaved := true
    SavedMovementFlagCustom := 1
    SavedMaxCustomSpeed := 950
    SavedLaunchVelocityCustom := ⟨300, 0, 500⟩ }

/-- A base wire format that carries one byte (the base record is a natural number). -/
def demoCodec : BaseCodec Nat ℤ :=
  { encode := fun _ b => [Item.byte b]
    decode := fun _ st => match st with
      | Item.byte b :: rest => some (b, rest)
      | _ => none }

/-- Move data with the sprint intent set, the default max speed, a launch and no flag. -/
def demoMoveData : FCustomNetworkMoveData Nat ℤ :=
  { Super := 42
    bWantsToSprintMoveData := true
    MaxCustomSpeedMoveData := 800
    LaunchVelocityCustomMoveData := ⟨300, 0, 500⟩
    MovementFlagCustomMoveData := 0 }

/-- Move data left over from an earlier move, into which a new move is decoded. -/
def demoStaleMoveData : FCustomNetworkMoveData Nat ℤ :=
  { Super := 1
    bWantsToSprintMoveData := false
    MaxCustomSpeedMoveData := 0
    LaunchVelocityCustomMoveData := ⟨9, 9, 9⟩
    MovementFlagCustomMoveData := 3 }

/-- The walking component with the wants-to-fly bit set. -/
def demoWantsToFly : UTutCharacterMovementComponent ℤ :=
  { demoWalking with MovementFlagCustom := 1 }

/-- A component that has just been switched from Flying to Falling and still has `bIsFlying`
set: what `OnMovementModeChanged(MOVE_Flying, 0)` is called on. -/
def demoLeftFlying : UTutCharacterMovementComponent ℤ :=
  { demoFlying with MovementMode := .MOVE_Falling }

/-- A world with a vertical wall on the side of increasing Y (normal `(0, -1, 0)`), no wall
on the other side and no floor in reach. -/
def demoRightWall : World ℤ :=
  { LineTraceSingleByProfile := fun a b =>
      if a.Y < b.Y then (true, ⟨true, false, ⟨0, -1, 0⟩⟩) else (false, ⟨false, false, ⟨0, 0, 0⟩⟩)
    ScaledCapsuleRadius := 34
    ScaledCapsuleHalfHeight := 88 }

/-- A falling component that runs straight at the wall of `demoRightWall` with a horizontal
speed of `MinWallRunSpeed + 1 = 201`. -/
def demoIntoWall : UTutCharacterMovementComponent ℤ :=
  { demoWalking with MovementMode := .MOVE_Falling, Velocity := ⟨0, 201, 0⟩ }

/-- A falling component with `MinWallRunSpeed = 4` that moves along the wall of
`demoRightWall` and slightly into it, with a horizontal speed of 5. -/
def demoAlongWall : UTutCharacterMovementComponent ℤ :=
  { demoWalking with MovementMode := .MOVE_Falling, Velocity := ⟨4, 3, 0⟩, MinWallRunSpeed := 4 }

/-- A falling component that runs at the wall of `demoRightWall` with a horizontal speed of
exactly `MinWallRunSpeed = 200`. -/
def demoAtMinimum : UTutCharacterMovementComponent ℤ :=
  { demoWalking with MovementMode := .MOVE_Falling, Velocity := ⟨160, 120, 0⟩ }

/-- An engine over the rationals, like `demoEngine`. -/
def demoEngineQ : Engine ℚ :=
  { Super_OnMovementModeChanged := fun _ _ b => { b with bJustTeleported := false }
    Super_OnMovementUpdated := fun _ _ _ b => b
    bHasNavData := false }

/-- A host over the rationals. The base implementations do nothing, the base max speed is 600,
the actor faces along X, the sweeps move the component by the whole delta, `CalcVelocity`
keeps the velocity, `StartNewPhysics` does nothing, a step takes the whole remaining time, and
at most 8 iterations are allowed. The trigonometric and square-root services are stand-ins. -/
def demoHost : Host ℚ :=
  { Super_UpdateCharacterStateBeforeMovement := fun _ b => b
    Super_GetMaxSpeed := fun _ => 600
    Super_PhysCustom := fun _ _ b => b
    GetActorForwardVector := ⟨1, 0, 0⟩
    InvSqrt := fun _ => 1
    Sin := fun _ => 24 / 25
    DegreesToRadians := fun d => d / 57
    Controller := true
    bRunPhysicsWithNoController := false
    HasAnimRootMotion := false
    HasOverrideVelocity := false
    MaxSimulationIterations := 8
    GetSimulationTimeStep := fun remainingTime _ => remainingTime
    GetMaxBrakingDeceleration := fun _ => 0
    GetGravityZ := fun _ => -980
    CalcVelocity := fun _ _ _ _ s => s.toInherited
    SafeMoveUpdatedComponent := fun d b => { b with Location := FVector.add b.Location d }
    StartNewPhysics := fun _ _ s => s
    WallRunPullAwayAngle := 75
    WallAttractionForce := 200
    WallRunGravityScaleCurve := none }

/-- A world over the rationals with a leaning wall on the side of increasing Y (unit normal
`(0, -4/5, 3/5)`), no wall on the other side and no floor in reach. -/
def demoLeaningWall : World ℚ :=
  { LineTraceSingleByProfile := fun a b =>
      if a.Y < b.Y then (true, ⟨true, false, ⟨0, -4 / 5, 3 / 5⟩⟩)
      else (false, ⟨false, false, ⟨0, 0, 0⟩⟩)
    ScaledCapsuleRadius := 34
    ScaledCapsuleHalfHeight := 88 }

/-- A falling component over the rationals: horizontal speed exactly `MinWallRunSpeed = 200`
along X, falling at 100, authority role. -/
def demoFallingQ : UTutCharacterMovementComponent ℚ :=
  { MovementMode := .MOVE_Falling
    CustomMovementMode := 0
    Velocity := ⟨200, 0, -100⟩
    Acceleration := ⟨0, 0, 0⟩
    PendingLaunchVelocity := ⟨0, 0, 0⟩
    bForceNextFloorCheck := false
    bJustTeleported := false
    bIsActive := true
    UpdatedComponent := true
    CharacterOwner := true
    LocalRole := .ROLE_Authority
    Location := ⟨0, 0, 100⟩
    RightVector := ⟨0, 1, 0⟩
    bWantsToSprint := true
    bIsSprinting := false
    CustomMaxSpeed := 800
    MovementFlagCustom := 0
    bIsFlying := false
    LaunchVelocityCustom := ⟨0, 0, 0⟩
    bWallRunIsRight := false
    MinWallRunSpeed := 200
    MaxWallRunSpeed := 800
    MaxVerticalWallRunSpeed := 200
    MinWallRunHeight := 50
    CustomCharacter := true
    Trace := [] }

/-- A simulated proxy in the custom mode with the sub-mode `MOVE_CustomNone`. -/
def demoProxyQ : UTutCharacterMovementComponent ℚ :=
  { demoFallingQ with
    MovementMode := .MOVE_Custom, CustomMovementMode := MOVE_CustomNone,
    LocalRole := .ROLE_SimulatedProxy }

/-- A wall-running, sprinting component over the rationals. -/
def demoWallRunningQ : UTutCharacterMovementComponent ℚ :=
  { demoFallingQ with
    MovementMode := .MOVE_Custom, CustomMovementMode := MOVE_WallRunning, bIsSprinting := true }

/-- A component over the rationals that walks forward at unit speed and wants to sprint. -/
def demoWalkingQ : UTutCharacterMovementComponent ℚ :=
  { demoFallingQ with MovementMode := .MOVE_Walking, Velocity := ⟨1, 0, 0⟩ }

/-- A world over the rationals without any geometry: every trace misses and leaves a blank
hit. -/
def demoWorldQ : World ℚ :=
  { LineTraceSingleByProfile := fun _ _ => (false, ⟨false, false, ⟨0, 0, 0⟩⟩)
    ScaledCapsuleRadius := 34
    ScaledCapsuleHalfHeight := 88 }

/-- The wall-running component without a custom character, still moving at `(200, 0, -100)`
and accelerating along X. -/
def demoNoCharacterQ : UTutCharacterMovementComponent ℚ :=
  { demoWallRunningQ with CustomCharacter := false, Acceleration := ⟨50, 0, 0⟩ }

/-- The wall-running component locked on the wall of `demoLeaningWall`. -/
def demoOnRightWallQ : UTutCharacterMovementComponent ℚ :=
  { demoWallRunningQ with bWallRunIsRight := true }

/-- A base jump that always succeeds: it sets the vertical speed to 420 and the mode to
Falling; the base class allows a jump only on the ground, and the wall jump force is 300. -/
def demoJump : JumpEngine ℚ :=
  { Super_CanAttemptJump := fun b => decide (b.MovementMode = .MOVE_Walking)
    Super_DoJump := fun _ s =>
      (true, { s with
        Velocity := ⟨s.Velocity.X, s.Velocity.Y, 420⟩
        MovementMode := .MOVE_Falling
        CustomMovementMode := 0 })
    WallJumpForce := 300 }

/-- The walking component with the launch `(0, 0, 500)` queued by an earlier request of the
same frame. -/
def demoEarlierLaunch : UTutCharacterMovementComponent ℤ :=
  { demoWalking with LaunchVelocityCustom := ⟨0, 0, 500⟩ }

/-- A client component that wants to sprint at 950, has the launch `(300, 0, 500)` queued, the
wants-to-fly bit set and the wall on its right. -/
def demoClient : UTutCharacterMovementComponent ℤ :=
  { demoWalking with
    bWantsToSprint := true, CustomMaxSpeed := 950, LaunchVelocityCustom := ⟨300, 0, 500⟩,
    MovementFlagCustom := 1, bWallRunIsRight := true }

/-- A base `ClientFillNetworkMoveData` for the one-byte base record of `demoCodec`: the record
is the time stamp of the base saved move. -/
def demoClientFill : ℤ → ENetworkMoveType → Nat → Nat := fun m _ _ => m.toNat

/-- A base `MoveAutonomous` that only takes over the acceleration. -/
def demoMoveAutonomous : ℤ → ℤ → Nat → FVector ℤ → UTutCharacterMovementComponent ℤ →
    UTutCharacterMovementComponent ℤ :=
  fun _ _ _ a s => { s with Acceleration := a }

/-- A base `MoveAutonomous` that takes over the acceleration and ends, as the movement step of
the engine does, with the component's own `OnMovementUpdated`. -/
def demoMovementStep : ℤ → ℤ → Nat → FVector ℤ → UTutCharacterMovementComponent ℤ →
    UTutCharacterMovementComponent ℤ :=
  fun _ dt _ a s =>
    UTutCharacterMovementComponent.OnMovementUpdated demoEngine dt s.Location s.Velocity
      { s with Acceleration := a }

/-! ## Vocabulary of the statements -/

/-- The five tracked members of a saved move: sprint intent, wall-run side, custom max speed,
queued launch velocity, movement flag byte. -/
def FCustomSavedMove.tracked {S R : Type} (m : FCustomSavedMove S R) :
    Bool × Bool × R × FVector R × Nat :=
  (m.bWantsToSprintSaved, m.bWallRunIsRightSaved, m.SavedMaxCustomSpeed,
    m.SavedLaunchVelocityCustom, m.SavedMovementFlagCustom)

/-- The five members of the component that a saved move tracks, in the same order. -/
def UTutCharacterMovementComponent.tracked {R : Type} (s : UTutCharacterMovementComponent R) :
    Bool × Bool × R × FVector R × Nat :=
  (s.bWantsToSprint, s.bWallRunIsRight, s.CustomMaxSpeed, s.LaunchVelocityCustom,
    s.MovementFlagCustom)

/-- The exit handler `OnMovementModeChanged` selects for a previous mode and sub-mode, as the
trace entry of a call made while the component holds mode `m` and sub-mode `c`. -/
def exitCalls {R : Type} (PreviousMovementMode : EMovementMode) (PreviousCustomMode : Nat)
    (m : EMovementMode) (c : Nat) : List (Event R) :=
  if PreviousMovementMode = .MOVE_Custom then
    (if PreviousCustomMode = MOVE_WallRunning then [Event.handler .ExitWallRun m c] else [])
  else if PreviousMovementMode = .MOVE_Flying then [Event.handler .ExitFlying m c]
  else []

/-- The entry handler `OnMovementModeChanged` selects for the mode `m` and sub-mode `c` the
component holds, as the trace entry of a call made while it holds them. -/
def enterCalls {R : Type} (m : EMovementMode) (c : Nat) : List (Event R) :=
  if m = .MOVE_Custom then
    (if c = MOVE_WallRunning then [Event.handler .EnterWallRun m c] else [])
  else if m = .MOVE_Flying then [Event.handler .EnterFlying m c]
  else []

/-- The hit of the left wall cast of `TryWallRun`: from the location to twice the capsule
radius along the negated right vector. -/
def leftCast {R : Type} [LinearOrderedRing R] (W : World R)
    (s : UTutCharacterMovementComponent R) : FHitResult R :=
  (W.LineTraceSingleByProfile s.Location (FVector.sub s.Location
    (FVector.scale (FVector.scale s.RightVector W.ScaledCapsuleRadius) 2))).2

/-- The hit of the right wall cast of `TryWallRun`. -/
def rightCast {R : Type} [LinearOrderedRing R] (W : World R)
    (s : UTutCharacterMovementComponent R) : FHitResult R :=
  (W.LineTraceSingleByProfile s.Location (FVector.add s.Location
    (FVector.scale (FVector.scale s.RightVector W.ScaledCapsuleRadius) 2))).2

/-- The flag returned by the floor cast of `TryWallRun`: downwards over the capsule
half-height plus `MinWallRunHeight`. -/
def floorCast {R : Type} [LinearOrderedRing R] (W : World R)
    (s : UTutCharacterMovementComponent R) : Bool :=
  (W.LineTraceSingleByProfile s.Location (FVector.add s.Location
    (FVector.scale FVector.DownVector (W.ScaledCapsuleHalfHeight + s.MinWallRunHeight)))).1

/-- A wall hit qualifies for a wall run: it is a valid blocking hit and its normal opposes
the velocity. -/
def wallQualifies {R : Type} [LinearOrderedRing R] (s : UTutCharacterMovementComponent R)
    (h : FHitResult R) : Bool :=
  h.IsValidBlockingHit && decide (FVector.dot s.Velocity h.Normal < 0)

/-- The velocity projected on the plane of a wall hit keeps the minimum horizontal speed. -/
def keepsSpeed {R : Type} [LinearOrderedRing R] (s : UTutCharacterMovementComponent R)
    (h : FHitResult R) : Prop :=
  ¬ (FVector.VectorPlaneProject s.Velocity h.Normal).SizeSquared2D < s.MinWallRunSpeed ^ 2

/-- A hit on a vertical wall: the normal is horizontal and of unit length. -/
def FHitResult.IsVertical {R : Type} [LinearOrderedRing R] (h : FHitResult R) : Prop :=
  h.Normal.Z = 0 ∧ h.Normal.X * h.Normal.X + h.Normal.Y * h.Normal.Y = 1

/-- The component after the base class's part of the pre-step hook: what the component's own
part of `UpdateCharacterStateBeforeMovement` starts from. -/
def afterSuperBeforeMovement {R : Type} (P : Host R) (DeltaSeconds : R)
    (s : UTutCharacterMovementComponent R) : UTutCharacterMovementComponent R :=
  { s with toInherited := P.Super_UpdateCharacterStateBeforeMovement DeltaSeconds s.toInherited }

/-- The end of a wall-run attempt once a side is chosen, for the component `s1` with the side
recorded and the hit of that side: failure when the velocity projected on the wall plane is
below the minimum horizontal speed, and otherwise the projected velocity with its Z clamped
to `[0, MaxVerticalWallRunSpeed]` and the request for Custom/WallRunning. -/
def finishWallRun {R : Type} [LinearOrderedRing R] (E : Engine R)
    (s1 : UTutCharacterMovementComponent R) (WallHit : FHitResult R) :
    Bool × UTutCharacterMovementComponent R :=
  if (FVector.VectorPlaneProject s1.Velocity WallHit.Normal).SizeSquared2D
      < s1.MinWallRunSpeed ^ 2 then (false, s1)
  else
    (true, UTutCharacterMovementComponent.SetMovementMode E .MOVE_Custom MOVE_WallRunning
      { s1 with Velocity :=
        ⟨(FVector.VectorPlaneProject s1.Velocity WallHit.Normal).X,
         (FVector.VectorPlaneProject s1.Velocity WallHit.Normal).Y,
         Clamp (FVector.VectorPlaneProject s1.Velocity WallHit.Normal).Z 0
           s1.MaxVerticalWallRunSpeed⟩ })

/-- The component a pass through the loop body leaves. -/
def Step.state {R : Type} : Step R → UTutCharacterMovementComponent R
  | Step.returned s _ _ => s
  | Step.broke s _ => s
  | Step.next s _ => s

/-- The four members of the component that travel in the move data: sprint intent, custom
max speed, queued launch velocity, movement flag byte. -/
def UTutCharacterMovementComponent.networked {R : Type} (s : UTutCharacterMovementComponent R) :
    Bool × R × FVector R × Nat :=
  (s.bWantsToSprint, s.CustomMaxSpeed, s.LaunchVelocityCustom, s.MovementFlagCustom)

/-- The four custom members of the move data, in the same order. -/
def FCustomNetworkMoveData.custom {B R : Type} (d : FCustomNetworkMoveData B R) :
    Bool × R × FVector R × Nat :=
  (d.bWantsToSprintMoveData, d.MaxCustomSpeedMoveData, d.LaunchVelocityCustomMoveData,
    d.MovementFlagCustomMoveData)

/-- The launch velocity a request composes: the requested vector, plus the current velocity
on the axes that are not overridden. -/
def composedLaunch {R : Type} [Add R] (s : UTutCharacterMovementComponent R) (v : FVector R)
    (bXYOverride bZOverride : Bool) : FVector R :=
  ⟨if bXYOverride then v.X else v.X + s.Velocity.X,
   if bXYOverride then v.Y else v.Y + s.Velocity.Y,
   if bZOverride then v.Z else v.Z + s.Velocity.Z⟩

/-- The component without its record of outgoing calls. -/
def eraseTrace {R : Type} (s : UTutCharacterMovementComponent R) :
    UTutCharacterMovementComponent R :=
  { s with Trace := [] }

/-- Total time of a list of passes through the sub-tick loop. -/
def totalTime {R : Type} [AddMonoid R] (ts : List (SubTick R)) : R :=
  (ts.map SubTick.timeTick).sum

/-- The passes in which the movement was carried out. -/
def integrated {R : Type} (ts : List (SubTick R)) : List (SubTick R) :=
  ts.filter (fun t => decide (t.ending = SubTickEnd.moved))

/-- What one pass through the loop body, entered with `remainingTime` and `Iterations`, does
to the two counters: a hand-over passes on the time left after the pass and the iteration
count, a `break` leaves no time, and a completed pass leaves the time after the pass (or none
at all). -/
def stepAccounts {R : Type} [Sub R] [Zero R] (remainingTime : R) (Iterations : Int)
    (r : Step R × SubTick R) : Prop :=
  match r.1 with
  | Step.returned _ rt it =>
    rt = remainingTime - r.2.timeTick ∧ it = Iterations ∧
      (r.2.ending = SubTickEnd.lostWall ∨ r.2.ending = SubTickEnd.tooSlow)
  | Step.broke _ rt => rt = 0 ∧ r.2.ending = SubTickEnd.stalled
  | Step.next _ rt => (rt = remainingTime - r.2.timeTick ∨ rt = 0) ∧ r.2.ending = SubTickEnd.moved

/-- The wall a wall-run attempt settles on: the left one when it qualifies, else the right. -/
def chosenWall {R : Type} [LinearOrderedRing R] (W : World R)
    (s : UTutCharacterMovementComponent R) : FHitResult R :=
  if wallQualifies s (leftCast W s) = true then leftCast W s else rightCast W s

/-- The velocity a wall run starts with on a wall: the velocity projected on the wall plane,
with its Z then clamped to `[0, MaxVerticalWallRunSpeed]`. -/
def wallRunVelocity {R : Type} [LinearOrderedRing R] (s : UTutCharacterMovementComponent R)
    (h : FHitResult R) : FVector R :=
  ⟨(FVector.VectorPlaneProject s.Velocity h.Normal).X,
   (FVector.VectorPlaneProject s.Velocity h.Normal).Y,
   Clamp (FVector.VectorPlaneProject s.Velocity h.Normal).Z 0 s.MaxVerticalWallRunSpeed⟩

/-- The move data a client fills for a move captured from its component `c`: `SetMoveFor` on
a saved move (the character's movement component being of the custom class), then
`ClientFillNetworkMoveData`. -/
def sentMoveData {S B R : Type} (SE : SavedMoveEngine S R) (F : S → ENetworkMoveType → B → B)
    (c : UTutCharacterMovementComponent R) (InDeltaTime : R) (NewAccel : FVector R)
    (m0 : FCustomSavedMove S R) (t : ENetworkMoveType) (d0 : FCustomNetworkMoveData B R) :
    FCustomNetworkMoveData B R :=
  FCustomNetworkMoveData.ClientFillNetworkMoveData F
    (FCustomSavedMove.SetMoveFor SE c true InDeltaTime NewAccel m0) t d0

/-- The move data a server holds after move data `d` was encoded with `Serialize` on an empty
archive and the stream, followed by `rest`, decoded with `Serialize` into the move data `d1`. -/
def receivedMoveData {B R : Type} [Zero R] [NatCast R] [DecidableEq R] (C : BaseCodec B R)
    (t : ENetworkMoveType) (d : FCustomNetworkMoveData B R) (rest : List (Item R))
    (d1 : FCustomNetworkMoveData B R) : FCustomNetworkMoveData B R :=
  (FCustomNetworkMoveData.Serialize C t
    ⟨false, (FCustomNetworkMoveData.Serialize C t ⟨true, [], false⟩ d).2.2.Stream ++ rest, false⟩
    d1).2.1

/-- The flight scheduling of `OnMovementUpdated`, on the component the base class leaves: for
a role above the simulated proxy, Flying is requested when the wants-to-fly flag is set and
Falling when it is clear while the mode is Flying. -/
def scheduleFlight {R : Type} (E : Engine R) (s0 : UTutCharacterMovementComponent R) :
    UTutCharacterMovementComponent R :=
  if s0.LocalRole.toNat > ENetRole.ROLE_SimulatedProxy.toNat then
    if s0.IsFlagActive CFLAG_WantsToFly then
      (if s0.CanFly then UTutCharacterMovementComponent.SetMovementMode E .MOVE_Flying 0 s0
        else s0)
    else if (!s0.IsFlagActive CFLAG_WantsToFly || !s0.CanFly)
        && decide (s0.MovementMode = .MOVE_Flying) then
      UTutCharacterMovementComponent.SetMovementMode E .MOVE_Falling 0 s0
    else s0
  else s0

/-- The latch at the end of `OnMovementUpdated`: with a mode other than `MOVE_None`, active
and with valid data, the queued launch becomes the pending one and the queue is cleared. -/
def latchLaunch {R : Type} [Zero R] (s1 : UTutCharacterMovementComponent R) :
    UTutCharacterMovementComponent R :=
  if decide (s1.MovementMode ≠ .MOVE_None) && s1.IsActive && s1.HasValidData then
    { s1 with PendingLaunchVelocity := s1.LaunchVelocityCustom, LaunchVelocityCustom := ⟨0, 0, 0⟩ }
  else s1

/-- The mode `SetMovementMode` writes for a requested mode: the requested one, except that
`MOVE_NavWalking` without navigation data becomes `MOVE_Walking`. -/
def writtenMode {R : Type} (E : Engine R) (NewMovementMode : EMovementMode) : EMovementMode :=
  if NewMovementMode = .MOVE_NavWalking ∧ E.bHasNavData = false then EMovementMode.MOVE_Walking
  else NewMovementMode

/-- The sub-mode `SetMovementMode` writes for a request: 0 unless the requested mode is
custom. -/
def writtenCustomMode (NewMovementMode : EMovementMode) (NewCustomMode : Nat) : Nat :=
  if NewMovementMode ≠ .MOVE_Custom then 0 else NewCustomMode

/-- The authority's component `a` with its sprint intent, custom max speed, queued launch
velocity and flag byte replaced by those of the client's component `c`, and everything else
as it was. -/
def handedToBase {R : Type} (c a : UTutCharacterMovementComponent R) :
    UTutCharacterMovementComponent R :=
  { a with
    bWantsToSprint := c.bWantsToSprint
    CustomMaxSpeed := c.CustomMaxSpeed
    LaunchVelocityCustom := c.LaunchVelocityCustom
    MovementFlagCustom := c.MovementFlagCustom }

/-! ## Replicated launch -/

namespace UTutCharacterMovementComponent

variable {R : Type}

/-- C1. With a valid custom character, `LaunchCharacterReplicated(v, xyOverride, zOverride)`
queues in `LaunchVelocityCustom` the vector whose X and Y are those of `v` when `xyOverride`
is set and `v` plus the current velocity otherwise, and whose Z is that of `v` when
`zOverride` is set and `v.Z` plus the current `Velocity.Z` otherwise. -/
theorem LaunchCharacterReplicated_queues [Add R] (s : UTutCharacterMovementComponent R)
    (v : FVector R) (bXYOverride bZOverride : Bool) (h : s.CustomCharacter = true) :
    (LaunchCharacterReplicated v bXYOverride bZOverride s).LaunchVelocityCustom =
      ⟨if bXYOverride then v.X else v.X + s.Velocity.X,
       if bXYOverride then v.Y else v.Y + s.Velocity.Y,
       if bZOverride then v.Z else v.Z + s.Velocity.Z⟩ := by
  cases bXYOverride <;> cases bZOverride <;> simp [LaunchCharacterReplicated, h]

/-- C1, the instance of the spec: the request `(0, 0, 500)` with `xyOverride = false` and
`zOverride = true` at velocity `(300, 0, -50)` queues `(300, 0, 500)`. -/
theorem LaunchCharacterReplicated_queues_witness :
    demoWalking.CustomCharacter = true ∧ demoWalking.Velocity = ⟨300, 0, -50⟩ ∧
    (LaunchCharacterReplicated ⟨0, 0, 500⟩ false true demoWalking).LaunchVelocityCustom
      = ⟨300, 0, 500⟩ :=
  ⟨rfl, rfl, (LaunchCharacterReplicated_queues demoWalking ⟨0, 0, 500⟩ false true rfl).trans
    (by decide)⟩

/-- The zero test is equality with the zero vector. -/
theorem FVector_IsZero_iff [Zero R] [DecidableEq R] (v : FVector R) :
    v.IsZero = true ↔ v = FVector.ZeroVector := by
  cases v
  simp [FVector.IsZero, FVector.ZeroVector, and_assoc]

/-- The handlers and the base class leave the velocity alone during a mode-change
notification, when the base class does. -/
theorem OnMovementModeChanged_Velocity (E : Engine R) (hV : E.ModeChangeKeepsVelocity)
    (p : EMovementMode) (c : Nat) (s : UTutCharacterMovementComponent R) :
    (OnMovementModeChanged E p c s).Velocity = s.Velocity := by
  unfold OnMovementModeChanged
  dsimp only
  split_ifs <;>
    simp [hV _ _ _, ExitWallRun, ExitFlying, EnterWallRun, EnterFlying, record,
      ExitWallRun_Implementation, ExitFlying_Implementation, EnterWallRun_Implementation,
      EnterFlying_Implementation]

/-- The mode-change notification keeps the mode when the base class does. -/
theorem OnMovementModeChanged_MovementMode (E : Engine R) (hM : E.ModeChangeKeepsMode)
    (p : EMovementMode) (c : Nat) (s : UTutCharacterMovementComponent R) :
    (OnMovementModeChanged E p c s).MovementMode = s.MovementMode := by
  unfold OnMovementModeChanged
  dsimp only
  split_ifs <;>
    simp [hM _ _ _, ExitWallRun, ExitFlying, EnterWallRun, EnterFlying, record,
      ExitWallRun_Implementation, ExitFlying_Implementation, EnterWallRun_Implementation,
      EnterFlying_Implementation]

/-- The mode-change notification keeps the pending launch when the base class does. -/
theorem OnMovementModeChanged_PendingLaunchVelocity (E : Engine R)
    (hP : E.ModeChangeKeepsPendingLaunch) (p : EMovementMode) (c : Nat)
    (s : UTutCharacterMovementComponent R) :
    (OnMovementModeChanged E p c s).PendingLaunchVelocity = s.PendingLaunchVelocity := by
  unfold OnMovementModeChanged
  dsimp only
  split_ifs <;>
    simp [hP _ _ _, ExitWallRun, ExitFlying, EnterWallRun, EnterFlying, record,
      ExitWallRun_Implementation, ExitFlying_Implementation, EnterWallRun_Implementation,
      EnterFlying_Implementation]

/-- The mode-change notification never touches the queued launch of the derived class. -/
theorem OnMovementModeChanged_LaunchVelocityCustom (E : Engine R) (p : EMovementMode) (c : Nat)
    (s : UTutCharacterMovementComponent R) :
    (OnMovementModeChanged E p c s).LaunchVelocityCustom = s.LaunchVelocityCustom := by
  unfold OnMovementModeChanged
  dsimp only
  split_ifs <;>
    simp [ExitWallRun, ExitFlying, EnterWallRun, EnterFlying, record,
      ExitWallRun_Implementation, ExitFlying_Implementation, EnterWallRun_Implementation,
      EnterFlying_Implementation]

/-- A mode request keeps the velocity when the base class does. -/
theorem SetMovementMode_Velocity (E : Engine R) (hV : E.ModeChangeKeepsVelocity)
    (m : EMovementMode) (c : Nat) (s : UTutCharacterMovementComponent R) :
    (SetMovementMode E m c s).Velocity = s.Velocity := by
  unfold SetMovementMode
  dsimp only
  split_ifs <;> simp [OnMovementModeChanged_Velocity E hV]

/-- A mode request keeps the pending launch when the base class does. -/
theorem SetMovementMode_PendingLaunchVelocity (E : Engine R)
    (hP : E.ModeChangeKeepsPendingLaunch) (m : EMovementMode) (c : Nat)
    (s : UTutCharacterMovementComponent R) :
    (SetMovementMode E m c s).PendingLaunchVelocity = s.PendingLaunchVelocity := by
  unfold SetMovementMode
  dsimp only
  split_ifs <;> simp [OnMovementModeChanged_PendingLaunchVelocity E hP]

/-- A mode request never touches the queued launch of the derived class. -/
theorem SetMovementMode_LaunchVelocityCustom (E : Engine R) (m : EMovementMode) (c : Nat)
    (s : UTutCharacterMovementComponent R) :
    (SetMovementMode E m c s).LaunchVelocityCustom = s.LaunchVelocityCustom := by
  unfold SetMovementMode
  dsimp only
  split_ifs <;> simp [OnMovementModeChanged_LaunchVelocityCustom E]

/-- A request for a mode other than `MOVE_NavWalking` ends in that mode when the base class
keeps the mode. -/
theorem SetMovementMode_MovementMode (E : Engine R) (hM : E.ModeChangeKeepsMode)
    (m : EMovementMode) (hm : m ≠ .MOVE_NavWalking) (c : Nat)
    (s : UTutCharacterMovementComponent R) :
    (SetMovementMode E m c s).MovementMode = m := by
  unfold SetMovementMode
  dsimp only
  split_ifs <;> simp_all [OnMovementModeChanged_MovementMode E hM]

/-- C2. `HandlePendingLaunch` returns true exactly when `PendingLaunchVelocity` is non-zero
and the component has valid data. When it returns true, the new `Velocity` is the old
`PendingLaunchVelocity`, the mode is Falling, `PendingLaunchVelocity` is zero and
`bForceNextFloorCheck` is set; when it returns false the component is unchanged. The velocity
and the mode after the call are read under the condition that the base class's mode-change
notification leaves `Velocity` and `MovementMode` as it finds them. -/
theorem HandlePendingLaunch_spec [Zero R] [DecidableEq R] (E : Engine R)
    (hV : E.ModeChangeKeepsVelocity) (hM : E.ModeChangeKeepsMode)
    (s : UTutCharacterMovementComponent R) :
    ((HandlePendingLaunch E s).1 = true ↔
      (s.PendingLaunchVelocity ≠ FVector.ZeroVector ∧ s.HasValidData = true)) ∧
    ((HandlePendingLaunch E s).1 = true →
      (HandlePendingLaunch E s).2.Velocity = s.PendingLaunchVelocity ∧
      (HandlePendingLaunch E s).2.MovementMode = .MOVE_Falling ∧
      (HandlePendingLaunch E s).2.PendingLaunchVelocity = FVector.ZeroVector ∧
      (HandlePendingLaunch E s).2.bForceNextFloorCheck = true) ∧
    ((HandlePendingLaunch E s).1 = false → (HandlePendingLaunch E s).2 = s) := by
  have hz := FVector_IsZero_iff s.PendingLaunchVelocity
  unfold HandlePendingLaunch
  by_cases h : (!s.PendingLaunchVelocity.IsZero && s.HasValidData) = true
  · rw [if_pos h]
    have h' := h
    simp only [Bool.and_eq_true, Bool.not_eq_true', ← Bool.not_eq_true] at h'
    refine ⟨⟨fun _ => ⟨fun e => h'.1 (hz.2 e), h'.2⟩, fun _ => rfl⟩, fun _ => ?_, by simp⟩
    refine ⟨?_, ?_, rfl, rfl⟩
    · simp [SetMovementMode_Velocity E hV]
    · simp [SetMovementMode_MovementMode E hM]
  · rw [if_neg h]
    refine ⟨⟨by simp, fun hh => absurd ?_ h⟩, by simp, fun _ => rfl⟩
    have h1 : s.PendingLaunchVelocity.IsZero = false := by
      cases hc : s.PendingLaunchVelocity.IsZero
      · rfl
      · exact absurd (hz.1 hc) hh.1
    simp [h1, hh.2]

/-- Shape of the post-advance hook: a component `s1` (the one left by the base class and the
flight scheduling) that still holds the queued launch, and the pending launch when the base
class keeps it, is latched when it passes the hook's test and returned as it is otherwise. -/
theorem OnMovementUpdated_shape [Zero R] (E : Engine R) (DeltaSeconds : R)
    (OldLocation OldVelocity : FVector R) (s : UTutCharacterMovementComponent R) :
    ∃ s1 : UTutCharacterMovementComponent R,
      s1.LaunchVelocityCustom = s.LaunchVelocityCustom ∧
      (E.UpdateKeepsPendingLaunch → E.ModeChangeKeepsPendingLaunch →
        s1.PendingLaunchVelocity = s.PendingLaunchVelocity) ∧
      OnMovementUpdated E DeltaSeconds OldLocation OldVelocity s =
        if (decide (s1.MovementMode ≠ .MOVE_None) && s1.IsActive && s1.HasValidData) = true then
          { s1 with PendingLaunchVelocity := s1.LaunchVelocityCustom,
                    LaunchVelocityCustom := ⟨0, 0, 0⟩ }
        else s1 := by
  refine ⟨_, ?_, ?_, rfl⟩
  · split_ifs <;> simp [SetMovementMode_LaunchVelocityCustom]
  · intro hU hP
    split_ifs <;> simp [SetMovementMode_PendingLaunchVelocity E hP, hU _ _ _ _]

/-- C3. The post-advance hook latches the queued launch. With `s1` the component after the
hook: when its mode is not `MOVE_None` and it is active with valid data (the hook's test, made
after the flight scheduling; the latch itself changes none of the three),
`PendingLaunchVelocity` holds what `LaunchVelocityCustom` held before the hook and
`LaunchVelocityCustom` is zero; otherwise both hold what they held before the hook. The
unchanged `PendingLaunchVelocity` is read under the condition that the base class's
`OnMovementUpdated` and mode-change notification leave it as they find it. -/
theorem OnMovementUpdated_latches [Zero R] (E : Engine R) (hU : E.UpdateKeepsPendingLaunch)
    (hP : E.ModeChangeKeepsPendingLaunch) (DeltaSeconds : R) (OldLocation OldVelocity : FVector R)
    (s : UTutCharacterMovementComponent R) :
    ((OnMovementUpdated E DeltaSeconds OldLocation OldVelocity s).MovementMode ≠ .MOVE_None ∧
      (OnMovementUpdated E DeltaSeconds OldLocation OldVelocity s).IsActive = true ∧
      (OnMovementUpdated E DeltaSeconds OldLocation OldVelocity s).HasValidData = true →
        (OnMovementUpdated E DeltaSeconds OldLocation OldVelocity s).PendingLaunchVelocity
          = s.LaunchVelocityCustom ∧
        (OnMovementUpdated E DeltaSeconds OldLocation OldVelocity s).LaunchVelocityCustom
          = ⟨0, 0, 0⟩) ∧
    (¬ ((OnMovementUpdated E DeltaSeconds OldLocation OldVelocity s).MovementMode ≠ .MOVE_None ∧
      (OnMovementUpdated E DeltaSeconds OldLocation OldVelocity s).IsActive = true ∧
      (OnMovementUpdated E DeltaSeconds OldLocation OldVelocity s).HasValidData = true) →
        (OnMovementUpdated E DeltaSeconds OldLocation OldVelocity s).PendingLaunchVelocity
          = s.PendingLaunchVelocity ∧
        (OnMovementUpdated E DeltaSeconds OldLocation OldVelocity s).LaunchVelocityCustom
          = s.LaunchVelocityCustom) := by
  obtain ⟨s1, h1L, h1P, he⟩ := OnMovementUpdated_shape E DeltaSeconds OldLocation OldVelocity s
  rw [he]
  by_cases hc : (decide (s1.MovementMode ≠ .MOVE_None) && s1.IsActive && s1.HasValidData) = true
  · rw [if_pos hc]
    refine ⟨fun _ => ⟨h1L, rfl⟩, fun hn => absurd ?_ hn⟩
    simpa [IsActive, HasValidData, and_assoc] using hc
  · rw [if_neg hc]
    refine ⟨fun hh => absurd ?_ hc, fun _ => ⟨h1P hU hP, h1L⟩⟩
    simpa [IsActive, HasValidData, and_assoc] using hh

/-- C2, exercised: with the launch `(300, 0, 500)` pending on a walking component the call
returns true, the velocity is `(300, 0, 500)` and the mode is Falling. -/
theorem HandlePendingLaunch_spec_witness :
    demoEngine.ModeChangeKeepsVelocity ∧ demoEngine.ModeChangeKeepsMode ∧
    (HandlePendingLaunch demoEngine demoPending).1 = true ∧
    (HandlePendingLaunch demoEngine demoPending).2.Velocity = ⟨300, 0, 500⟩ ∧
    (HandlePendingLaunch demoEngine demoPending).2.MovementMode = .MOVE_Falling ∧
    (HandlePendingLaunch demoEngine demoPending).2.PendingLaunchVelocity = FVector.ZeroVector ∧
    (HandlePendingLaunch demoEngine demoPending).2.bForceNextFloorCheck = true :=
  ⟨fun _ _ _ => rfl, fun _ _ _ => rfl, by decide,
    (HandlePendingLaunch_spec demoEngine (fun _ _ _ => rfl) (fun _ _ _ => rfl) demoPending).2.1
      (by decide)⟩

/-- C3, exercised: a queued launch `(300, 0, 500)` replaces a stale pending launch. -/
theorem OnMovementUpdated_latches_witness :
    demoEngine.UpdateKeepsPendingLaunch ∧ demoEngine.ModeChangeKeepsPendingLaunch ∧
    (OnMovementUpdated demoEngine 1 ⟨0, 0, 0⟩ ⟨0, 0, 0⟩ demoQueued).PendingLaunchVelocity
      = ⟨300, 0, 500⟩ ∧
    (OnMovementUpdated demoEngine 1 ⟨0, 0, 0⟩ ⟨0, 0, 0⟩ demoQueued).LaunchVelocityCustom
      = ⟨0, 0, 0⟩ :=
  ⟨fun _ _ _ _ => rfl, fun _ _ _ => rfl,
    (OnMovementUpdated_latches demoEngine (fun _ _ _ _ => rfl) (fun _ _ _ => rfl) 1 ⟨0, 0, 0⟩
      ⟨0, 0, 0⟩ demoQueued).1 (by decide)⟩

/-- C4. The guarded operations do nothing when their guard fails: without a custom
character `LaunchCharacterReplicated` returns the component as it was (so no member changes
and the trace gains no `OnLaunched`) and `TryWallRun` returns false with the component as it
was; without valid data `HandlePendingLaunch` returns false with the component as it was and
`OnMovementModeChanged` returns the component as it was (so the trace gains no handler
call). -/
theorem guarded_operations_noop [LinearOrderedRing R] (E : Engine R) (W : World R)
    (s : UTutCharacterMovementComponent R) (v : FVector R) (bXYOverride bZOverride : Bool)
    (p : EMovementMode) (c : Nat) :
    (s.CustomCharacter = false → LaunchCharacterReplicated v bXYOverride bZOverride s = s) ∧
    (s.CustomCharacter = false → TryWallRun E W s = (false, s)) ∧
    (s.HasValidData = false → HandlePendingLaunch E s = (false, s)) ∧
    (s.HasValidData = false → OnMovementModeChanged E p c s = s) := by
  refine ⟨fun h => ?_, fun h => ?_, fun h => ?_, fun h => ?_⟩
  · simp [LaunchCharacterReplicated, h]
  · unfold TryWallRun
    split_ifs <;> simp_all
  · simp [HandlePendingLaunch, h]
  · simp [OnMovementModeChanged, h]

/-- C4, exercised on a component whose owner and custom character are not set. -/
theorem guarded_operations_noop_witness :
    demoUnowned.CustomCharacter = false ∧ demoUnowned.HasValidData = false ∧
    LaunchCharacterReplicated ⟨0, 0, 500⟩ false true demoUnowned = demoUnowned ∧
    TryWallRun demoEngine demoWorld demoUnowned = (false, demoUnowned) ∧
    HandlePendingLaunch demoEngine demoUnowned = (false, demoUnowned) ∧
    OnMovementModeChanged demoEngine .MOVE_Flying 0 demoUnowned = demoUnowned :=
  have h := guarded_operations_noop demoEngine demoWorld demoUnowned ⟨0, 0, 500⟩ false true
    .MOVE_Flying 0
  ⟨rfl, rfl, h.1 rfl, h.2.1 rfl, h.2.2.1 rfl, h.2.2.2 rfl⟩

/-! ## Mode switching -/

/-- With valid data, the mode-change notification appends to the trace the exit call for the
previous mode and then the entry call for the current mode, both made while the component
holds its current mode fields. -/
theorem OnMovementModeChanged_Trace (E : Engine R) (p : EMovementMode) (c : Nat)
    (s : UTutCharacterMovementComponent R) (hv : s.HasValidData = true) :
    (OnMovementModeChanged E p c s).Trace =
      s.Trace ++ exitCalls p c s.MovementMode s.CustomMovementMode
        ++ enterCalls s.MovementMode s.CustomMovementMode := by
  unfold OnMovementModeChanged exitCalls enterCalls
  dsimp only
  split_ifs <;>
    simp_all [ExitWallRun, ExitFlying, EnterWallRun, EnterFlying, record,
      ExitWallRun_Implementation, ExitFlying_Implementation, EnterWallRun_Implementation,
      EnterFlying_Implementation]

/-- C10, as the code has it. A mode change through `SetMovementMode` (valid data, and a mode
or custom sub-mode that differs from the current one) first writes the mode and sub-mode
fields and then runs the exit handler of the previous mode followed by the entry handler of
the new mode: the trace gains the exit call and then the entry call, and both are made while
`MovementMode` and `CustomMovementMode` already hold the values written. The mode written is
the requested one, or `MOVE_Walking` when `MOVE_NavWalking` is requested without navigation
data; the sub-mode written is 0 unless the requested mode is custom. -/
theorem SetMovementMode_order (E : Engine R) (s : UTutCharacterMovementComponent R)
    (NewMovementMode : EMovementMode) (NewCustomMode : Nat)
    (hv : s.HasValidData = true)
    (hc : s.MovementMode ≠ writtenMode E NewMovementMode ∨
      (NewMovementMode = .MOVE_Custom ∧ NewCustomMode ≠ s.CustomMovementMode)) :
    (SetMovementMode E NewMovementMode NewCustomMode s).Trace =
      s.Trace
        ++ exitCalls s.MovementMode s.CustomMovementMode (writtenMode E NewMovementMode)
            (writtenCustomMode NewMovementMode NewCustomMode)
        ++ enterCalls (writtenMode E NewMovementMode)
            (writtenCustomMode NewMovementMode NewCustomMode) := by
  have e2 : ¬ (s.MovementMode = writtenMode E NewMovementMode ∧
      (writtenMode E NewMovementMode ≠ .MOVE_Custom ∨
        writtenCustomMode NewMovementMode NewCustomMode = s.CustomMovementMode)) := by
    rintro ⟨h1, h2⟩
    rcases hc with hc | ⟨hc1, hc2⟩
    · exact hc h1
    · rcases h2 with h2 | h2
      · apply h2
        unfold writtenMode
        rw [if_neg (by rw [hc1]; simp), hc1]
      · unfold writtenCustomMode at h2
        rw [if_neg (not_not.mpr hc1)] at h2
        exact hc2 h2
  have e3 : ∀ (m : EMovementMode) (k : Nat),
      ({ s with MovementMode := m, CustomMovementMode := k } :
        UTutCharacterMovementComponent R).HasValidData = true := fun _ _ => hv
  have hdef : ∀ (m1 : EMovementMode) (c1 : Nat), m1 = writtenMode E NewMovementMode →
      c1 = writtenCustomMode NewMovementMode NewCustomMode →
      SetMovementMode E NewMovementMode NewCustomMode s =
        if s.MovementMode = m1 ∧ (m1 ≠ .MOVE_Custom ∨ c1 = s.CustomMovementMode) then s
        else if (!({ s with MovementMode := m1, CustomMovementMode := c1 } :
            UTutCharacterMovementComponent R).HasValidData) = true then
          { s with MovementMode := m1, CustomMovementMode := c1 }
        else OnMovementModeChanged E s.MovementMode s.CustomMovementMode
          { s with MovementMode := m1, CustomMovementMode := c1 } := by
    intro m1 c1 h1 h2
    subst h1
    subst h2
    rfl
  rw [hdef _ _ rfl rfl, if_neg e2, if_neg (by rw [e3]; simp),
    OnMovementModeChanged_Trace E _ _ _ (e3 _ _)]

/-- C10, exercised: leaving Flying for Falling, the trace gains the call of `ExitFlying`, made
while the mode fields hold Falling and 0, and no entry call; leaving Flying for NavWalking
without navigation data, `ExitFlying` is called while the mode fields hold Walking and 0. -/
theorem SetMovementMode_order_witness :
    demoFlying.HasValidData = true ∧ demoFlying.MovementMode = .MOVE_Flying ∧
    demoEngine.bHasNavData = false ∧
    (SetMovementMode demoEngine .MOVE_Falling 0 demoFlying).Trace =
      [Event.handler .ExitFlying .MOVE_Falling 0] ∧
    (SetMovementMode demoEngine .MOVE_NavWalking 0 demoFlying).Trace =
      [Event.handler .ExitFlying .MOVE_Walking 0] :=
  ⟨rfl, rfl, rfl,
    (SetMovementMode_order demoEngine demoFlying .MOVE_Falling 0 rfl
      (Or.inl (by decide))).trans (by decide),
    (SetMovementMode_order demoEngine demoFlying .MOVE_NavWalking 0 rfl
      (Or.inl (by decide))).trans (by decide)⟩

/-- C10 as stated fails: when `SetMovementMode(MOVE_Falling)` is called on a flying component,
`ExitFlying` is called while `MovementMode` holds Falling, not the previous mode Flying. -/
theorem SetMovementMode_exit_after_mutation :
    ¬ (∀ (m : EMovementMode) (c : Nat),
        Event.handler .ExitFlying m c ∈
          (SetMovementMode demoEngine .MOVE_Falling 0 demoFlying).Trace →
        m = demoFlying.MovementMode) := by
  intro h
  exact absurd (h .MOVE_Falling 0 (by decide)) (by decide)

end UTutCharacterMovementComponent

/-! ## Saved moves -/

namespace FCustomSavedMove

variable {S R : Type}

/-- C7. `CanCombineWith` returns true exactly when the five tracked members (sprint intent,
wall-run side, custom max speed, queued launch velocity, movement flag byte) are equal between
the two moves and the base `CanCombineWith` returns true; so two moves that differ in a
tracked member never combine, and when the five members are equal the result is the base
class's. -/
theorem CanCombineWith_iff [DecidableEq R] (E : SavedMoveEngine S R)
    (self NewMove : FCustomSavedMove S R) (Character : UTutCharacterMovementComponent R)
    (MaxDelta : R) :
    (CanCombineWith E self NewMove Character MaxDelta = true ↔
      (self.bWantsToSprintSaved = NewMove.bWantsToSprintSaved ∧
       self.bWallRunIsRightSaved = NewMove.bWallRunIsRightSaved ∧
       self.SavedMaxCustomSpeed = NewMove.SavedMaxCustomSpeed ∧
       self.SavedLaunchVelocityCustom = NewMove.SavedLaunchVelocityCustom ∧
       self.SavedMovementFlagCustom = NewMove.SavedMovementFlagCustom ∧
       E.Super_CanCombineWith self.Super NewMove.Super Character.toInherited MaxDelta = true)) ∧
    (self.tracked ≠ NewMove.tracked →
      CanCombineWith E self NewMove Character MaxDelta = false) ∧
    (self.tracked = NewMove.tracked →
      CanCombineWith E self NewMove Character MaxDelta =
        E.Super_CanCombineWith self.Super NewMove.Super Character.toInherited MaxDelta) := by
  unfold CanCombineWith tracked
  refine ⟨?_, ?_, ?_⟩
  · split_ifs <;> simp_all
  · intro h
    split_ifs <;> simp_all
  · intro h
    simp only [Prod.mk.injEq] at h
    obtain ⟨h1, h2, h3, h4, h5⟩ := h
    simp [h1, h2, h3, h4, h5]

/-- C7, exercised: a move and a copy of it that differs only in the flag byte do not combine,
although the base class would combine them; a move and itself combine. -/
theorem CanCombineWith_iff_witness :
    demoSavedMove.tracked ≠ ({ demoSavedMove with SavedMovementFlagCustom := 0 }).tracked ∧
    demoSavedMoveEngine.Super_CanCombineWith demoSavedMove.Super demoSavedMove.Super
      demoWalking.toInherited 1 = true ∧
    CanCombineWith demoSavedMoveEngine demoSavedMove
      { demoSavedMove with SavedMovementFlagCustom := 0 } demoWalking 1 = false ∧
    CanCombineWith demoSavedMoveEngine demoSavedMove demoSavedMove demoWalking 1 = true :=
  ⟨by decide, by decide,
    (CanCombineWith_iff demoSavedMoveEngine demoSavedMove
      { demoSavedMove with SavedMovementFlagCustom := 0 } demoWalking 1).2.1 (by decide),
    ((CanCombineWith_iff demoSavedMoveEngine demoSavedMove demoSavedMove demoWalking 1).2.2
      rfl).trans (by decide)⟩

/-- C8. Rollback round trip: when `SetMoveFor` captures a saved move from a component `s` of
the custom class, `PrepMoveFor` with that saved move on any later component `s1` sets the
five tracked members (`bWantsToSprint`, `bWallRunIsRight`, `CustomMaxSpeed`,
`LaunchVelocityCustom`, `MovementFlagCustom`) to the values they had in `s`; in particular
`PrepMoveFor` right after `SetMoveFor` leaves the five members unchanged. -/
theorem PrepMoveFor_SetMoveFor (E : SavedMoveEngine S R) (s s1 : UTutCharacterMovementComponent R)
    (InDeltaTime : R) (NewAccel : FVector R) (m : FCustomSavedMove S R) :
    ((PrepMoveFor E (SetMoveFor E s true InDeltaTime NewAccel m) true s1).bWantsToSprint
        = s.bWantsToSprint ∧
      (PrepMoveFor E (SetMoveFor E s true InDeltaTime NewAccel m) true s1).bWallRunIsRight
        = s.bWallRunIsRight ∧
      (PrepMoveFor E (SetMoveFor E s true InDeltaTime NewAccel m) true s1).CustomMaxSpeed
        = s.CustomMaxSpeed ∧
      (PrepMoveFor E (SetMoveFor E s true InDeltaTime NewAccel m) true s1).LaunchVelocityCustom
        = s.LaunchVelocityCustom ∧
      (PrepMoveFor E (SetMoveFor E s true InDeltaTime NewAccel m) true s1).MovementFlagCustom
        = s.MovementFlagCustom) ∧
    (PrepMoveFor E (SetMoveFor E s true InDeltaTime NewAccel m) true s).tracked = s.tracked := by
  simp [PrepMoveFor, SetMoveFor, UTutCharacterMovementComponent.tracked]

/-- C9. For every saved move, `Clear` leaves the five tracked members equal to those of a
freshly allocated move, which are sprint intent false, wall-run side false, max speed 800,
launch velocity zero and flag byte 0; `Clear` takes no component, and a second `Clear`
changes nothing but what the base class's `Clear` changes in the base part. -/
theorem Clear_defaults [Zero R] [NatCast R] (E : SavedMoveEngine S R)
    (m : FCustomSavedMove S R) :
    (Clear E m).tracked = (AllocateNewMove E).tracked ∧
    (AllocateNewMove E).tracked = (false, false, ((800 : Nat) : R), ⟨0, 0, 0⟩, 0) ∧
    (Clear E (Clear E m)).tracked = (Clear E m).tracked ∧
    Clear E (Clear E m) = { Clear E m with Super := E.Super_Clear (E.Super_Clear m.Super) } := by
  simp [Clear, AllocateNewMove, new, tracked]

end FCustomSavedMove

/-! ## Wire format of the move data -/

/-- Saving an optional value appends its wire field: the bit alone when the value is the
default, the bit and the value otherwise. -/
theorem SerializeOptionalValue_saving {R T : Type} [DecidableEq T] (w : Wire R T)
    (Ar : FArchive R) (hs : Ar.bIsSaving = true) (Value DefaultValue : T) :
    SerializeOptionalValue w true Ar Value DefaultValue =
      (Value, { Ar with Stream := Ar.Stream ++ wireField w (omitDefault Value DefaultValue) }) := by
  by_cases h : Value = DefaultValue
  · simp [SerializeOptionalValue, FArchive.SerializeBit, hs, h, omitDefault, wireField]
  · simp [SerializeOptionalValue, FArchive.SerializeBit, FArchive.Serialize, hs, h, omitDefault,
      wireField]

/-- Loading an optional value from a stream that starts with a wire field yields the value
of a present field and the default for an absent one, and leaves the rest of the stream. -/
theorem SerializeOptionalValue_loading {R T : Type} [DecidableEq T] (w : Wire R T)
    (hw : w.Faithful) (Ar : FArchive R) (hs : Ar.bIsSaving = false) (o : Option T)
    (rest : List (Item R)) (hst : Ar.Stream = wireField w o ++ rest) (Value DefaultValue : T) :
    SerializeOptionalValue w false Ar Value DefaultValue =
      (o.getD DefaultValue, { Ar with Stream := rest }) := by
  cases o with
  | none => simp [SerializeOptionalValue, FArchive.SerializeBit, hs, hst, wireField]
  | some v =>
    simp [SerializeOptionalValue, FArchive.SerializeBit, FArchive.Serialize, hs, hst, wireField,
      hw v]

/-- The four stream operators read back what they write. -/
theorem Wire.faithful_all {R : Type} :
    (Wire.ofBool : Wire R Bool).Faithful ∧ (Wire.ofFloat : Wire R R).Faithful ∧
    (Wire.ofVector : Wire R (FVector R)).Faithful ∧ (Wire.ofUInt8 : Wire R Nat).Faithful :=
  ⟨fun _ => rfl, fun _ => rfl, fun _ => rfl, fun _ => rfl⟩

/-- A field sent with default omission decodes to the value that was sent. -/
theorem omitDefault_getD {T : Type} [DecidableEq T] (Value DefaultValue : T) :
    (omitDefault Value DefaultValue).getD DefaultValue = Value := by
  unfold omitDefault
  split_ifs with h <;> simp [h]

namespace FCustomNetworkMoveData

variable {B R : Type}

/-- Saving: the move data is unchanged and the stream gains the base record followed by the
four wire fields, in the order sprint intent, max speed, launch velocity, flag byte. -/
theorem Serialize_saving [Zero R] [NatCast R] [DecidableEq R] (C : BaseCodec B R)
    (t : ENetworkMoveType) (Ar : FArchive R) (hs : Ar.bIsSaving = true)
    (x : FCustomNetworkMoveData B R) :
    Serialize C t Ar x =
      (!Ar.bError, x,
        { Ar with Stream := Ar.Stream ++ C.encode t x.Super
            ++ wireField Wire.ofBool (omitDefault x.bWantsToSprintMoveData false)
            ++ wireField Wire.ofFloat (omitDefault x.MaxCustomSpeedMoveData ((800 : Nat) : R))
            ++ wireField Wire.ofVector (omitDefault x.LaunchVelocityCustomMoveData ⟨0, 0, 0⟩)
            ++ wireField Wire.ofUInt8 (omitDefault x.MovementFlagCustomMoveData 0) }) := by
  unfold Serialize
  simp only [BaseCodec.Super_Serialize, hs, if_true]
  rw [SerializeOptionalValue_saving _ _ rfl]
  simp only []
  rw [SerializeOptionalValue_saving _ _ rfl]
  simp only []
  rw [SerializeOptionalValue_saving _ _ rfl]
  simp only []
  rw [SerializeOptionalValue_saving _ _ rfl]

/-- Loading from a stream that holds a base record and four wire fields: every present field
is read, every absent field takes its default, and the rest of the stream is left. -/
theorem Serialize_loading [Zero R] [NatCast R] [DecidableEq R] (C : BaseCodec B R)
    (hC : C.RoundTrips) (t : ENetworkMoveType) (Ar : FArchive R) (hs : Ar.bIsSaving = false)
    (b : B) (o1 : Option Bool) (o2 : Option R) (o3 : Option (FVector R)) (o4 : Option Nat)
    (rest : List (Item R))
    (hst : Ar.Stream = C.encode t b ++ (wireField Wire.ofBool o1 ++ (wireField Wire.ofFloat o2
      ++ (wireField Wire.ofVector o3 ++ (wireField Wire.ofUInt8 o4 ++ rest)))))
    (y : FCustomNetworkMoveData B R) :
    Serialize C t Ar y =
      (!Ar.bError,
        { Super := b
          bWantsToSprintMoveData := o1.getD false
          MaxCustomSpeedMoveData := o2.getD ((800 : Nat) : R)
          LaunchVelocityCustomMoveData := o3.getD ⟨0, 0, 0⟩
          MovementFlagCustomMoveData := o4.getD 0 },
        { Ar with Stream := rest }) := by
  unfold Serialize
  simp only [BaseCodec.Super_Serialize, hs, hst, hC t b _]
  simp only [Bool.false_eq_true, if_false]
  rw [SerializeOptionalValue_loading _ Wire.faithful_all.1 _ rfl o1 _ rfl]
  simp only []
  rw [SerializeOptionalValue_loading _ Wire.faithful_all.2.1 _ rfl o2 _ rfl]
  simp only []
  rw [SerializeOptionalValue_loading _ Wire.faithful_all.2.2.1 _ rfl o3 _ rfl]
  simp only []
  rw [SerializeOptionalValue_loading _ Wire.faithful_all.2.2.2 _ rfl o4 _ rfl]

/-- C5. Wire round trip: for every move data `x`, saving `x` with `Serialize` on an empty
archive and then loading the produced stream (followed by any further stream `rest`) with
`Serialize` into any move data `y` raises no error, yields move data whose four custom members
(sprint intent, custom max speed, launch velocity, movement flag byte) equal those of `x`,
default or not, indeed yields `x` itself, and leaves `rest`. The base class's part of the
stream is assumed to read back what it wrote. -/
theorem Serialize_round_trip [Zero R] [NatCast R] [DecidableEq R] (C : BaseCodec B R)
    (hC : C.RoundTrips) (t : ENetworkMoveType) (x y : FCustomNetworkMoveData B R)
    (rest : List (Item R)) :
    (Serialize C t ⟨false, (Serialize C t ⟨true, [], false⟩ x).2.2.Stream ++ rest, false⟩ y).1
      = true ∧
    ((Serialize C t ⟨false, (Serialize C t ⟨true, [], false⟩ x).2.2.Stream ++ rest, false⟩
        y).2.1.bWantsToSprintMoveData = x.bWantsToSprintMoveData ∧
      (Serialize C t ⟨false, (Serialize C t ⟨true, [], false⟩ x).2.2.Stream ++ rest, false⟩
        y).2.1.MaxCustomSpeedMoveData = x.MaxCustomSpeedMoveData ∧
      (Serialize C t ⟨false, (Serialize C t ⟨true, [], false⟩ x).2.2.Stream ++ rest, false⟩
        y).2.1.LaunchVelocityCustomMoveData = x.LaunchVelocityCustomMoveData ∧
      (Serialize C t ⟨false, (Serialize C t ⟨true, [], false⟩ x).2.2.Stream ++ rest, false⟩
        y).2.1.MovementFlagCustomMoveData = x.MovementFlagCustomMoveData) ∧
    (Serialize C t ⟨false, (Serialize C t ⟨true, [], false⟩ x).2.2.Stream ++ rest, false⟩ y).2.1
      = x ∧
    (Serialize C t ⟨false, (Serialize C t ⟨true, [], false⟩ x).2.2.Stream ++ rest, false⟩
      y).2.2.Stream = rest := by
  rw [Serialize_saving C t _ rfl x]
  rw [Serialize_loading C hC t _ rfl x.Super
    (omitDefault x.bWantsToSprintMoveData false)
    (omitDefault x.MaxCustomSpeedMoveData ((800 : Nat) : R))
    (omitDefault x.LaunchVelocityCustomMoveData ⟨0, 0, 0⟩)
    (omitDefault x.MovementFlagCustomMoveData 0) rest (by simp) y]
  simp [omitDefault_getD]

/-- C5, exercised with a one-byte base record: move data with a default max speed and flag
byte and a non-default sprint intent and launch is read back over stale move data. -/
theorem Serialize_round_trip_witness :
    demoCodec.RoundTrips ∧
    (Serialize demoCodec .NewMove ⟨true, [], false⟩ demoMoveData).2.2.Stream =
      [Item.byte 42, Item.bit true, Item.flag true, Item.bit false, Item.bit true,
        Item.vector ⟨300, 0, 500⟩, Item.bit false] ∧
    (Serialize demoCodec .NewMove
      ⟨false, (Serialize demoCodec .NewMove ⟨true, [], false⟩ demoMoveData).2.2.Stream ++ [],
        false⟩ demoStaleMoveData).2.1 = demoMoveData :=
  ⟨fun _ _ _ => rfl, by decide,
    (Serialize_round_trip demoCodec (fun _ _ _ => rfl) .NewMove demoMoveData demoStaleMoveData
      []).2.2.1⟩

/-- C6. Default omission. Saving appends, after the base record, the four custom fields in the
order sprint intent, custom max speed, launch velocity, flag byte, each as a cleared bit when
the member equals its default (false, 800, the zero vector, 0) and as a set bit followed by the
value when it differs. Loading a stream that holds a base record and four such fields sets
every member whose field is absent to that same default (an absent max speed to 800) and
every other member to the value sent. The base class's part of the stream is assumed to read
back what it wrote. -/
theorem Serialize_default_omission [Zero R] [NatCast R] [DecidableEq R] (C : BaseCodec B R)
    (hC : C.RoundTrips) (t : ENetworkMoveType) (x y : FCustomNetworkMoveData B R)
    (pre rest : List (Item R)) (b : B) (o1 : Option Bool) (o2 : Option R)
    (o3 : Option (FVector R)) (o4 : Option Nat) :
    (Serialize C t ⟨true, pre, false⟩ x).2.2.Stream =
      pre ++ C.encode t x.Super
        ++ wireField Wire.ofBool (if x.bWantsToSprintMoveData = false then none
            else some x.bWantsToSprintMoveData)
        ++ wireField Wire.ofFloat (if x.MaxCustomSpeedMoveData = ((800 : Nat) : R) then none
            else some x.MaxCustomSpeedMoveData)
        ++ wireField Wire.ofVector (if x.LaunchVelocityCustomMoveData = ⟨0, 0, 0⟩ then none
            else some x.LaunchVelocityCustomMoveData)
        ++ wireField Wire.ofUInt8 (if x.MovementFlagCustomMoveData = 0 then none
            else some x.MovementFlagCustomMoveData) ∧
    (Serialize C t
      ⟨false, C.encode t b ++ (wireField Wire.ofBool o1 ++ (wireField Wire.ofFloat o2
        ++ (wireField Wire.ofVector o3 ++ (wireField Wire.ofUInt8 o4 ++ rest)))), false⟩ y).2.1 =
      { Super := b
        bWantsToSprintMoveData := o1.getD false
        MaxCustomSpeedMoveData := o2.getD ((800 : Nat) : R)
        LaunchVelocityCustomMoveData := o3.getD ⟨0, 0, 0⟩
        MovementFlagCustomMoveData := o4.getD 0 } := by
  constructor
  · rw [Serialize_saving C t _ rfl x]
    rfl
  · rw [Serialize_loading C hC t _ rfl b o1 o2 o3 o4 rest rfl y]

/-- C6, exercised: a stream whose four custom fields are all marked absent decodes, over
stale move data, to sprint intent false, max speed 800, launch zero and flag byte 0. -/
theorem Serialize_default_omission_witness :
    demoCodec.RoundTrips ∧
    (Serialize demoCodec .NewMove
      ⟨false, [Item.byte 5, Item.bit false, Item.bit false, Item.bit false, Item.bit false],
        false⟩ demoStaleMoveData).2.1 =
      { Super := 5
        bWantsToSprintMoveData := false
        MaxCustomSpeedMoveData := 800
        LaunchVelocityCustomMoveData := ⟨0, 0, 0⟩
        MovementFlagCustomMoveData := 0 } :=
  ⟨fun _ _ _ => rfl,
    (Serialize_default_omission demoCodec (fun _ _ _ => rfl) .NewMove demoMoveData
      demoStaleMoveData [] [] 5 none none none none).2⟩

end FCustomNetworkMoveData

/-! ## Flying, speed and sprint -/

namespace UTutCharacterMovementComponent

variable {R : Type}

/-- C12. The is-flying flag tracks the Flying mode. For every transition processed by
`OnMovementModeChanged(p, c)` with valid data: if `bIsFlying` was true exactly when the
previous mode `p` was Flying, then afterwards `bIsFlying` is true exactly when the new mode
(the `MovementMode` the component holds when it is notified, which is also the mode afterwards
when the base class keeps the mode) is Flying. `EnterFlying` and `ExitFlying` are each
idempotent and each undoes the other's effect on `bIsFlying`. -/
theorem bIsFlying_tracks_Flying (E : Engine R) (p : EMovementMode) (c : Nat)
    (s : UTutCharacterMovementComponent R) :
    (s.HasValidData = true → (s.bIsFlying = true ↔ p = .MOVE_Flying) →
      (((OnMovementModeChanged E p c s).bIsFlying = true ↔ s.MovementMode = .MOVE_Flying) ∧
       (E.ModeChangeKeepsMode → ((OnMovementModeChanged E p c s).bIsFlying = true ↔
          (OnMovementModeChanged E p c s).MovementMode = .MOVE_Flying)))) ∧
    (EnterFlying_Implementation (EnterFlying_Implementation s) = EnterFlying_Implementation s ∧
     ExitFlying_Implementation (ExitFlying_Implementation s) = ExitFlying_Implementation s ∧
     ExitFlying_Implementation (EnterFlying_Implementation s) = ExitFlying_Implementation s ∧
     EnterFlying_Implementation (ExitFlying_Implementation s) = EnterFlying_Implementation s) ∧
    ((EnterFlying (EnterFlying s)).bIsFlying = (EnterFlying s).bIsFlying ∧
     (ExitFlying (ExitFlying s)).bIsFlying = (ExitFlying s).bIsFlying ∧
     (ExitFlying (EnterFlying s)).bIsFlying = false ∧
     (EnterFlying (ExitFlying s)).bIsFlying = true) := by
  refine ⟨fun hv h => ?_, ⟨rfl, rfl, rfl, rfl⟩, ⟨rfl, rfl, rfl, rfl⟩⟩
  have key : (OnMovementModeChanged E p c s).bIsFlying = true ↔ s.MovementMode = .MOVE_Flying := by
    unfold OnMovementModeChanged
    dsimp only
    split_ifs <;>
      simp_all [ExitWallRun, ExitFlying, EnterWallRun, EnterFlying, record,
        ExitWallRun_Implementation, ExitFlying_Implementation, EnterWallRun_Implementation,
        EnterFlying_Implementation]
  exact ⟨key, fun hM => by rw [OnMovementModeChanged_MovementMode E hM]; exact key⟩

/-- C16. `GetMaxSpeed` returns `MaxWallRunSpeed` whenever the mode is Custom/WallRunning,
sprinting or not; in every other mode it returns `CustomMaxSpeed` when `bIsSprinting` is set
and the base class's max speed otherwise. -/
theorem GetMaxSpeed_spec (P : Host R) (s : UTutCharacterMovementComponent R) :
    (s.IsWallRunning = true → GetMaxSpeed P s = s.MaxWallRunSpeed) ∧
    (s.IsWallRunning = false → s.bIsSprinting = true → GetMaxSpeed P s = s.CustomMaxSpeed) ∧
    (s.IsWallRunning = false → s.bIsSprinting = false →
      GetMaxSpeed P s = P.Super_GetMaxSpeed s.toInherited) := by
  unfold GetMaxSpeed IsWallRunning IsCustomMovementMode
  refine ⟨fun h => ?_, fun h hs => ?_, fun h hs => ?_⟩
  · simp only [Bool.and_eq_true, decide_eq_true_eq] at h
    rw [if_pos h]
  · have h1 : ¬ (s.MovementMode = .MOVE_Custom ∧ s.CustomMovementMode = MOVE_WallRunning) := by
      intro hh
      simp [hh.1, hh.2] at h
    rw [if_neg h1, if_pos hs]
  · have h1 : ¬ (s.MovementMode = .MOVE_Custom ∧ s.CustomMovementMode = MOVE_WallRunning) := by
      intro hh
      simp [hh.1, hh.2] at h
    rw [if_neg h1, if_neg (by simp [hs])]

/-- The safe normal of the zero vector is the zero vector. -/
theorem GetSafeNormal_zero [LinearOrderedField R] (InvSqrt : R → R) :
    FVector.GetSafeNormal InvSqrt (FVector.ZeroVector : FVector R) = FVector.ZeroVector := by
  have h : (0 : R) < SMALL_NUMBER R := by
    unfold SMALL_NUMBER
    positivity
  simp [FVector.GetSafeNormal, FVector.ZeroVector, h]

/-- C17. `CanSprint` returns true exactly when the custom character is valid, the character
is moving on ground, `bWantsToSprint` is set and the dot product of the actor's forward vector
with the safely normalised velocity is strictly greater than 0.7; it is false when that dot
product is exactly 0.7, and false whenever the velocity is zero. -/
theorem CanSprint_iff [LinearOrderedField R] (P : Host R)
    (s : UTutCharacterMovementComponent R) :
    (CanSprint P s = true ↔
      (s.CustomCharacter = true ∧ s.IsMovingOnGround = true ∧ s.bWantsToSprint = true ∧
        FVector.dot P.GetActorForwardVector (FVector.GetSafeNormal P.InvSqrt s.Velocity)
          > 7 / 10)) ∧
    (FVector.dot P.GetActorForwardVector (FVector.GetSafeNormal P.InvSqrt s.Velocity) = 7 / 10 →
      CanSprint P s = false) ∧
    (s.Velocity = FVector.ZeroVector → CanSprint P s = false) := by
  have main : CanSprint P s = true ↔
      (s.CustomCharacter = true ∧ s.IsMovingOnGround = true ∧ s.bWantsToSprint = true ∧
        FVector.dot P.GetActorForwardVector (FVector.GetSafeNormal P.InvSqrt s.Velocity)
          > 7 / 10) := by
    unfold CanSprint
    split_ifs with h
    · simp only [Bool.and_eq_true] at h
      simp [h.1.1, h.1.2, h.2]
    · simp only [Bool.and_eq_true] at h
      constructor
      · intro hf
        exact absurd hf (by simp)
      · rintro ⟨h1, h2, h3, _⟩
        exact absurd ⟨⟨h1, h2⟩, h3⟩ h
  refine ⟨main, fun he => ?_, fun hz => ?_⟩
  · cases hc : CanSprint P s
    · rfl
    · have := (main.1 hc).2.2.2
      rw [he] at this
      exact absurd this (lt_irrefl _)
  · cases hc : CanSprint P s
    · rfl
    · have := (main.1 hc).2.2.2
      rw [hz, GetSafeNormal_zero] at this
      simp [FVector.dot, FVector.ZeroVector] at this
      exact absurd this (by norm_num)

/-- The fly flag test reads bit 0 of the flag byte. -/
theorem IsFlagActive_WantsToFly (s : UTutCharacterMovementComponent R) :
    s.IsFlagActive CFLAG_WantsToFly = s.MovementFlagCustom.testBit 0 := by
  unfold IsFlagActive CFLAG_WantsToFly
  simp only [Nat.shiftLeft_zero, Nat.and_one_is_mod, Nat.testBit_zero]
  rcases Nat.mod_two_eq_zero_or_one s.MovementFlagCustom with h | h <;> simp [h]

/-- The mode-change notification touches none of the members the derived class declares
other than `bIsFlying` (and the trace). -/
theorem OnMovementModeChanged_own (E : Engine R) (p : EMovementMode) (c : Nat)
    (s : UTutCharacterMovementComponent R) :
    (OnMovementModeChanged E p c s).bWantsToSprint = s.bWantsToSprint ∧
    (OnMovementModeChanged E p c s).bIsSprinting = s.bIsSprinting ∧
    (OnMovementModeChanged E p c s).CustomMaxSpeed = s.CustomMaxSpeed ∧
    (OnMovementModeChanged E p c s).MovementFlagCustom = s.MovementFlagCustom ∧
    (OnMovementModeChanged E p c s).bWallRunIsRight = s.bWallRunIsRight ∧
    (OnMovementModeChanged E p c s).MinWallRunSpeed = s.MinWallRunSpeed ∧
    (OnMovementModeChanged E p c s).MaxWallRunSpeed = s.MaxWallRunSpeed ∧
    (OnMovementModeChanged E p c s).MaxVerticalWallRunSpeed = s.MaxVerticalWallRunSpeed ∧
    (OnMovementModeChanged E p c s).MinWallRunHeight = s.MinWallRunHeight ∧
    (OnMovementModeChanged E p c s).CustomCharacter = s.CustomCharacter := by
  unfold OnMovementModeChanged
  dsimp only
  split_ifs <;>
    simp [ExitWallRun, ExitFlying, EnterWallRun, EnterFlying, record,
      ExitWallRun_Implementation, ExitFlying_Implementation, EnterWallRun_Implementation,
      EnterFlying_Implementation]

/-- A mode request touches none of the members the derived class declares other than
`bIsFlying` (and the trace). -/
theorem SetMovementMode_own (E : Engine R) (m : EMovementMode) (c : Nat)
    (s : UTutCharacterMovementComponent R) :
    (SetMovementMode E m c s).bWantsToSprint = s.bWantsToSprint ∧
    (SetMovementMode E m c s).bIsSprinting = s.bIsSprinting ∧
    (SetMovementMode E m c s).CustomMaxSpeed = s.CustomMaxSpeed ∧
    (SetMovementMode E m c s).MovementFlagCustom = s.MovementFlagCustom ∧
    (SetMovementMode E m c s).bWallRunIsRight = s.bWallRunIsRight ∧
    (SetMovementMode E m c s).MinWallRunSpeed = s.MinWallRunSpeed ∧
    (SetMovementMode E m c s).MaxWallRunSpeed = s.MaxWallRunSpeed ∧
    (SetMovementMode E m c s).MaxVerticalWallRunSpeed = s.MaxVerticalWallRunSpeed ∧
    (SetMovementMode E m c s).MinWallRunHeight = s.MinWallRunHeight ∧
    (SetMovementMode E m c s).CustomCharacter = s.CustomCharacter := by
  unfold SetMovementMode
  dsimp only
  split_ifs <;> first | exact OnMovementModeChanged_own E _ _ _ | simp

/-- A mode request never touches the sprint state. -/
theorem SetMovementMode_bIsSprinting (E : Engine R) (m : EMovementMode) (c : Nat)
    (s : UTutCharacterMovementComponent R) :
    (SetMovementMode E m c s).bIsSprinting = s.bIsSprinting :=
  (SetMovementMode_own E m c s).2.1

/-- A mode request never touches the wall-run side. -/
theorem SetMovementMode_bWallRunIsRight (E : Engine R) (m : EMovementMode) (c : Nat)
    (s : UTutCharacterMovementComponent R) :
    (SetMovementMode E m c s).bWallRunIsRight = s.bWallRunIsRight :=
  (SetMovementMode_own E m c s).2.2.2.2.1

/-- A wall-run attempt never touches the sprint state. -/
theorem TryWallRun_bIsSprinting [LinearOrderedRing R] (E : Engine R) (W : World R)
    (s : UTutCharacterMovementComponent R) :
    (TryWallRun E W s).2.bIsSprinting = s.bIsSprinting := by
  unfold TryWallRun
  dsimp only
  split_ifs <;> simp [SetMovementMode_bIsSprinting]

/-- C14. Flight scheduling in the post-advance hook. For an owner whose role is above
`ROLE_SimulatedProxy`: if bit 0 of the flag byte (wants-to-fly) is set the mode after the hook
is Flying; if the bit is clear and the mode is Flying the mode after the hook is Falling; if
the bit is clear and the mode is not Flying the mode and sub-mode are unchanged. For a role of
`ROLE_SimulatedProxy` or lower the mode and sub-mode are unchanged. The modes are read under
the condition that the base class's `OnMovementUpdated` leaves the mode fields and the role as
it finds them and that its mode-change notification leaves `MovementMode` as it finds it. -/
theorem OnMovementUpdated_schedules_flight [Zero R] (E : Engine R) (hU : E.UpdateKeepsMode)
    (hR : E.UpdateKeepsRole) (hM : E.ModeChangeKeepsMode) (DeltaSeconds : R)
    (OldLocation OldVelocity : FVector R) (s : UTutCharacterMovementComponent R) :
    (s.LocalRole.toNat > ENetRole.ROLE_SimulatedProxy.toNat →
      (s.MovementFlagCustom.testBit 0 = true →
        (OnMovementUpdated E DeltaSeconds OldLocation OldVelocity s).MovementMode
          = .MOVE_Flying) ∧
      (s.MovementFlagCustom.testBit 0 = false → s.MovementMode = .MOVE_Flying →
        (OnMovementUpdated E DeltaSeconds OldLocation OldVelocity s).MovementMode
          = .MOVE_Falling) ∧
      (s.MovementFlagCustom.testBit 0 = false → s.MovementMode ≠ .MOVE_Flying →
        (OnMovementUpdated E DeltaSeconds OldLocation OldVelocity s).MovementMode
          = s.MovementMode ∧
        (OnMovementUpdated E DeltaSeconds OldLocation OldVelocity s).CustomMovementMode
          = s.CustomMovementMode)) ∧
    (¬ s.LocalRole.toNat > ENetRole.ROLE_SimulatedProxy.toNat →
      (OnMovementUpdated E DeltaSeconds OldLocation OldVelocity s).MovementMode
        = s.MovementMode ∧
      (OnMovementUpdated E DeltaSeconds OldLocation OldVelocity s).CustomMovementMode
        = s.CustomMovementMode) := by
  have hm := (hU DeltaSeconds OldLocation OldVelocity s.toInherited).1
  have hc := (hU DeltaSeconds OldLocation OldVelocity s.toInherited).2
  have hr := hR DeltaSeconds OldLocation OldVelocity s.toInherited
  have hfall := SetMovementMode_MovementMode E hM .MOVE_Falling (by decide) 0
  have hfly := SetMovementMode_MovementMode E hM .MOVE_Flying (by decide) 0
  refine ⟨fun hrole => ⟨fun hb => ?_, fun hb hmode => ?_, fun hb hmode => ?_⟩, fun hrole => ?_⟩
  all_goals
    unfold OnMovementUpdated
    simp only [IsFlagActive_WantsToFly, CanFly]
    split_ifs <;> first | (simp_all; done) | (simp_all; omega)
/-- C13. The component's own part of the pre-step hook, which starts from the component the
base class's part leaves (`afterSuperBeforeMovement`). When the owner's role is
`ROLE_SimulatedProxy` the hook returns that component as it is: `bIsSprinting`,
`bWallRunIsRight`, `Velocity` and the mode are untouched, and no cast of `TryWallRun` enters
the result, which is the same in every world. For every other role `bIsSprinting` becomes the
value of `CanSprint()`, and the result is that of `TryWallRun` exactly when the character is
falling. -/
theorem UpdateCharacterStateBeforeMovement_spec [LinearOrderedField R] (E : Engine R)
    (W : World R) (P : Host R) (DeltaSeconds : R) (s : UTutCharacterMovementComponent R) :
    ((afterSuperBeforeMovement P DeltaSeconds s).LocalRole = .ROLE_SimulatedProxy →
      UpdateCharacterStateBeforeMovement E W P DeltaSeconds s
        = afterSuperBeforeMovement P DeltaSeconds s ∧
      (UpdateCharacterStateBeforeMovement E W P DeltaSeconds s).bIsSprinting = s.bIsSprinting ∧
      (UpdateCharacterStateBeforeMovement E W P DeltaSeconds s).bWallRunIsRight
        = s.bWallRunIsRight ∧
      (∀ W2 : World R, UpdateCharacterStateBeforeMovement E W2 P DeltaSeconds s
        = UpdateCharacterStateBeforeMovement E W P DeltaSeconds s)) ∧
    ((afterSuperBeforeMovement P DeltaSeconds s).LocalRole ≠ .ROLE_SimulatedProxy →
      (UpdateCharacterStateBeforeMovement E W P DeltaSeconds s).bIsSprinting
        = CanSprint P (afterSuperBeforeMovement P DeltaSeconds s) ∧
      ((afterSuperBeforeMovement P DeltaSeconds s).IsFalling = true →
        UpdateCharacterStateBeforeMovement E W P DeltaSeconds s =
          (TryWallRun E W { afterSuperBeforeMovement P DeltaSeconds s with
            bIsSprinting := CanSprint P (afterSuperBeforeMovement P DeltaSeconds s) }).2) ∧
      ((afterSuperBeforeMovement P DeltaSeconds s).IsFalling = false →
        UpdateCharacterStateBeforeMovement E W P DeltaSeconds s =
          { afterSuperBeforeMovement P DeltaSeconds s with
            bIsSprinting := CanSprint P (afterSuperBeforeMovement P DeltaSeconds s) })) := by
  have hsprint : ∀ s0 : UTutCharacterMovementComponent R,
      (if CanSprint P s0 = true then { s0 with bIsSprinting := true }
        else { s0 with bIsSprinting := false })
        = { s0 with bIsSprinting := CanSprint P s0 } := by
    intro s0
    cases h : CanSprint P s0 <;> simp
  have hproxy : ∀ W1 : World R,
      (afterSuperBeforeMovement P DeltaSeconds s).LocalRole = .ROLE_SimulatedProxy →
      UpdateCharacterStateBeforeMovement E W1 P DeltaSeconds s
        = afterSuperBeforeMovement P DeltaSeconds s := by
    intro W1 h
    unfold UpdateCharacterStateBeforeMovement
    simp only [afterSuperBeforeMovement] at h ⊢
    rw [if_neg (not_not.mpr h)]
  have hother : (afterSuperBeforeMovement P DeltaSeconds s).LocalRole ≠ .ROLE_SimulatedProxy →
      UpdateCharacterStateBeforeMovement E W P DeltaSeconds s =
        if ({ afterSuperBeforeMovement P DeltaSeconds s with
            bIsSprinting := CanSprint P (afterSuperBeforeMovement P DeltaSeconds s) } :
              UTutCharacterMovementComponent R).IsFalling = true then
          (TryWallRun E W { afterSuperBeforeMovement P DeltaSeconds s with
            bIsSprinting := CanSprint P (afterSuperBeforeMovement P DeltaSeconds s) }).2
        else { afterSuperBeforeMovement P DeltaSeconds s with
            bIsSprinting := CanSprint P (afterSuperBeforeMovement P DeltaSeconds s) } := by
    intro h
    unfold UpdateCharacterStateBeforeMovement
    simp only [afterSuperBeforeMovement] at h ⊢
    rw [if_pos h, hsprint]
  refine ⟨fun h => ?_, fun h => ?_⟩
  · refine ⟨hproxy W h, ?_, ?_, fun W2 => ?_⟩
    · rw [hproxy W h]; rfl
    · rw [hproxy W h]; rfl
    · rw [hproxy W h, hproxy W2 h]
  · have hf : ∀ b : Bool, ({ afterSuperBeforeMovement P DeltaSeconds s with bIsSprinting := b } :
        UTutCharacterMovementComponent R).IsFalling
          = (afterSuperBeforeMovement P DeltaSeconds s).IsFalling := fun _ => rfl
    rw [hother h, hf]
    refine ⟨?_, fun hfall => ?_, fun hfall => ?_⟩
    · split_ifs
      · rw [TryWallRun_bIsSprinting]
      · rfl
    · rw [if_pos hfall]
    · rw [if_neg (by simp [hfall])]

/-- C15, as the code has it. For an owner that is not a simulated proxy, `PhysCustom` with a
custom sub-mode other than `MOVE_WallRunning` ends in the fatal error, and with the sub-mode
`MOVE_WallRunning` it runs `PhysWallRun` and then the base class's `PhysCustom` and raises no
error. For a simulated proxy it returns at once, without error and without any effect,
whatever the sub-mode. -/
theorem PhysCustom_spec [LinearOrderedField R] (E : Engine R) (W : World R) (P : Host R)
    (deltaTime : R) (Iterations : Int) (s : UTutCharacterMovementComponent R) :
    (s.LocalRole ≠ .ROLE_SimulatedProxy → s.CustomMovementMode ≠ MOVE_WallRunning →
      PhysCustom E W P deltaTime Iterations s = Except.error FatalError.InvalidMovementMode) ∧
    (s.LocalRole ≠ .ROLE_SimulatedProxy → s.CustomMovementMode = MOVE_WallRunning →
      PhysCustom E W P deltaTime Iterations s =
        Except.ok { (PhysWallRun E W P deltaTime Iterations s).state with
          toInherited := P.Super_PhysCustom deltaTime Iterations
            (PhysWallRun E W P deltaTime Iterations s).state.toInherited }) ∧
    (s.LocalRole = .ROLE_SimulatedProxy →
      PhysCustom E W P deltaTime Iterations s = Except.ok s) := by
  unfold PhysCustom
  refine ⟨fun h1 h2 => ?_, fun h1 h2 => ?_, fun h1 => ?_⟩
  · rw [if_neg h1, if_neg h2]
  · rw [if_neg h1, if_pos h2]
  · rw [if_pos h1]

/-! ## Wall-run entry -/

/-- Past the four entry guards and the floor cast, a wall-run attempt chooses the left wall
when it qualifies and otherwise the right wall when that one qualifies, and ends as
`finishWallRun` says; with no qualifying wall it fails and leaves the component as it was. -/
theorem TryWallRun_chosen [LinearOrderedRing R] (E : Engine R) (W : World R)
    (s : UTutCharacterMovementComponent R) (hfall : s.IsFalling = true)
    (hs : ¬ s.Velocity.SizeSquared2D < s.MinWallRunSpeed ^ 2)
    (hz : ¬ s.Velocity.Z < -s.MaxVerticalWallRunSpeed) (hc : s.CustomCharacter = true)
    (hfloor : floorCast W s = false) :
    TryWallRun E W s =
      if wallQualifies s (leftCast W s) = true then
        finishWallRun E { s with bWallRunIsRight := false } (leftCast W s)
      else if wallQualifies s (rightCast W s) = true then
        finishWallRun E { s with bWallRunIsRight := true } (rightCast W s)
      else (false, s) := by
  unfold TryWallRun
  rw [if_neg (by simp [hfall]), if_neg hs, if_neg hz, if_neg (by simp [hc])]
  dsimp only
  rw [if_neg (by simpa [floorCast] using hfloor)]
  rfl

/-- The mode-change notification keeps the sub-mode when the base class does. -/
theorem OnMovementModeChanged_CustomMovementMode (E : Engine R)
    (hC : E.ModeChangeKeepsCustomMode) (p : EMovementMode) (c : Nat)
    (s : UTutCharacterMovementComponent R) :
    (OnMovementModeChanged E p c s).CustomMovementMode = s.CustomMovementMode := by
  unfold OnMovementModeChanged
  dsimp only
  split_ifs <;>
    simp [hC _ _ _, ExitWallRun, ExitFlying, EnterWallRun, EnterFlying, record,
      ExitWallRun_Implementation, ExitFlying_Implementation, EnterWallRun_Implementation,
      EnterFlying_Implementation]

/-- A request for the custom mode with a sub-mode ends in that mode and sub-mode when the base
class keeps both. -/
theorem SetMovementMode_Custom (E : Engine R) (hM : E.ModeChangeKeepsMode)
    (hC : E.ModeChangeKeepsCustomMode) (c : Nat) (s : UTutCharacterMovementComponent R) :
    (SetMovementMode E .MOVE_Custom c s).MovementMode = .MOVE_Custom ∧
    (SetMovementMode E .MOVE_Custom c s).CustomMovementMode = c := by
  refine ⟨SetMovementMode_MovementMode E hM .MOVE_Custom (by decide) c s, ?_⟩
  unfold SetMovementMode
  dsimp only
  split_ifs <;> simp_all [OnMovementModeChanged_CustomMovementMode E hC]

/-- Past the entry guards and the floor cast, a wall-run attempt succeeds on the chosen wall
when the velocity projected on its plane keeps the minimum horizontal speed: the mode becomes
Custom/WallRunning (when the base class keeps the mode fields) and the side is recorded. -/
theorem TryWallRun_succeeds [LinearOrderedRing R] (E : Engine R) (hM : E.ModeChangeKeepsMode)
    (hC : E.ModeChangeKeepsCustomMode) (W : World R) (s : UTutCharacterMovementComponent R)
    (hfall : s.IsFalling = true) (hc : s.CustomCharacter = true)
    (hs : ¬ s.Velocity.SizeSquared2D < s.MinWallRunSpeed ^ 2)
    (hz : ¬ s.Velocity.Z < -s.MaxVerticalWallRunSpeed) (hfloor : floorCast W s = false) :
    (wallQualifies s (leftCast W s) = true → keepsSpeed s (leftCast W s) →
      (TryWallRun E W s).1 = true ∧
      (TryWallRun E W s).2.MovementMode = .MOVE_Custom ∧
      (TryWallRun E W s).2.CustomMovementMode = MOVE_WallRunning ∧
      (TryWallRun E W s).2.bWallRunIsRight = false) ∧
    (wallQualifies s (leftCast W s) = false → wallQualifies s (rightCast W s) = true →
      keepsSpeed s (rightCast W s) →
      (TryWallRun E W s).1 = true ∧
      (TryWallRun E W s).2.MovementMode = .MOVE_Custom ∧
      (TryWallRun E W s).2.CustomMovementMode = MOVE_WallRunning ∧
      (TryWallRun E W s).2.bWallRunIsRight = true) := by
  rw [TryWallRun_chosen E W s hfall hs hz hc hfloor]
  refine ⟨fun hl hk => ?_, fun hl hr hk => ?_⟩
  · rw [if_pos hl]
    unfold finishWallRun
    rw [if_neg hk]
    exact ⟨rfl, (SetMovementMode_Custom E hM hC _ _).1, (SetMovementMode_Custom E hM hC _ _).2,
      by rw [SetMovementMode_bWallRunIsRight]⟩
  · rw [if_neg (by simp [hl]), if_pos hr]
    unfold finishWallRun
    rw [if_neg hk]
    exact ⟨rfl, (SetMovementMode_Custom E hM hC _ _).1, (SetMovementMode_Custom E hM hC _ _).2,
      by rw [SetMovementMode_bWallRunIsRight]⟩

/-- C19, as the code has it. For every falling state with a valid custom character whose
horizontal speed is `MinWallRunSpeed + 1` (with `MinWallRunSpeed` not negative), whose vertical
speed is not below `-MaxVerticalWallRunSpeed` and with no floor hit below: if the left wall
qualifies (a valid blocking hit whose normal opposes the velocity) and the velocity projected
on its plane keeps a squared horizontal speed of at least `MinWallRunSpeed` squared,
`TryWallRun` returns true, the mode is Custom/WallRunning and `bWallRunIsRight` is false; if
the left wall does not qualify and the right wall qualifies and keeps that speed, the same
holds with `bWallRunIsRight` true. The mode is read under the condition that the base class's
mode-change notification leaves the mode fields as it finds them. -/
theorem TryWallRun_enters [LinearOrderedCommRing R] (E : Engine R) (hM : E.ModeChangeKeepsMode)
    (hC : E.ModeChangeKeepsCustomMode) (W : World R) (s : UTutCharacterMovementComponent R)
    (hfall : s.IsFalling = true) (hc : s.CustomCharacter = true)
    (hmin : 0 ≤ s.MinWallRunSpeed)
    (hspeed : s.Velocity.SizeSquared2D = (s.MinWallRunSpeed + 1) ^ 2)
    (hz : ¬ s.Velocity.Z < -s.MaxVerticalWallRunSpeed) (hfloor : floorCast W s = false) :
    (wallQualifies s (leftCast W s) = true → keepsSpeed s (leftCast W s) →
      (TryWallRun E W s).1 = true ∧
      (TryWallRun E W s).2.MovementMode = .MOVE_Custom ∧
      (TryWallRun E W s).2.CustomMovementMode = MOVE_WallRunning ∧
      (TryWallRun E W s).2.bWallRunIsRight = false) ∧
    (wallQualifies s (leftCast W s) = false → wallQualifies s (rightCast W s) = true →
      keepsSpeed s (rightCast W s) →
      (TryWallRun E W s).1 = true ∧
      (TryWallRun E W s).2.MovementMode = .MOVE_Custom ∧
      (TryWallRun E W s).2.CustomMovementMode = MOVE_WallRunning ∧
      (TryWallRun E W s).2.bWallRunIsRight = true) := by
  have hs : ¬ s.Velocity.SizeSquared2D < s.MinWallRunSpeed ^ 2 := by
    rw [hspeed]
    nlinarith
  exact TryWallRun_succeeds E hM hC W s hfall hc hs hz hfloor

/-- Against a vertical wall whose normal opposes the velocity, the projection on the wall
plane loses horizontal speed. -/
theorem project_vertical_wall_slower [LinearOrderedCommRing R] (V N : FVector R)
    (hN : N.Z = 0) (hunit : N.X * N.X + N.Y * N.Y = 1) (hd : FVector.dot V N < 0) :
    (FVector.VectorPlaneProject V N).SizeSquared2D < V.SizeSquared2D := by
  have e : (FVector.VectorPlaneProject V N).SizeSquared2D
      = V.SizeSquared2D - FVector.dot V N * FVector.dot V N := by
    simp only [FVector.VectorPlaneProject, FVector.SizeSquared2D, FVector.sub, FVector.scale,
      FVector.dot, hN]
    linear_combination
      ((V.X * N.X + V.Y * N.Y + V.Z * 0) * (V.X * N.X + V.Y * N.Y + V.Z * 0)) * hunit
  rw [e]
  have := mul_pos_of_neg_of_neg hd hd
  linarith

/-- C18, as the code has it. For every state whose squared horizontal speed is at most
`MinWallRunSpeed` squared (in particular a horizontal speed of exactly `MinWallRunSpeed`),
whatever the floor cast and the wall casts return, `TryWallRun` returns false and the mode and
sub-mode stay what they were, provided the wall the attempt settles on (the hit of the left
cast when it qualifies, else that of the right cast), if it qualifies, is vertical: its normal
is horizontal and of unit length. -/
theorem TryWallRun_fails_at_minimum [LinearOrderedCommRing R] (E : Engine R) (W : World R)
    (s : UTutCharacterMovementComponent R)
    (hspeed : s.Velocity.SizeSquared2D ≤ s.MinWallRunSpeed ^ 2)
    (hW : wallQualifies s (chosenWall W s) = true → (chosenWall W s).IsVertical) :
    (TryWallRun E W s).1 = false ∧
    (TryWallRun E W s).2.MovementMode = s.MovementMode ∧
    (TryWallRun E W s).2.CustomMovementMode = s.CustomMovementMode := by
  by_cases hfall : s.IsFalling = true
  swap
  · simp [TryWallRun, hfall]
  by_cases hs : s.Velocity.SizeSquared2D < s.MinWallRunSpeed ^ 2
  · simp [TryWallRun, hfall, hs]
  by_cases hz : s.Velocity.Z < -s.MaxVerticalWallRunSpeed
  · simp [TryWallRun, hfall, hs, hz]
  by_cases hc : s.CustomCharacter = true
  swap
  · simp [TryWallRun, hfall, hs, hz, hc]
  by_cases hfloor : floorCast W s = false
  swap
  · have hf : (W.LineTraceSingleByProfile s.Location (FVector.add s.Location
        (FVector.scale FVector.DownVector (W.ScaledCapsuleHalfHeight + s.MinWallRunHeight)))).1
          = true := by
      simpa [floorCast] using hfloor
    unfold TryWallRun
    rw [if_neg (by simp [hfall]), if_neg hs, if_neg hz, if_neg (by simp [hc])]
    dsimp only
    rw [if_pos hf]
    exact ⟨rfl, rfl, rfl⟩
  have slow : ∀ (b : Bool) (h : FHitResult R), h = chosenWall W s →
      wallQualifies s h = true →
      finishWallRun E { s with bWallRunIsRight := b } h = (false, { s with bWallRunIsRight := b }) := by
    intro b h hh hq
    subst hh
    have hv := hW hq
    unfold wallQualifies at hq
    simp only [Bool.and_eq_true, decide_eq_true_eq] at hq
    have := project_vertical_wall_slower s.Velocity (chosenWall W s).Normal hv.1 hv.2 hq.2
    unfold finishWallRun
    rw [if_pos (lt_of_lt_of_le this hspeed)]
  rw [TryWallRun_chosen E W s hfall hs hz hc hfloor]
  split_ifs with hl hr
  · rw [slow false _ (by simp [chosenWall, hl]) hl]
    exact ⟨rfl, rfl, rfl⟩
  · rw [slow true _ (by simp [chosenWall, hl]) hr]
    exact ⟨rfl, rfl, rfl⟩
  · exact ⟨rfl, rfl, rfl⟩

/-! ## The wall-run integrator -/

/-- The loop adds at most as many passes as `Iterations` is short of
`MaxSimulationIterations`. -/
theorem PhysWallRun_loop_length [LinearOrderedField R] (E : Engine R) (W : World R) (P : Host R) :
    ∀ (n : Nat) (s : UTutCharacterMovementComponent R) (remainingTime : R) (Iterations : Int)
      (subTicks : List (SubTick R)), (P.MaxSimulationIterations - Iterations).toNat = n →
      (PhysWallRun.loop E W P s remainingTime Iterations subTicks).subTicks.length
        ≤ subTicks.length + n := by
  intro n
  induction n with
  | zero =>
    intro s remainingTime Iterations subTicks hn
    rw [PhysWallRun.loop]
    have h : ¬ Iterations < P.MaxSimulationIterations := by omega
    simp [h]
  | succ k ih =>
    intro s remainingTime Iterations subTicks hn
    rw [PhysWallRun.loop]
    split_ifs with h
    · generalize PhysWallRun.subTick E W P s remainingTime (Iterations + 1) = r
      rcases r with ⟨step, t⟩
      cases step with
      | returned s1 rt1 it1 => simp only [List.length_append, List.length_singleton]; omega
      | broke s1 rt1 => simp only [List.length_append, List.length_singleton]; omega
      | next s1 rt1 =>
        have := ih s1 rt1 (Iterations + 1) (subTicks ++ [t]) (by omega)
        simp only [List.length_append, List.length_singleton] at this ⊢
        omega
    · simp

/-- C20. The sub-tick loop of `PhysWallRun` terminates for every input (the function is
total: the loop is a recursion on the distance from `Iterations` to
`MaxSimulationIterations`). Called with iteration counter `Iterations` and time `deltaTime`,
it makes no pass through the loop when `deltaTime` is below `MIN_TICK_TIME` and otherwise at
most `max(0, MaxSimulationIterations - Iterations)` passes, whatever the casts, the collision
sweeps and `GetSimulationTimeStep` return. -/
theorem PhysWallRun_subTicks_bounded [LinearOrderedField R] (E : Engine R) (W : World R)
    (P : Host R) (deltaTime : R) (Iterations : Int) (s : UTutCharacterMovementComponent R) :
    (deltaTime < MIN_TICK_TIME R → (PhysWallRun E W P deltaTime Iterations s).subTicks = []) ∧
    ((PhysWallRun E W P deltaTime Iterations s).subTicks.length : Int)
      ≤ max 0 (P.MaxSimulationIterations - Iterations) := by
  have hloop := PhysWallRun_loop_length E W P _ ({ s with bJustTeleported := false })
    deltaTime Iterations [] rfl
  have hnat : ∀ k : Nat, k ≤ 0 + (P.MaxSimulationIterations - Iterations).toNat →
      (k : Int) ≤ max 0 (P.MaxSimulationIterations - Iterations) := by
    intro k hk
    rw [le_max_iff]
    omega
  constructor
  · intro h
    unfold PhysWallRun
    rw [if_pos h]
  · apply hnat
    unfold PhysWallRun
    dsimp only
    split_ifs <;> first | exact hloop | (split <;> exact hloop) | simp

/-! ## The mode is never Custom without the wall-running tag -/

/-- The mode-change notification keeps a valid pair of mode fields when the base class
does. -/
theorem OnMovementModeChanged_ModeTagged (E : Engine R)
    (hmc : ∀ p c b, ModeTagged b → ModeTagged (E.Super_OnMovementModeChanged p c b))
    (p : EMovementMode) (c : Nat) (s : UTutCharacterMovementComponent R)
    (h : ModeTagged s.toInherited) : ModeTagged (OnMovementModeChanged E p c s).toInherited := by
  unfold OnMovementModeChanged
  dsimp only
  split_ifs <;> first | exact h | exact hmc _ _ _ h

/-- A request for a mode that is not custom, or is custom with the wall-running tag, keeps
a valid pair of mode fields when the base class does. -/
theorem SetMovementMode_ModeTagged (E : Engine R)
    (hmc : ∀ p c b, ModeTagged b → ModeTagged (E.Super_OnMovementModeChanged p c b))
    (m : EMovementMode) (c : Nat) (hreq : m = .MOVE_Custom → c = MOVE_WallRunning)
    (s : UTutCharacterMovementComponent R) (h : ModeTagged s.toInherited) :
    ModeTagged (SetMovementMode E m c s).toInherited := by
  have key : ∀ (m1 : EMovementMode) (c1 : Nat), (m1 = .MOVE_Custom → c1 = MOVE_WallRunning) →
      ModeTagged (if s.MovementMode = m1 ∧ (m1 ≠ .MOVE_Custom ∨ c1 = s.CustomMovementMode) then s
        else if (!({ s with MovementMode := m1, CustomMovementMode := c1 } :
            UTutCharacterMovementComponent R).HasValidData) = true then
          { s with MovementMode := m1, CustomMovementMode := c1 }
        else OnMovementModeChanged E s.MovementMode s.CustomMovementMode
          { s with MovementMode := m1, CustomMovementMode := c1 }).toInherited := by
    intro m1 c1 h1
    have hnew : ModeTagged ({ s with MovementMode := m1, CustomMovementMode := c1 } :
        UTutCharacterMovementComponent R).toInherited := h1
    split_ifs
    · exact h
    · exact hnew
    · exact OnMovementModeChanged_ModeTagged E hmc _ _ _ hnew
  have hrel : (if m = .MOVE_NavWalking ∧ E.bHasNavData = false then EMovementMode.MOVE_Walking
      else m) = .MOVE_Custom → (if m ≠ .MOVE_Custom then 0 else c) = MOVE_WallRunning := by
    intro hm
    split_ifs at hm with h1
    have hm1 : m = .MOVE_Custom := hm
    simp [hm1, hreq hm1]
  exact key _ _ hrel

/-- A wall-run attempt keeps a valid pair of mode fields when the base class does. -/
theorem TryWallRun_ModeTagged [LinearOrderedRing R] (E : Engine R)
    (hmc : ∀ p c b, ModeTagged b → ModeTagged (E.Super_OnMovementModeChanged p c b))
    (W : World R) (s : UTutCharacterMovementComponent R) (h : ModeTagged s.toInherited) :
    ModeTagged (TryWallRun E W s).2.toInherited := by
  unfold TryWallRun
  dsimp only
  split_ifs <;>
    first
    | exact h
    | exact SetMovementMode_ModeTagged E hmc .MOVE_Custom MOVE_WallRunning (fun _ => rfl) _ h

/-- The body of the sub-tick loop in terms of its parts: the locked cast, the hand-over to
Falling, the velocity update and the position update. -/
theorem PhysWallRun_subTick_eq [LinearOrderedField R] (E : Engine R) (W : World R)
    (P : Host R) (s : UTutCharacterMovementComponent R) (remainingTime : R) (Iterations : Int) :
    PhysWallRun.subTick E W P s remainingTime Iterations =
      if (!(lockedCast W { s with bJustTeleported := false }).IsValidBlockingHit
          || ((lockedCast W { s with bJustTeleported := false }).IsValidBlockingHit
            && !s.Acceleration.IsNearlyZero
            && decide (FVector.dot (FVector.GetSafeNormal P.InvSqrt s.Acceleration)
                (lockedCast W { s with bJustTeleported := false }).Normal
                  > P.Sin (P.DegreesToRadians P.WallRunPullAwayAngle)))) = true then
        (Step.returned
          (exitToFalling E P (remainingTime - P.GetSimulationTimeStep remainingTime Iterations)
            Iterations { s with bJustTeleported := false })
          (remainingTime - P.GetSimulationTimeStep remainingTime Iterations) Iterations,
          ⟨P.GetSimulationTimeStep remainingTime Iterations, .lostWall⟩)
      else if (decide ((integrateWallRun P (P.GetSimulationTimeStep remainingTime Iterations)
            (lockedCast W { s with bJustTeleported := false })
            { s with bJustTeleported := false }).Velocity.SizeSquared2D < s.MinWallRunSpeed ^ 2)
          || decide ((integrateWallRun P (P.GetSimulationTimeStep remainingTime Iterations)
            (lockedCast W { s with bJustTeleported := false })
            { s with bJustTeleported := false }).Velocity.Z < -s.MaxVerticalWallRunSpeed))
            = true then
        (Step.returned
          (exitToFalling E P (remainingTime - P.GetSimulationTimeStep remainingTime Iterations)
            Iterations
            (integrateWallRun P (P.GetSimulationTimeStep remainingTime Iterations)
              (lockedCast W { s with bJustTeleported := false })
              { s with bJustTeleported := false }))
          (remainingTime - P.GetSimulationTimeStep remainingTime Iterations) Iterations,
          ⟨P.GetSimulationTimeStep remainingTime Iterations, .tooSlow⟩)
      else if (moveAlongWall P (P.GetSimulationTimeStep remainingTime Iterations)
            (remainingTime - P.GetSimulationTimeStep remainingTime Iterations)
            (lockedCast W { s with bJustTeleported := false })
            (integrateWallRun P (P.GetSimulationTimeStep remainingTime Iterations)
              (lockedCast W { s with bJustTeleported := false })
              { s with bJustTeleported := false })).1.Location = s.Location then
        (Step.broke
          (moveAlongWall P (P.GetSimulationTimeStep remainingTime Iterations)
            (remainingTime - P.GetSimulationTimeStep remainingTime Iterations)
            (lockedCast W { s with bJustTeleported := false })
            (integrateWallRun P (P.GetSimulationTimeStep remainingTime Iterations)
              (lockedCast W { s with bJustTeleported := false })
              { s with bJustTeleported := false })).1 0,
          ⟨P.GetSimulationTimeStep remainingTime Iterations, .stalled⟩)
      else
        (Step.next
          { (moveAlongWall P (P.GetSimulationTimeStep remainingTime Iterations)
              (remainingTime - P.GetSimulationTimeStep remainingTime Iterations)
              (lockedCast W { s with bJustTeleported := false })
              (integrateWallRun P (P.GetSimulationTimeStep remainingTime Iterations)
                (lockedCast W { s with bJustTeleported := false })
                { s with bJustTeleported := false })).1 with
            Velocity := FVector.div (FVector.sub
              (moveAlongWall P (P.GetSimulationTimeStep remainingTime Iterations)
                (remainingTime - P.GetSimulationTimeStep remainingTime Iterations)
                (lockedCast W { s with bJustTeleported := false })
                (integrateWallRun P (P.GetSimulationTimeStep remainingTime Iterations)
                  (lockedCast W { s with bJustTeleported := false })
                  { s with bJustTeleported := false })).1.Location s.Location)
              (P.GetSimulationTimeStep remainingTime Iterations) }
          (moveAlongWall P (P.GetSimulationTimeStep remainingTime Iterations)
            (remainingTime - P.GetSimulationTimeStep remainingTime Iterations)
            (lockedCast W { s with bJustTeleported := false })
            (integrateWallRun P (P.GetSimulationTimeStep remainingTime Iterations)
              (lockedCast W { s with bJustTeleported := false })
              { s with bJustTeleported := false })).2,
          ⟨P.GetSimulationTimeStep remainingTime Iterations, .moved⟩) := by
  rfl

/-- The hand-over to Falling keeps a valid pair of mode fields when the engine does. -/
theorem exitToFalling_ModeTagged (E : Engine R) (P : Host R) (hK : KeepsModeTagged E P)
    (remainingTime : R) (Iterations : Int) (s : UTutCharacterMovementComponent R)
    (h : ModeTagged s.toInherited) :
    ModeTagged (exitToFalling E P remainingTime Iterations s).toInherited :=
  hK.startNewPhysics _ _ _
    (SetMovementMode_ModeTagged E hK.modeChanged .MOVE_Falling 0 (by decide) s h)

/-- The velocity update keeps a valid pair of mode fields when the engine does. -/
theorem integrateWallRun_ModeTagged [LinearOrderedField R] (E : Engine R) (P : Host R)
    (hK : KeepsModeTagged E P) (timeTick : R) (WallHit : FHitResult R)
    (s : UTutCharacterMovementComponent R) (h : ModeTagged s.toInherited) :
    ModeTagged (integrateWallRun P timeTick WallHit s).toInherited :=
  hK.calcVelocity _ _ _ _ _ h

/-- The position update keeps a valid pair of mode fields when the engine does. -/
theorem moveAlongWall_ModeTagged [LinearOrderedField R] (E : Engine R) (P : Host R)
    (hK : KeepsModeTagged E P) (timeTick remainingTime : R) (WallHit : FHitResult R)
    (s : UTutCharacterMovementComponent R) (h : ModeTagged s.toInherited) :
    ModeTagged (moveAlongWall P timeTick remainingTime WallHit s).1.toInherited := by
  unfold moveAlongWall
  split_ifs
  · exact h
  · exact hK.safeMove _ _ (hK.safeMove _ _ h)

/-- One pass through the loop body keeps a valid pair of mode fields when the engine does. -/
theorem PhysWallRun_subTick_ModeTagged [LinearOrderedField R] (E : Engine R) (W : World R)
    (P : Host R) (hK : KeepsModeTagged E P) (s : UTutCharacterMovementComponent R)
    (remainingTime : R) (Iterations : Int) (h : ModeTagged s.toInherited) :
    ModeTagged (PhysWallRun.subTick E W P s remainingTime Iterations).1.state.toInherited := by
  have h0 : ModeTagged ({ s with bJustTeleported := false } :
      UTutCharacterMovementComponent R).toInherited := h
  rw [PhysWallRun_subTick_eq]
  split_ifs
  · exact exitToFalling_ModeTagged E P hK _ _ _ h0
  · exact exitToFalling_ModeTagged E P hK _ _ _ (integrateWallRun_ModeTagged E P hK _ _ _ h0)
  · exact moveAlongWall_ModeTagged E P hK _ _ _ _ (integrateWallRun_ModeTagged E P hK _ _ _ h0)
  · exact moveAlongWall_ModeTagged E P hK _ _ _ _ (integrateWallRun_ModeTagged E P hK _ _ _ h0)

/-- The loop keeps a valid pair of mode fields when the engine does. -/
theorem PhysWallRun_loop_ModeTagged [LinearOrderedField R] (E : Engine R) (W : World R)
    (P : Host R) (hK : KeepsModeTagged E P) :
    ∀ (n : Nat) (s : UTutCharacterMovementComponent R) (remainingTime : R) (Iterations : Int)
      (subTicks : List (SubTick R)), (P.MaxSimulationIterations - Iterations).toNat = n →
      ModeTagged s.toInherited →
      ModeTagged (PhysWallRun.loop E W P s remainingTime Iterations subTicks).state.toInherited := by
  intro n
  induction n with
  | zero =>
    intro s remainingTime Iterations subTicks hn h
    rw [PhysWallRun.loop]
    have hlt : ¬ Iterations < P.MaxSimulationIterations := by omega
    simpa [hlt] using h
  | succ k ih =>
    intro s remainingTime Iterations subTicks hn h
    rw [PhysWallRun.loop]
    split_ifs with hg
    · have hstep := PhysWallRun_subTick_ModeTagged E W P hK s remainingTime (Iterations + 1) h
      generalize PhysWallRun.subTick E W P s remainingTime (Iterations + 1) = r at hstep
      rcases r with ⟨step, t⟩
      cases step with
      | returned s1 rt1 it1 => exact hstep
      | broke s1 rt1 => exact hstep
      | next s1 rt1 => exact ih s1 rt1 (Iterations + 1) (subTicks ++ [t]) (by omega) hstep
    · exact h

/-- The wall-run integrator keeps a valid pair of mode fields when the engine does. -/
theorem PhysWallRun_ModeTagged [LinearOrderedField R] (E : Engine R) (W : World R) (P : Host R)
    (hK : KeepsModeTagged E P) (deltaTime : R) (Iterations : Int)
    (s : UTutCharacterMovementComponent R) (h : ModeTagged s.toInherited) :
    ModeTagged (PhysWallRun E W P deltaTime Iterations s).state.toInherited := by
  have hloop := PhysWallRun_loop_ModeTagged E W P hK _ ({ s with bJustTeleported := false })
    deltaTime Iterations [] rfl h
  have hfall := SetMovementMode_ModeTagged E hK.modeChanged .MOVE_Falling 0 (by decide) _ hloop
  unfold PhysWallRun
  dsimp only
  split_ifs <;> first | exact h | (split <;> first | exact hloop | exact hfall)

/-- The pending launch keeps a valid pair of mode fields when the base class does. -/
theorem HandlePendingLaunch_ModeTagged [Zero R] [DecidableEq R] (E : Engine R)
    (hmc : ∀ p c b, ModeTagged b → ModeTagged (E.Super_OnMovementModeChanged p c b))
    (s : UTutCharacterMovementComponent R) (h : ModeTagged s.toInherited) :
    ModeTagged (HandlePendingLaunch E s).2.toInherited := by
  have hfall := SetMovementMode_ModeTagged E hmc .MOVE_Falling 0 (by decide)
    ({ s with Velocity := s.PendingLaunchVelocity }) h
  unfold HandlePendingLaunch
  split_ifs
  · exact hfall
  · exact h

/-- The post-advance hook keeps a valid pair of mode fields when the base class does. -/
theorem OnMovementUpdated_ModeTagged [Zero R] (E : Engine R)
    (hmc : ∀ p c b, ModeTagged b → ModeTagged (E.Super_OnMovementModeChanged p c b))
    (hmu : ∀ dt ol ov b, ModeTagged b → ModeTagged (E.Super_OnMovementUpdated dt ol ov b))
    (DeltaSeconds : R) (OldLocation OldVelocity : FVector R)
    (s : UTutCharacterMovementComponent R) (h : ModeTagged s.toInherited) :
    ModeTagged (OnMovementUpdated E DeltaSeconds OldLocation OldVelocity s).toInherited := by
  have h0 : ModeTagged ({ s with toInherited :=
      (E.Super_OnMovementUpdated DeltaSeconds OldLocation OldVelocity s.toInherited) } :
        UTutCharacterMovementComponent R).toInherited := hmu _ _ _ _ h
  have hfly := SetMovementMode_ModeTagged E hmc .MOVE_Flying 0 (by decide) _ h0
  have hfall := SetMovementMode_ModeTagged E hmc .MOVE_Falling 0 (by decide) _ h0
  unfold OnMovementUpdated
  dsimp only
  split_ifs <;> first | exact h0 | exact hfly | exact hfall

/-- The pre-step hook keeps a valid pair of mode fields when the base class does. -/
theorem UpdateCharacterStateBeforeMovement_ModeTagged [LinearOrderedField R] (E : Engine R)
    (W : World R) (P : Host R) (hK : KeepsModeTagged E P) (DeltaSeconds : R)
    (s : UTutCharacterMovementComponent R) (h : ModeTagged s.toInherited) :
    ModeTagged (UpdateCharacterStateBeforeMovement E W P DeltaSeconds s).toInherited := by
  have h0 : ModeTagged (afterSuperBeforeMovement P DeltaSeconds s).toInherited :=
    hK.beforeMovement _ _ h
  have ht : ∀ b : Bool, ModeTagged (TryWallRun E W
      { afterSuperBeforeMovement P DeltaSeconds s with bIsSprinting := b }).2.toInherited :=
    fun b => TryWallRun_ModeTagged E hK.modeChanged W _ h0
  unfold UpdateCharacterStateBeforeMovement
  dsimp only
  split_ifs <;> first | exact h0 | exact ht true | exact ht false

/-- C11. The mode is never Custom without the wall-running tag: if the mode is not Custom, or
is Custom with sub-mode WallRunning, then it is so again after each of `HandlePendingLaunch`,
`TryWallRun`, `PhysWallRun`, `OnMovementUpdated` and the pre-step hook
`UpdateCharacterStateBeforeMovement`. The component itself only ever requests Falling, Flying
or Custom/WallRunning; the base implementations and engine services these operations call are
assumed to keep a valid pair of mode fields as well. -/
theorem mode_tag_invariant [LinearOrderedField R] (E : Engine R) (W : World R) (P : Host R)
    (hK : KeepsModeTagged E P) (s : UTutCharacterMovementComponent R)
    (h : ModeTagged s.toInherited) (deltaTime : R) (Iterations : Int)
    (OldLocation OldVelocity : FVector R) :
    ModeTagged (HandlePendingLaunch E s).2.toInherited ∧
    ModeTagged (TryWallRun E W s).2.toInherited ∧
    ModeTagged (PhysWallRun E W P deltaTime Iterations s).state.toInherited ∧
    ModeTagged (OnMovementUpdated E deltaTime OldLocation OldVelocity s).toInherited ∧
    ModeTagged (UpdateCharacterStateBeforeMovement E W P deltaTime s).toInherited :=
  ⟨HandlePendingLaunch_ModeTagged E hK.modeChanged s h,
    TryWallRun_ModeTagged E hK.modeChanged W s h,
    PhysWallRun_ModeTagged E W P hK deltaTime Iterations s h,
    OnMovementUpdated_ModeTagged E hK.modeChanged hK.movementUpdated deltaTime OldLocation
      OldVelocity s h,
    UpdateCharacterStateBeforeMovement_ModeTagged E W P hK deltaTime s h⟩

/-! ## The statements exercised on concrete components -/

/-- C11, exercised: a wall-running component keeps a valid pair of mode fields through
`PhysWallRun` and through the pre-step hook, with an engine that keeps them. -/
theorem mode_tag_invariant_witness :
    KeepsModeTagged demoEngineQ demoHost ∧ ModeTagged demoWallRunningQ.toInherited ∧
    ModeTagged (PhysWallRun demoEngineQ demoLeaningWall demoHost 1 0
      demoWallRunningQ).state.toInherited ∧
    ModeTagged (UpdateCharacterStateBeforeMovement demoEngineQ demoLeaningWall demoHost 1
      demoWallRunningQ).toInherited :=
  have hK : KeepsModeTagged demoEngineQ demoHost :=
    ⟨fun _ _ _ h => h, fun _ _ _ _ h => h, fun _ _ h => h, fun _ _ _ _ _ h => h,
      fun _ _ h => h, fun _ _ _ h => h⟩
  have h : ModeTagged demoWallRunningQ.toInherited := fun _ => rfl
  have all := mode_tag_invariant demoEngineQ demoLeaningWall demoHost hK demoWallRunningQ h 1 0
    ⟨0, 0, 0⟩ ⟨0, 0, 0⟩
  ⟨hK, h, all.2.2.1, all.2.2.2.2⟩

/-- C12, exercised: a component that has left Flying for Falling with `bIsFlying` still set
has `bIsFlying` cleared by the notification. -/
theorem bIsFlying_tracks_Flying_witness :
    demoLeftFlying.HasValidData = true ∧
    (demoLeftFlying.bIsFlying = true ↔ EMovementMode.MOVE_Flying = .MOVE_Flying) ∧
    (OnMovementModeChanged demoEngine .MOVE_Flying 0 demoLeftFlying).bIsFlying = false :=
  have key := ((bIsFlying_tracks_Flying demoEngine .MOVE_Flying 0 demoLeftFlying).1 rfl
    ⟨fun _ => rfl, fun _ => rfl⟩).1
  ⟨rfl, ⟨fun _ => rfl, fun _ => rfl⟩,
    Bool.eq_false_iff.mpr (fun h => absurd (key.1 h) (by decide))⟩

/-- C13, exercised: the hook returns a simulated proxy as it is, and sets the sprint state of
an authority from `CanSprint()`. -/
theorem UpdateCharacterStateBeforeMovement_spec_witness :
    (afterSuperBeforeMovement demoHost 1 demoProxyQ).LocalRole = .ROLE_SimulatedProxy ∧
    UpdateCharacterStateBeforeMovement demoEngineQ demoLeaningWall demoHost 1 demoProxyQ
      = afterSuperBeforeMovement demoHost 1 demoProxyQ ∧
    (afterSuperBeforeMovement demoHost 1 demoFallingQ).LocalRole ≠ .ROLE_SimulatedProxy ∧
    (UpdateCharacterStateBeforeMovement demoEngineQ demoLeaningWall demoHost 1
      demoFallingQ).bIsSprinting = CanSprint demoHost (afterSuperBeforeMovement demoHost 1
        demoFallingQ) :=
  ⟨rfl,
    ((UpdateCharacterStateBeforeMovement_spec demoEngineQ demoLeaningWall demoHost 1
      demoProxyQ).1 rfl).1,
    by decide,
    ((UpdateCharacterStateBeforeMovement_spec demoEngineQ demoLeaningWall demoHost 1
      demoFallingQ).2 (by decide)).1⟩

/-- C14, exercised: with the wants-to-fly bit set on an authority, the hook ends in Flying. -/
theorem OnMovementUpdated_schedules_flight_witness :
    demoEngine.UpdateKeepsMode ∧ demoEngine.UpdateKeepsRole ∧ demoEngine.ModeChangeKeepsMode ∧
    demoWantsToFly.LocalRole.toNat > ENetRole.ROLE_SimulatedProxy.toNat ∧
    demoWantsToFly.MovementFlagCustom.testBit 0 = true ∧
    (OnMovementUpdated demoEngine 1 ⟨0, 0, 0⟩ ⟨0, 0, 0⟩ demoWantsToFly).MovementMode
      = .MOVE_Flying :=
  ⟨fun _ _ _ _ => ⟨rfl, rfl⟩, fun _ _ _ _ => rfl, fun _ _ _ => rfl, by decide, by decide,
    ((OnMovementUpdated_schedules_flight demoEngine (fun _ _ _ _ => ⟨rfl, rfl⟩)
      (fun _ _ _ _ => rfl) (fun _ _ _ => rfl) 1 ⟨0, 0, 0⟩ ⟨0, 0, 0⟩ demoWantsToFly).1
        (by decide)).1 (by decide)⟩

/-- C15 as stated fails: on a simulated proxy in the custom mode with the sub-mode
`MOVE_CustomNone`, `PhysCustom` returns without a fatal error and without any effect. -/
theorem PhysCustom_proxy_silent :
    demoProxyQ.MovementMode = .MOVE_Custom ∧ demoProxyQ.CustomMovementMode ≠ MOVE_WallRunning ∧
    PhysCustom demoEngineQ demoLeaningWall demoHost 1 0 demoProxyQ = Except.ok demoProxyQ :=
  ⟨rfl, by decide, by rfl⟩

/-- C15, exercised: an authority in the custom mode with the sub-mode `MOVE_CustomNone` ends
in the fatal error. -/
theorem PhysCustom_spec_witness :
    ({ demoProxyQ with LocalRole := .ROLE_Authority } :
      UTutCharacterMovementComponent ℚ).LocalRole ≠ .ROLE_SimulatedProxy ∧
    ({ demoProxyQ with LocalRole := .ROLE_Authority } :
      UTutCharacterMovementComponent ℚ).CustomMovementMode ≠ MOVE_WallRunning ∧
    PhysCustom demoEngineQ demoLeaningWall demoHost 1 0
      { demoProxyQ with LocalRole := .ROLE_Authority }
        = Except.error FatalError.InvalidMovementMode :=
  ⟨by decide, by decide,
    (PhysCustom_spec demoEngineQ demoLeaningWall demoHost 1 0
      { demoProxyQ with LocalRole := .ROLE_Authority }).1 (by decide) (by decide)⟩

/-- C16, exercised: a sprinting wall runner is capped by `MaxWallRunSpeed`. -/
theorem GetMaxSpeed_spec_witness :
    demoWallRunningQ.IsWallRunning = true ∧ demoWallRunningQ.bIsSprinting = true ∧
    GetMaxSpeed demoHost demoWallRunningQ = demoWallRunningQ.MaxWallRunSpeed :=
  ⟨rfl, rfl, (GetMaxSpeed_spec demoHost demoWallRunningQ).1 rfl⟩

/-- C17, exercised: walking straight ahead with the sprint intent set, the character can
sprint. -/
theorem CanSprint_iff_witness :
    FVector.dot demoHost.GetActorForwardVector
      (FVector.GetSafeNormal demoHost.InvSqrt demoWalkingQ.Velocity) > 7 / 10 ∧
    CanSprint demoHost demoWalkingQ = true :=
  have hdot : FVector.dot demoHost.GetActorForwardVector
      (FVector.GetSafeNormal demoHost.InvSqrt demoWalkingQ.Velocity) > 7 / 10 := by
    norm_num [FVector.dot, FVector.GetSafeNormal, demoHost, demoWalkingQ, demoFallingQ]
  ⟨hdot, (CanSprint_iff demoHost demoWalkingQ).1.2 ⟨rfl, rfl, rfl, hdot⟩⟩

/-- C20, exercised: a call with no time makes no pass through the loop. -/
theorem PhysWallRun_subTicks_bounded_witness :
    (0 : ℚ) < MIN_TICK_TIME ℚ ∧
    (PhysWallRun demoEngineQ demoLeaningWall demoHost 0 0 demoWallRunningQ).subTicks = [] :=
  have h : (0 : ℚ) < MIN_TICK_TIME ℚ := by norm_num [MIN_TICK_TIME]
  ⟨h, (PhysWallRun_subTicks_bounded demoEngineQ demoLeaningWall demoHost 0 0
    demoWallRunningQ).1 h⟩

/-- C18 as stated fails: a component falling at 100 with a horizontal speed of exactly
`MinWallRunSpeed = 200` beside a leaning wall (unit normal `(0, -4/5, 3/5)`) enters the wall
run: the projection on the wall plane, `(200, -48, -64)`, has a squared horizontal speed of
42304, which is not below 40000. -/
theorem TryWallRun_at_minimum_enters :
    demoFallingQ.Velocity.SizeSquared2D = demoFallingQ.MinWallRunSpeed ^ 2 ∧
    (TryWallRun demoEngineQ demoLeaningWall demoFallingQ).1 = true ∧
    (TryWallRun demoEngineQ demoLeaningWall demoFallingQ).2.MovementMode = .MOVE_Custom ∧
    (TryWallRun demoEngineQ demoLeaningWall demoFallingQ).2.CustomMovementMode
      = MOVE_WallRunning := by
  have hs : demoFallingQ.Velocity.SizeSquared2D = demoFallingQ.MinWallRunSpeed ^ 2 := by
    norm_num [FVector.SizeSquared2D, demoFallingQ]
  have hz : ¬ demoFallingQ.Velocity.Z < -demoFallingQ.MaxVerticalWallRunSpeed := by
    norm_num [demoFallingQ]
  have hfloor : floorCast demoLeaningWall demoFallingQ = false := by
    norm_num [floorCast, demoLeaningWall, demoFallingQ, FVector.add, FVector.scale,
      FVector.DownVector]
  have hl : wallQualifies demoFallingQ (leftCast demoLeaningWall demoFallingQ) = false := by
    norm_num [wallQualifies, leftCast, demoLeaningWall, demoFallingQ, FVector.sub,
      FVector.scale, FHitResult.IsValidBlockingHit]
  have hr : wallQualifies demoFallingQ (rightCast demoLeaningWall demoFallingQ) = true := by
    norm_num [wallQualifies, rightCast, demoLeaningWall, demoFallingQ, FVector.add,
      FVector.scale, FHitResult.IsValidBlockingHit, FVector.dot]
  have hk : keepsSpeed demoFallingQ (rightCast demoLeaningWall demoFallingQ) := by
    norm_num [keepsSpeed, rightCast, demoLeaningWall, demoFallingQ, FVector.add,
      FVector.scale, FVector.VectorPlaneProject, FVector.sub, FVector.dot,
      FVector.SizeSquared2D]
  have h := (TryWallRun_succeeds demoEngineQ (fun _ _ _ => rfl) (fun _ _ _ => rfl)
    demoLeaningWall demoFallingQ rfl rfl (by rw [hs]; exact lt_irrefl _) hz hfloor).2 hl hr hk
  exact ⟨hs, h.1, h.2.1, h.2.2.1⟩

/-- C18, exercised: running at a vertical wall on the right with a horizontal speed of
exactly `MinWallRunSpeed`, the attempt fails. -/
theorem TryWallRun_fails_at_minimum_witness :
    demoAtMinimum.Velocity.SizeSquared2D ≤ demoAtMinimum.MinWallRunSpeed ^ 2 ∧
    wallQualifies demoAtMinimum (chosenWall demoRightWall demoAtMinimum) = true ∧
    (chosenWall demoRightWall demoAtMinimum).IsVertical ∧
    (TryWallRun demoEngine demoRightWall demoAtMinimum).1 = false :=
  have hv : (chosenWall demoRightWall demoAtMinimum).IsVertical := by
    unfold FHitResult.IsVertical
    decide
  ⟨by decide, by decide, hv,
    (TryWallRun_fails_at_minimum demoEngine demoRightWall demoAtMinimum (by decide)
      (fun _ => hv)).1⟩

/-- C19 as stated fails: a falling component with a valid custom character, horizontal speed
`MinWallRunSpeed + 1`, no vertical speed, no floor below and a valid blocking wall on the right
whose normal opposes the velocity does not enter the wall run when it runs straight at the
wall: the velocity projected on the wall plane is zero. -/
theorem TryWallRun_fails_into_wall :
    demoIntoWall.IsFalling = true ∧ demoIntoWall.CustomCharacter = true ∧
    demoIntoWall.Velocity.SizeSquared2D = (demoIntoWall.MinWallRunSpeed + 1) ^ 2 ∧
    ¬ demoIntoWall.Velocity.Z < -demoIntoWall.MaxVerticalWallRunSpeed ∧
    floorCast demoRightWall demoIntoWall = false ∧
    wallQualifies demoIntoWall (rightCast demoRightWall demoIntoWall) = true ∧
    (TryWallRun demoEngine demoRightWall demoIntoWall).1 = false := by
  decide

/-- C19, exercised: moving along the right wall and slightly into it at speed
`MinWallRunSpeed + 1`, the attempt succeeds on the right side. -/
theorem TryWallRun_enters_witness :
    demoEngine.ModeChangeKeepsMode ∧ demoEngine.ModeChangeKeepsCustomMode ∧
    wallQualifies demoAlongWall (leftCast demoRightWall demoAlongWall) = false ∧
    wallQualifies demoAlongWall (rightCast demoRightWall demoAlongWall) = true ∧
    (TryWallRun demoEngine demoRightWall demoAlongWall).1 = true ∧
    (TryWallRun demoEngine demoRightWall demoAlongWall).2.MovementMode = .MOVE_Custom ∧
    (TryWallRun demoEngine demoRightWall demoAlongWall).2.CustomMovementMode = MOVE_WallRunning ∧
    (TryWallRun demoEngine demoRightWall demoAlongWall).2.bWallRunIsRight = true :=
  ⟨fun _ _ _ => rfl, fun _ _ _ => rfl, by decide, by decide,
    (TryWallRun_enters demoEngine (fun _ _ _ => rfl) (fun _ _ _ => rfl) demoRightWall
      demoAlongWall (by decide) (by decide) (by decide) (by decide) (by decide)
      (by decide)).2 (by decide) (by decide) (by unfold keepsSpeed; decide)⟩

end UTutCharacterMovementComponent

/-! ## The movement flag byte -/

namespace UTutCharacterMovementComponent
variable {R : Type}

/-- The low eight bits of the complement mask are those of the mask, flipped. -/
theorem testBit_xor_255 (f i : Nat) :
    (f ^^^ 255).testBit i = (f.testBit i ^^ decide (i < 8)) := by
  rw [Nat.testBit_xor]
  congr 1
  exact Nat.testBit_two_pow_sub_one 8 i

/-- A byte has no bit from the eighth on. -/
theorem testBit_byte (b i : Nat) (hb : b < 256) (hi : 8 ≤ i) : b.testBit i = false := by
  apply Nat.testBit_eq_false_of_lt
  calc b < 2 ^ 8 := hb
    _ ≤ 2 ^ i := Nat.pow_le_pow_right (by decide) hi

/-- On bytes, clearing the bits of a mask is the conjunction with the flipped mask. -/
theorem clear_testBit (b f i : Nat) (hb : b < 256) :
    ((b &&& (f ^^^ 255)) % 256).testBit i = (b.testBit i && !f.testBit i) := by
  have hlt : b &&& (f ^^^ 255) < 256 := lt_of_le_of_lt Nat.and_le_left hb
  rw [Nat.mod_eq_of_lt hlt, Nat.testBit_and, testBit_xor_255]
  by_cases hi : i < 8
  · simp [hi]
  · simp [hi, testBit_byte b i hb (by omega)]

/-- C22. The movement flag byte is a set of eight independent flags. For every flag byte `b`
held by the component and every mask byte `f`: `ActivateMovementFlag(f)` changes only the
flag byte, to `b OR f`, and `ClearMovementFlag(f)` changes only the flag byte, to
`b AND NOT f` (bit by bit); every bit outside `f` is unchanged by either; after
`ActivateMovementFlag(f)` with a mask that is not zero (a single bit in particular)
`IsFlagActive(f)` is true, and after `ClearMovementFlag(f)` it is false; both operations are
idempotent; and `DoesCharacterWantToFly` is true exactly when bit 0 is set. -/
theorem flag_byte_operations (s : UTutCharacterMovementComponent R) (f : Nat)
    (hb : s.MovementFlagCustom < 256) (hf : f < 256) :
    ActivateMovementFlag f s = { s with MovementFlagCustom := s.MovementFlagCustom ||| f } ∧
    (∃ c, ClearMovementFlag f s = { s with MovementFlagCustom := c } ∧ c < 256 ∧
      ∀ i, c.testBit i = (s.MovementFlagCustom.testBit i && !f.testBit i)) ∧
    (∀ i, f.testBit i = false →
      (ActivateMovementFlag f s).MovementFlagCustom.testBit i = s.MovementFlagCustom.testBit i ∧
      (ClearMovementFlag f s).MovementFlagCustom.testBit i = s.MovementFlagCustom.testBit i) ∧
    (f ≠ 0 → (ActivateMovementFlag f s).IsFlagActive f = true) ∧
    (ClearMovementFlag f s).IsFlagActive f = false ∧
    ActivateMovementFlag f (ActivateMovementFlag f s) = ActivateMovementFlag f s ∧
    ClearMovementFlag f (ClearMovementFlag f s) = ClearMovementFlag f s ∧
    s.DoesCharacterWantToFly = s.MovementFlagCustom.testBit 0 := by
  have hor : (s.MovementFlagCustom ||| f) % 256 = s.MovementFlagCustom ||| f :=
    Nat.mod_eq_of_lt (@Nat.or_lt_two_pow _ _ 8 hb hf)
  have hclt : (s.MovementFlagCustom &&& (f ^^^ 255)) % 256 < 256 := Nat.mod_lt _ (by decide)
  have hact : ActivateMovementFlag f s
      = { s with MovementFlagCustom := s.MovementFlagCustom ||| f } := by
    simp only [ActivateMovementFlag, hor]
  refine ⟨hact, ⟨_, rfl, hclt, fun i => clear_testBit _ f i hb⟩, fun i hi => ⟨?_, ?_⟩,
    fun hne => ?_, ?_, ?_, ?_, ?_⟩
  · rw [hact]
    simp [Nat.testBit_or, hi]
  · show ((s.MovementFlagCustom &&& (f ^^^ 255)) % 256).testBit i = _
    rw [clear_testBit _ f i hb]
    simp [hi]
  · rw [hact]
    have e : (s.MovementFlagCustom ||| f) &&& f = f := by
      apply Nat.eq_of_testBit_eq
      intro i
      rw [Nat.testBit_and, Nat.testBit_or]
      cases s.MovementFlagCustom.testBit i <;> cases f.testBit i <;> rfl
    simp [IsFlagActive, e, hne]
  · have e : ((s.MovementFlagCustom &&& (f ^^^ 255)) % 256) &&& f = 0 := by
      apply Nat.eq_of_testBit_eq
      intro i
      rw [Nat.testBit_and, clear_testBit _ f i hb]
      cases s.MovementFlagCustom.testBit i <;> cases f.testBit i <;> simp
    simp [IsFlagActive, ClearMovementFlag, e]
  · rw [hact]
    have e : ((s.MovementFlagCustom ||| f) ||| f) % 256 = s.MovementFlagCustom ||| f := by
      rw [Nat.lor_assoc, Nat.or_self, hor]
    simp only [ActivateMovementFlag, e]
  · have e : (((s.MovementFlagCustom &&& (f ^^^ 255)) % 256) &&& (f ^^^ 255)) % 256
        = (s.MovementFlagCustom &&& (f ^^^ 255)) % 256 := by
      apply Nat.eq_of_testBit_eq
      intro i
      rw [clear_testBit _ f i hclt, clear_testBit _ f i hb]
      cases s.MovementFlagCustom.testBit i <;> cases f.testBit i <;> rfl
    simp only [ClearMovementFlag, e]
  · exact IsFlagActive_WantsToFly s

/-- C22, exercised on the walking component with the wants-to-fly bit set and the mask 6. -/
theorem flag_byte_operations_witness :
    demoWantsToFly.MovementFlagCustom < 256 ∧ (6 : Nat) < 256 ∧
    (ActivateMovementFlag 6 demoWantsToFly).MovementFlagCustom = 7 ∧
    (ClearMovementFlag 6 (ActivateMovementFlag 6 demoWantsToFly)).MovementFlagCustom = 1 ∧
    (ActivateMovementFlag 6 demoWantsToFly).IsFlagActive 6 = true :=
  ⟨by decide, by decide, by decide, by decide,
    (flag_byte_operations demoWantsToFly 6 (by decide) (by decide)).2.2.2.1 (by decide)⟩

end UTutCharacterMovementComponent

/-! ## What a wall-run attempt guarantees -/

namespace UTutCharacterMovementComponent
variable {R : Type}

/-- A wall-run attempt that does not pass the four entry guards and the floor cast fails and
leaves the component as it was. -/
theorem TryWallRun_guarded [LinearOrderedRing R] (E : Engine R) (W : World R)
    (s : UTutCharacterMovementComponent R)
    (hg : ¬ (s.IsFalling = true ∧ ¬ s.Velocity.SizeSquared2D < s.MinWallRunSpeed ^ 2 ∧
      ¬ s.Velocity.Z < -s.MaxVerticalWallRunSpeed ∧ s.CustomCharacter = true ∧
      floorCast W s = false)) :
    TryWallRun E W s = (false, s) := by
  by_cases hfall : s.IsFalling = true
  swap
  · simp [TryWallRun, hfall]
  by_cases hs : s.Velocity.SizeSquared2D < s.MinWallRunSpeed ^ 2
  · simp [TryWallRun, hfall, hs]
  by_cases hz : s.Velocity.Z < -s.MaxVerticalWallRunSpeed
  · simp [TryWallRun, hfall, hs, hz]
  by_cases hc : s.CustomCharacter = true
  swap
  · simp [TryWallRun, hfall, hs, hz, hc]
  by_cases hfloor : floorCast W s = false
  · exact absurd ⟨hfall, hs, hz, hc, hfloor⟩ hg
  · have hf : (W.LineTraceSingleByProfile s.Location (FVector.add s.Location
        (FVector.scale FVector.DownVector (W.ScaledCapsuleHalfHeight + s.MinWallRunHeight)))).1
          = true := by
      simpa [floorCast] using hfloor
    unfold TryWallRun
    rw [if_neg (by simp [hfall]), if_neg hs, if_neg hz, if_neg (by simp [hc])]
    dsimp only
    rw [if_pos hf]

/-- Past the guards, a wall-run attempt fails and leaves the component as it was when no wall
qualifies, and otherwise ends as `finishWallRun` says on the chosen wall, with the side of
that wall recorded. -/
theorem TryWallRun_on_chosen [LinearOrderedRing R] (E : Engine R) (W : World R)
    (s : UTutCharacterMovementComponent R) (hfall : s.IsFalling = true)
    (hs : ¬ s.Velocity.SizeSquared2D < s.MinWallRunSpeed ^ 2)
    (hz : ¬ s.Velocity.Z < -s.MaxVerticalWallRunSpeed) (hc : s.CustomCharacter = true)
    (hfloor : floorCast W s = false) :
    TryWallRun E W s =
      if wallQualifies s (chosenWall W s) = true then
        finishWallRun E { s with bWallRunIsRight := !wallQualifies s (leftCast W s) }
          (chosenWall W s)
      else (false, s) := by
  rw [TryWallRun_chosen E W s hfall hs hz hc hfloor]
  unfold chosenWall
  by_cases hl : wallQualifies s (leftCast W s) = true
  · simp [hl]
  · simp [hl]

/-- C23. Whenever `TryWallRun` returns true, the entry requirements held on the input: the
character was falling (with a valid custom character), its squared horizontal speed was at
least `MinWallRunSpeed` squared, `Velocity.Z` was at least `-MaxVerticalWallRunSpeed`, the
downward floor cast over the capsule half-height plus `MinWallRunHeight` did not hit, and the
cast of the chosen side (the left one when it qualifies, the right one only otherwise) was a
valid blocking hit whose normal opposes the velocity. On the output `bWallRunIsRight` records
that side, `Velocity` is the input velocity projected on the wall plane with its Z then clamped
to `[0, MaxVerticalWallRunSpeed]`, the projected squared horizontal speed is at least
`MinWallRunSpeed` squared, and the mode is Custom/WallRunning. The velocity and the mode are
read under the condition that the base class's mode-change notification leaves `Velocity` and
the mode fields as it finds them. -/
theorem TryWallRun_true_spec [LinearOrderedRing R] (E : Engine R)
    (hV : E.ModeChangeKeepsVelocity) (hM : E.ModeChangeKeepsMode)
    (hC : E.ModeChangeKeepsCustomMode) (W : World R) (s : UTutCharacterMovementComponent R)
    (h : (TryWallRun E W s).1 = true) :
    (s.IsFalling = true ∧ s.CustomCharacter = true ∧
      s.MinWallRunSpeed ^ 2 ≤ s.Velocity.SizeSquared2D ∧
      -s.MaxVerticalWallRunSpeed ≤ s.Velocity.Z ∧ floorCast W s = false ∧
      wallQualifies s (chosenWall W s) = true) ∧
    (TryWallRun E W s).2.bWallRunIsRight = (!wallQualifies s (leftCast W s)) ∧
    (TryWallRun E W s).2.Velocity = wallRunVelocity s (chosenWall W s) ∧
    s.MinWallRunSpeed ^ 2
      ≤ (FVector.VectorPlaneProject s.Velocity (chosenWall W s).Normal).SizeSquared2D ∧
    (TryWallRun E W s).2.MovementMode = .MOVE_Custom ∧
    (TryWallRun E W s).2.CustomMovementMode = MOVE_WallRunning := by
  by_cases hg : s.IsFalling = true ∧ ¬ s.Velocity.SizeSquared2D < s.MinWallRunSpeed ^ 2 ∧
      ¬ s.Velocity.Z < -s.MaxVerticalWallRunSpeed ∧ s.CustomCharacter = true ∧
      floorCast W s = false
  swap
  · rw [TryWallRun_guarded E W s hg] at h
    exact absurd h (by simp)
  obtain ⟨hfall, hs, hz, hc, hfloor⟩ := hg
  rw [TryWallRun_on_chosen E W s hfall hs hz hc hfloor] at h ⊢
  by_cases hq : wallQualifies s (chosenWall W s) = true
  swap
  · rw [if_neg hq] at h
    exact absurd h (by simp)
  rw [if_pos hq] at h ⊢
  unfold finishWallRun at h ⊢
  by_cases hk : (FVector.VectorPlaneProject s.Velocity (chosenWall W s).Normal).SizeSquared2D
      < s.MinWallRunSpeed ^ 2
  · rw [if_pos hk] at h
    exact absurd h (by simp)
  rw [if_neg hk]
  refine ⟨⟨hfall, hc, not_lt.1 hs, not_lt.1 hz, hfloor, hq⟩, ?_, ?_, not_lt.1 hk, ?_, ?_⟩
  · show (SetMovementMode E .MOVE_Custom MOVE_WallRunning _).bWallRunIsRight = _
    rw [SetMovementMode_bWallRunIsRight]
  · show (SetMovementMode E .MOVE_Custom MOVE_WallRunning _).Velocity = _
    rw [SetMovementMode_Velocity E hV]
    rfl
  · exact (SetMovementMode_Custom E hM hC _ _).1
  · exact (SetMovementMode_Custom E hM hC _ _).2

/-- C23, exercised: the component that moves along the right wall and slightly into it
enters the wall run on the right with the velocity `(4, 0, 0)`. -/
theorem TryWallRun_true_spec_witness :
    demoEngine.ModeChangeKeepsVelocity ∧ demoEngine.ModeChangeKeepsMode ∧
    demoEngine.ModeChangeKeepsCustomMode ∧
    (TryWallRun demoEngine demoRightWall demoAlongWall).1 = true ∧
    (TryWallRun demoEngine demoRightWall demoAlongWall).2.bWallRunIsRight = true ∧
    (TryWallRun demoEngine demoRightWall demoAlongWall).2.Velocity = ⟨4, 0, 0⟩ :=
  have h := TryWallRun_true_spec demoEngine (fun _ _ _ => rfl) (fun _ _ _ => rfl)
    (fun _ _ _ => rfl) demoRightWall demoAlongWall (by decide)
  ⟨fun _ _ _ => rfl, fun _ _ _ => rfl, fun _ _ _ => rfl, by decide,
    h.2.1.trans (by decide), h.2.2.1.trans (by decide)⟩

/-- C27, as stated, fails: the component that runs straight at the right wall is rejected by
the speed check made after the projection, and by then `bWallRunIsRight`, false before the
call, has been set. -/
theorem TryWallRun_failure_sets_side :
    (TryWallRun demoEngine demoRightWall demoIntoWall).1 = false ∧
    demoIntoWall.bWallRunIsRight = false ∧
    (TryWallRun demoEngine demoRightWall demoIntoWall).2.bWallRunIsRight = true := by
  decide

/-- C27, as the code has it. When `TryWallRun` returns false, the velocity, the mode and the
sub-mode are what they were before the call. The component as a whole is unchanged unless the
attempt was rejected by the speed check made after the projection, a wall having qualified:
then `bWallRunIsRight` holds the side of that wall (false for the left one, true for the right
one) and nothing else has changed. -/
theorem TryWallRun_failure_frame [LinearOrderedRing R] (E : Engine R) (W : World R)
    (s : UTutCharacterMovementComponent R) (h : (TryWallRun E W s).1 = false) :
    (TryWallRun E W s).2.Velocity = s.Velocity ∧
    (TryWallRun E W s).2.MovementMode = s.MovementMode ∧
    (TryWallRun E W s).2.CustomMovementMode = s.CustomMovementMode ∧
    ((TryWallRun E W s).2 = s ∨
      (wallQualifies s (chosenWall W s) = true ∧ ¬ keepsSpeed s (chosenWall W s) ∧
        (TryWallRun E W s).2
          = { s with bWallRunIsRight := !wallQualifies s (leftCast W s) })) := by
  by_cases hg : s.IsFalling = true ∧ ¬ s.Velocity.SizeSquared2D < s.MinWallRunSpeed ^ 2 ∧
      ¬ s.Velocity.Z < -s.MaxVerticalWallRunSpeed ∧ s.CustomCharacter = true ∧
      floorCast W s = false
  swap
  · rw [TryWallRun_guarded E W s hg]
    exact ⟨rfl, rfl, rfl, Or.inl rfl⟩
  obtain ⟨hfall, hs, hz, hc, hfloor⟩ := hg
  rw [TryWallRun_on_chosen E W s hfall hs hz hc hfloor] at h ⊢
  by_cases hq : wallQualifies s (chosenWall W s) = true
  swap
  · rw [if_neg hq]
    exact ⟨rfl, rfl, rfl, Or.inl rfl⟩
  rw [if_pos hq] at h ⊢
  unfold finishWallRun at h ⊢
  by_cases hk : (FVector.VectorPlaneProject s.Velocity (chosenWall W s).Normal).SizeSquared2D
      < s.MinWallRunSpeed ^ 2
  · rw [if_pos hk]
    exact ⟨rfl, rfl, rfl, Or.inr ⟨hq, fun hn => hn hk, rfl⟩⟩
  · rw [if_neg hk] at h
    exact absurd h (by simp)

/-- C27, exercised: at exactly the minimum speed against the vertical right wall the attempt
fails after the projection, the velocity and the mode are kept, and the side is set. -/
theorem TryWallRun_failure_frame_witness :
    (TryWallRun demoEngine demoRightWall demoAtMinimum).1 = false ∧
    (TryWallRun demoEngine demoRightWall demoAtMinimum).2.Velocity = demoAtMinimum.Velocity ∧
    (TryWallRun demoEngine demoRightWall demoAtMinimum).2.MovementMode = .MOVE_Falling :=
  have h := TryWallRun_failure_frame demoEngine demoRightWall demoAtMinimum (by decide)
  ⟨by decide, h.1, h.2.1⟩

end UTutCharacterMovementComponent

/-! ## The guarded integrator, the wall jump and the path of a move to the server -/

/-- What `Serialize` saves on an empty archive it loads back, whatever follows on the stream
and whatever move data it loads into, when the base class's part of the stream reads back
what it wrote. -/
theorem FCustomNetworkMoveData.Serialize_reads_back {B R : Type} [Zero R] [NatCast R]
    [DecidableEq R] (C : BaseCodec B R) (hC : C.RoundTrips) (t : ENetworkMoveType)
    (x y : FCustomNetworkMoveData B R) (rest : List (Item R)) :
    receivedMoveData C t x rest y = x := by
  unfold receivedMoveData
  rw [FCustomNetworkMoveData.Serialize_saving C t _ rfl x]
  rw [FCustomNetworkMoveData.Serialize_loading C hC t _ rfl x.Super
    (omitDefault x.bWantsToSprintMoveData false)
    (omitDefault x.MaxCustomSpeedMoveData ((800 : Nat) : R))
    (omitDefault x.LaunchVelocityCustomMoveData ⟨0, 0, 0⟩)
    (omitDefault x.MovementFlagCustomMoveData 0) rest (by simp) y]
  simp [omitDefault_getD]

namespace UTutCharacterMovementComponent
variable {R : Type}

/-- The early return of `PhysWallRun` for a component that may not be simulated: nothing but
the velocity and the acceleration, which are cleared, changes, and the loop is not entered. -/
theorem PhysWallRun_not_simulated [LinearOrderedField R] (E : Engine R) (W : World R)
    (P : Host R) (deltaTime : R) (Iterations : Int) (s : UTutCharacterMovementComponent R)
    (hdt : ¬ deltaTime < MIN_TICK_TIME R)
    (hno : s.CustomCharacter = false ∨ (P.Controller = false ∧
      P.bRunPhysicsWithNoController = false ∧ P.HasAnimRootMotion = false ∧
      P.HasOverrideVelocity = false ∧ s.LocalRole ≠ .ROLE_SimulatedProxy)) :
    PhysWallRun E W P deltaTime Iterations s
      = ⟨{ s with Acceleration := FVector.ZeroVector, Velocity := FVector.ZeroVector }, [],
          none⟩ := by
  have hc : (!s.CustomCharacter || (!P.Controller && !P.bRunPhysicsWithNoController
      && !P.HasAnimRootMotion && !P.HasOverrideVelocity
      && decide (s.LocalRole ≠ .ROLE_SimulatedProxy))) = true := by
    rcases hno with h | ⟨h1, h2, h3, h4, h5⟩
    · simp [h]
    · simp [h1, h2, h3, h4, h5]
  unfold PhysWallRun
  rw [if_neg hdt, if_pos hc]

/-- C25, as stated, fails: called with a whole second on a moving component without a custom
character, `PhysWallRun` leaves neither the velocity `(200, 0, -100)` nor the acceleration
`(50, 0, 0)` as they were: both are zero afterwards. -/
theorem PhysWallRun_clears_velocity :
    demoNoCharacterQ.CustomCharacter = false ∧ ¬ (1 : ℚ) < MIN_TICK_TIME ℚ ∧
    demoNoCharacterQ.Velocity = ⟨200, 0, -100⟩ ∧ demoNoCharacterQ.Acceleration = ⟨50, 0, 0⟩ ∧
    (PhysWallRun demoEngineQ demoWorldQ demoHost 1 0 demoNoCharacterQ).state.Velocity
      = ⟨0, 0, 0⟩ ∧
    (PhysWallRun demoEngineQ demoWorldQ demoHost 1 0 demoNoCharacterQ).state.Acceleration
      = ⟨0, 0, 0⟩ := by
  have hdt : ¬ (1 : ℚ) < MIN_TICK_TIME ℚ := by norm_num [MIN_TICK_TIME]
  rw [PhysWallRun_not_simulated demoEngineQ demoWorldQ demoHost 1 0 demoNoCharacterQ hdt
    (Or.inl rfl)]
  exact ⟨rfl, hdt, rfl, rfl, rfl, rfl⟩

/-- C25, as the code has it. `PhysWallRun` invoked with `deltaTime >= MIN_TICK_TIME` on a
component that has no valid custom character, or that has no controller while physics without
a controller is not allowed, no root motion drives it and it is not a simulated proxy, makes no
pass through the sub-tick loop and hands nothing over; the position, the movement mode and
the sub-mode are unchanged, and so is every other member except `Velocity` and `Acceleration`,
which are both set to the zero vector. -/
theorem PhysWallRun_without_character [LinearOrderedField R] (E : Engine R) (W : World R)
    (P : Host R) (deltaTime : R) (Iterations : Int) (s : UTutCharacterMovementComponent R)
    (hdt : ¬ deltaTime < MIN_TICK_TIME R)
    (hno : s.CustomCharacter = false ∨ (P.Controller = false ∧
      P.bRunPhysicsWithNoController = false ∧ P.HasAnimRootMotion = false ∧
      P.HasOverrideVelocity = false ∧ s.LocalRole ≠ .ROLE_SimulatedProxy)) :
    (PhysWallRun E W P deltaTime Iterations s).state
      = { s with Acceleration := FVector.ZeroVector, Velocity := FVector.ZeroVector } ∧
    (PhysWallRun E W P deltaTime Iterations s).state.Location = s.Location ∧
    (PhysWallRun E W P deltaTime Iterations s).state.MovementMode = s.MovementMode ∧
    (PhysWallRun E W P deltaTime Iterations s).state.CustomMovementMode
      = s.CustomMovementMode ∧
    (PhysWallRun E W P deltaTime Iterations s).subTicks = [] ∧
    (PhysWallRun E W P deltaTime Iterations s).handoff = none := by
  rw [PhysWallRun_not_simulated E W P deltaTime Iterations s hdt hno]
  exact ⟨rfl, rfl, rfl, rfl, rfl, rfl⟩

/-- C25, exercised on the wall-running component without a custom character. -/
theorem PhysWallRun_without_character_witness :
    ¬ (1 : ℚ) < MIN_TICK_TIME ℚ ∧ demoNoCharacterQ.CustomCharacter = false ∧
    (PhysWallRun demoEngineQ demoWorldQ demoHost 1 0 demoNoCharacterQ).state.MovementMode
      = .MOVE_Custom ∧
    (PhysWallRun demoEngineQ demoWorldQ demoHost 1 0 demoNoCharacterQ).state.Location
      = ⟨0, 0, 100⟩ :=
  have hdt : ¬ (1 : ℚ) < MIN_TICK_TIME ℚ := by norm_num [MIN_TICK_TIME]
  have h := PhysWallRun_without_character demoEngineQ demoWorldQ demoHost 1 0 demoNoCharacterQ
    hdt (Or.inl rfl)
  ⟨hdt, rfl, h.2.2.1, h.2.1⟩

/-- C26. Wall jump. `CanAttemptJump` is true exactly when the base class allows a jump or the
character is wall-running. `DoJump` returns what the base jump returns. With `base` the
component the base jump leaves: when the base jump succeeds, the character was wall-running
before it and the custom character is valid, `DoJump` leaves `base` with the normal of the
wall cast on the locked side, times `WallJumpForce`, added to its velocity, which is the
velocity of `base` itself when that normal is zero (as the engine leaves it when the cast finds
nothing); when the base jump fails, or the character was not wall-running, or there is no
custom character, `DoJump` leaves `base` as it is. -/
theorem DoJump_spec [LinearOrderedField R] (J : JumpEngine R) (W : World R)
    (bReplayingMoves : Bool) (s : UTutCharacterMovementComponent R) :
    (CanAttemptJump J s = true ↔
      (J.Super_CanAttemptJump s.toInherited = true ∨ s.IsWallRunning = true)) ∧
    (DoJump J W bReplayingMoves s).1 = (J.Super_DoJump bReplayingMoves s).1 ∧
    ((J.Super_DoJump bReplayingMoves s).1 = true → s.IsWallRunning = true →
      (J.Super_DoJump bReplayingMoves s).2.CustomCharacter = true →
      (DoJump J W bReplayingMoves s).2 =
        { (J.Super_DoJump bReplayingMoves s).2 with
          Velocity := (FVector.add (J.Super_DoJump bReplayingMoves s).2.Velocity
            (FVector.scale (lockedCast W (J.Super_DoJump bReplayingMoves s).2).Normal
              J.WallJumpForce)) } ∧
      ((lockedCast W (J.Super_DoJump bReplayingMoves s).2).Normal = ⟨0, 0, 0⟩ →
        (DoJump J W bReplayingMoves s).2.Velocity
          = (J.Super_DoJump bReplayingMoves s).2.Velocity)) ∧
    (((J.Super_DoJump bReplayingMoves s).1 = false ∨ s.IsWallRunning = false ∨
        (J.Super_DoJump bReplayingMoves s).2.CustomCharacter = false) →
      (DoJump J W bReplayingMoves s).2 = (J.Super_DoJump bReplayingMoves s).2) := by
  refine ⟨by simp [CanAttemptJump], ?_, fun h1 h2 h3 => ?_, fun h => ?_⟩
  · unfold DoJump
    dsimp only
    split_ifs with h1 h2 <;> simp [h1]
  · have e : (DoJump J W bReplayingMoves s).2 =
        { (J.Super_DoJump bReplayingMoves s).2 with
          Velocity := (FVector.add (J.Super_DoJump bReplayingMoves s).2.Velocity
            (FVector.scale (lockedCast W (J.Super_DoJump bReplayingMoves s).2).Normal
              J.WallJumpForce)) } := by
      unfold DoJump
      dsimp only
      rw [if_pos h1, if_pos (by simp [h2, h3])]
      rfl
    refine ⟨e, fun hn => ?_⟩
    rw [e, hn]
    simp [FVector.add, FVector.scale]
  · unfold DoJump
    dsimp only
    rcases h with h | h | h
    · rw [if_neg (by simp [h])]
    · split_ifs <;> simp_all
    · split_ifs <;> simp_all

/-- C26, exercised: a jump off the leaning wall on the right adds `300` times the wall normal
`(0, -4/5, 3/5)` to the velocity `(200, 0, 420)` the base jump leaves. -/
theorem DoJump_spec_witness :
    (demoJump.Super_DoJump false demoOnRightWallQ).1 = true ∧
    demoOnRightWallQ.IsWallRunning = true ∧
    (demoJump.Super_DoJump false demoOnRightWallQ).2.Velocity = ⟨200, 0, 420⟩ ∧
    (DoJump demoJump demoLeaningWall false demoOnRightWallQ).2.Velocity = ⟨200, -240, 600⟩ := by
  have h := ((DoJump_spec demoJump demoLeaningWall false demoOnRightWallQ).2.2.1 rfl rfl rfl).1
  refine ⟨rfl, rfl, ?_, ?_⟩
  · norm_num [demoJump, demoOnRightWallQ, demoWallRunningQ, demoFallingQ]
  · rw [h]
    norm_num [lockedCast, demoJump, demoLeaningWall, demoOnRightWallQ, demoWallRunningQ,
      demoFallingQ, FVector.add, FVector.scale]

end UTutCharacterMovementComponent

namespace FCustomNetworkMoveData
variable {S B R : Type}

/-- Move data whose four custom members hold the defaults is encoded as the base record
followed by four fields marked absent. -/
theorem Serialize_defaults [Zero R] [NatCast R] [DecidableEq R] (C : BaseCodec B R)
    (t : ENetworkMoveType) (pre : List (Item R)) (d : FCustomNetworkMoveData B R)
    (hd : d.custom = (false, ((800 : Nat) : R), ⟨0, 0, 0⟩, 0)) :
    (Serialize C t ⟨true, pre, false⟩ d).2.2.Stream =
      pre ++ C.encode t d.Super
        ++ [Item.bit false, Item.bit false, Item.bit false, Item.bit false] := by
  simp only [custom, Prod.mk.injEq] at hd
  obtain ⟨h1, h2, h3, h4⟩ := hd
  rw [Serialize_saving C t _ rfl d]
  simp [omitDefault, wireField, h1, h2, h3, h4]

/-- C29. The defaults agree across the saved move, the move data and the wire encoding. For a
freshly allocated saved move, for any saved move after `Clear`, and for a saved move captured
by `SetMoveFor` from a component whose sprint intent, custom max speed, queued launch and flag
byte are false, 800 (the constructor value), zero and 0, the move data that
`ClientFillNetworkMoveData` produces has four custom members equal to those of a
default-constructed `FCustomNetworkMoveData`, which are the defaults passed to `Serialize`
(false, 800, the zero vector, 0), and its encoding is the base record followed by four fields
marked absent. -/
theorem defaults_agree [Zero R] [NatCast R] [DecidableEq R] (SE : SavedMoveEngine S R)
    (F : S → ENetworkMoveType → B → B) (C : BaseCodec B R) (t : ENetworkMoveType)
    (m0 : FCustomSavedMove S R) (d0 : FCustomNetworkMoveData B R) (b : B)
    (pre : List (Item R)) (c : UTutCharacterMovementComponent R) (InDeltaTime : R)
    (NewAccel : FVector R) (m : FCustomSavedMove S R)
    (hm : m = AllocateNewMove SE ∨ m = FCustomSavedMove.Clear SE m0 ∨
      (c.networked = (false, ((800 : Nat) : R), ⟨0, 0, 0⟩, 0) ∧
        m = FCustomSavedMove.SetMoveFor SE c true InDeltaTime NewAccel m0)) :
    (ClientFillNetworkMoveData F m t d0).custom = (new b : FCustomNetworkMoveData B R).custom ∧
    (new b : FCustomNetworkMoveData B R).custom = (false, ((800 : Nat) : R), ⟨0, 0, 0⟩, 0) ∧
    (Serialize C t ⟨true, pre, false⟩ (ClientFillNetworkMoveData F m t d0)).2.2.Stream =
      pre ++ C.encode t (ClientFillNetworkMoveData F m t d0).Super
        ++ [Item.bit false, Item.bit false, Item.bit false, Item.bit false] := by
  have hd : (ClientFillNetworkMoveData F m t d0).custom
      = (false, ((800 : Nat) : R), ⟨0, 0, 0⟩, 0) := by
    rcases hm with h | h | ⟨hc, h⟩
    · subst h
      rfl
    · subst h
      rfl
    · subst h
      exact hc
  exact ⟨hd, rfl, Serialize_defaults C t pre _ hd⟩

/-- C29, exercised: the move data filled from a cleared saved move of a sprinting client is
encoded as the base record and four cleared bits. -/
theorem defaults_agree_witness :
    (Serialize demoCodec .NewMove ⟨true, [], false⟩
      (ClientFillNetworkMoveData demoClientFill
        (FCustomSavedMove.Clear demoSavedMoveEngine demoSavedMove) .NewMove
        demoStaleMoveData)).2.2.Stream =
      [Item.byte 0, Item.bit false, Item.bit false, Item.bit false, Item.bit false] :=
  (defaults_agree demoSavedMoveEngine demoClientFill demoCodec .NewMove demoSavedMove
    demoStaleMoveData 0 [] demoWalking 1 ⟨0, 0, 0⟩ _ (Or.inr (Or.inl rfl))).2.2

end FCustomNetworkMoveData

/-! ## A launch request that composes to zero -/

namespace UTutCharacterMovementComponent
variable {R : Type}

/-- With a valid custom character a launch request writes the composed velocity into
`LaunchVelocityCustom` and notifies `OnLaunched` once, with the requested vector and flags;
nothing else changes. -/
theorem LaunchCharacterReplicated_eq [Add R] (s : UTutCharacterMovementComponent R)
    (v : FVector R) (bXYOverride bZOverride : Bool) (h : s.CustomCharacter = true) :
    LaunchCharacterReplicated v bXYOverride bZOverride s =
      { s with
        LaunchVelocityCustom := composedLaunch s v bXYOverride bZOverride
        Trace := s.Trace ++ [Event.OnLaunched v bXYOverride bZOverride] } := by
  cases bXYOverride <;> cases bZOverride <;> simp [LaunchCharacterReplicated, composedLaunch, h]

/-- The mode-change notification does not read the trace. -/
theorem OnMovementModeChanged_eraseTrace (E : Engine R) (p : EMovementMode) (c : Nat)
    (s : UTutCharacterMovementComponent R) :
    eraseTrace (OnMovementModeChanged E p c s)
      = eraseTrace (OnMovementModeChanged E p c (eraseTrace s)) := by
  unfold OnMovementModeChanged
  simp only [eraseTrace, HasValidData]
  split_ifs <;>
    simp_all [ExitWallRun, ExitFlying, EnterWallRun, EnterFlying, record,
      ExitWallRun_Implementation, ExitFlying_Implementation, EnterWallRun_Implementation,
      EnterFlying_Implementation]

/-- A mode request does not read the trace. -/
theorem SetMovementMode_eraseTrace (E : Engine R) (m : EMovementMode) (c : Nat)
    (s : UTutCharacterMovementComponent R) :
    eraseTrace (SetMovementMode E m c s) = eraseTrace (SetMovementMode E m c (eraseTrace s)) := by
  have key : ∀ (m1 : EMovementMode) (c1 : Nat),
      eraseTrace (OnMovementModeChanged E s.MovementMode s.CustomMovementMode
        { s with MovementMode := m1, CustomMovementMode := c1 })
      = eraseTrace (OnMovementModeChanged E s.MovementMode s.CustomMovementMode
        { eraseTrace s with MovementMode := m1, CustomMovementMode := c1 }) := by
    intro m1 c1
    rw [OnMovementModeChanged_eraseTrace E _ _ { s with MovementMode := m1, CustomMovementMode := c1 },
      OnMovementModeChanged_eraseTrace E _ _
        { eraseTrace s with MovementMode := m1, CustomMovementMode := c1 }]
    rfl
  unfold SetMovementMode
  dsimp only
  split_ifs <;> first | rfl | exact key _ _ | simp_all [eraseTrace, HasValidData]

/-- The post-advance hook is the base class, the flight scheduling and the latch. -/
theorem OnMovementUpdated_eq [Zero R] (E : Engine R) (DeltaSeconds : R)
    (OldLocation OldVelocity : FVector R) (s : UTutCharacterMovementComponent R) :
    OnMovementUpdated E DeltaSeconds OldLocation OldVelocity s =
      latchLaunch (scheduleFlight E { s with toInherited :=
        (E.Super_OnMovementUpdated DeltaSeconds OldLocation OldVelocity s.toInherited) }) :=
  rfl

/-- The flight scheduling does not read the trace. -/
theorem scheduleFlight_eraseTrace (E : Engine R) (s : UTutCharacterMovementComponent R) :
    eraseTrace (scheduleFlight E s) = eraseTrace (scheduleFlight E (eraseTrace s)) := by
  unfold scheduleFlight
  simp only [eraseTrace, IsFlagActive, CanFly]
  split_ifs <;> first | rfl | exact SetMovementMode_eraseTrace E _ _ s

/-- The latch does not read the trace. -/
theorem latchLaunch_eraseTrace [Zero R] (s : UTutCharacterMovementComponent R) :
    latchLaunch (eraseTrace s) = eraseTrace (latchLaunch s) := by
  unfold latchLaunch
  simp only [eraseTrace, IsActive, HasValidData]
  split_ifs <;> rfl

/-- The post-advance hook does not read the trace. -/
theorem OnMovementUpdated_eraseTrace [Zero R] (E : Engine R) (DeltaSeconds : R)
    (OldLocation OldVelocity : FVector R) (s : UTutCharacterMovementComponent R) :
    eraseTrace (OnMovementUpdated E DeltaSeconds OldLocation OldVelocity s)
      = eraseTrace (OnMovementUpdated E DeltaSeconds OldLocation OldVelocity (eraseTrace s)) := by
  rw [OnMovementUpdated_eq, OnMovementUpdated_eq, ← latchLaunch_eraseTrace,
    ← latchLaunch_eraseTrace, scheduleFlight_eraseTrace]
  rfl

/-- The pending launch is handled without reading the trace. -/
theorem HandlePendingLaunch_eraseTrace [Zero R] [DecidableEq R] (E : Engine R)
    (s : UTutCharacterMovementComponent R) :
    (HandlePendingLaunch E s).1 = (HandlePendingLaunch E (eraseTrace s)).1 ∧
    eraseTrace (HandlePendingLaunch E s).2
      = eraseTrace (HandlePendingLaunch E (eraseTrace s)).2 := by
  have e := SetMovementMode_eraseTrace E .MOVE_Falling 0
    { s with Velocity := s.PendingLaunchVelocity }
  have e2 := congrArg (fun x : UTutCharacterMovementComponent R =>
    ({ x with PendingLaunchVelocity := FVector.ZeroVector, bForceNextFloorCheck := true } :
      UTutCharacterMovementComponent R)) e
  unfold HandlePendingLaunch
  simp only [eraseTrace, HasValidData] at e2 ⊢
  split_ifs
  · exact ⟨rfl, e2⟩
  · exact ⟨rfl, rfl⟩

/-- C28, as stated, fails: the walking component has the launch `(0, 0, 500)` queued by an
earlier request when the request `(-300, 0, 50)` without overrides, which composes to zero at
the velocity `(300, 0, -50)`, arrives. With the request nothing is launched; without it the
earlier launch is: the velocity would have been `(0, 0, 500)` and the mode Falling. -/
theorem zero_launch_cancels_queued :
    demoEarlierLaunch.CustomCharacter = true ∧
    composedLaunch demoEarlierLaunch ⟨-300, 0, 50⟩ false false = ⟨0, 0, 0⟩ ∧
    (HandlePendingLaunch demoEngine (OnMovementUpdated demoEngine 1 ⟨0, 0, 0⟩ ⟨0, 0, 0⟩
      (LaunchCharacterReplicated ⟨-300, 0, 50⟩ false false demoEarlierLaunch))).2.Velocity
      = ⟨300, 0, -50⟩ ∧
    (HandlePendingLaunch demoEngine (OnMovementUpdated demoEngine 1 ⟨0, 0, 0⟩ ⟨0, 0, 0⟩
      (LaunchCharacterReplicated ⟨-300, 0, 50⟩ false false demoEarlierLaunch))).2.MovementMode
      = .MOVE_Walking ∧
    (HandlePendingLaunch demoEngine (OnMovementUpdated demoEngine 1 ⟨0, 0, 0⟩ ⟨0, 0, 0⟩
      demoEarlierLaunch)).2.Velocity = ⟨0, 0, 500⟩ ∧
    (HandlePendingLaunch demoEngine (OnMovementUpdated demoEngine 1 ⟨0, 0, 0⟩ ⟨0, 0, 0⟩
      demoEarlierLaunch)).2.MovementMode = .MOVE_Falling := by
  decide

/-- C28, as the code has it. A launch request whose composed velocity is the zero vector,
made with a valid custom character while no other launch is queued (`LaunchVelocityCustom` is
zero), is dropped: `OnLaunched` is notified once with the requested vector and flags, and after
the following `OnMovementUpdated` and `HandlePendingLaunch` the component is, but for the
record of that notification, what it would have been without the request, in particular its
velocity, mode and sub-mode, and `HandlePendingLaunch` returns what it would have returned.
When moreover no launch is pending (`PendingLaunchVelocity` is zero) and the base class's
`OnMovementUpdated` and mode-change notification leave `PendingLaunchVelocity` as they find
it, `HandlePendingLaunch` returns false. -/
theorem zero_launch_dropped [Zero R] [Add R] [DecidableEq R] (E : Engine R)
    (s : UTutCharacterMovementComponent R) (v : FVector R) (bXYOverride bZOverride : Bool)
    (DeltaSeconds : R) (OldLocation OldVelocity : FVector R)
    (hc : s.CustomCharacter = true)
    (hz : composedLaunch s v bXYOverride bZOverride = ⟨0, 0, 0⟩)
    (hq : s.LaunchVelocityCustom = ⟨0, 0, 0⟩) :
    (LaunchCharacterReplicated v bXYOverride bZOverride s).Trace
      = s.Trace ++ [Event.OnLaunched v bXYOverride bZOverride] ∧
    eraseTrace (HandlePendingLaunch E (OnMovementUpdated E DeltaSeconds OldLocation OldVelocity
        (LaunchCharacterReplicated v bXYOverride bZOverride s))).2
      = eraseTrace (HandlePendingLaunch E
        (OnMovementUpdated E DeltaSeconds OldLocation OldVelocity s)).2 ∧
    (HandlePendingLaunch E (OnMovementUpdated E DeltaSeconds OldLocation OldVelocity
        (LaunchCharacterReplicated v bXYOverride bZOverride s))).2.Velocity
      = (HandlePendingLaunch E
        (OnMovementUpdated E DeltaSeconds OldLocation OldVelocity s)).2.Velocity ∧
    (HandlePendingLaunch E (OnMovementUpdated E DeltaSeconds OldLocation OldVelocity
        (LaunchCharacterReplicated v bXYOverride bZOverride s))).2.MovementMode
      = (HandlePendingLaunch E
        (OnMovementUpdated E DeltaSeconds OldLocation OldVelocity s)).2.MovementMode ∧
    (HandlePendingLaunch E (OnMovementUpdated E DeltaSeconds OldLocation OldVelocity
        (LaunchCharacterReplicated v bXYOverride bZOverride s))).2.CustomMovementMode
      = (HandlePendingLaunch E
        (OnMovementUpdated E DeltaSeconds OldLocation OldVelocity s)).2.CustomMovementMode ∧
    (HandlePendingLaunch E (OnMovementUpdated E DeltaSeconds OldLocation OldVelocity
        (LaunchCharacterReplicated v bXYOverride bZOverride s))).1
      = (HandlePendingLaunch E (OnMovementUpdated E DeltaSeconds OldLocation OldVelocity s)).1 ∧
    (s.PendingLaunchVelocity = ⟨0, 0, 0⟩ → E.UpdateKeepsPendingLaunch →
      E.ModeChangeKeepsPendingLaunch →
      (HandlePendingLaunch E (OnMovementUpdated E DeltaSeconds OldLocation OldVelocity
        (LaunchCharacterReplicated v bXYOverride bZOverride s))).1 = false) := by
  have hl := LaunchCharacterReplicated_eq s v bXYOverride bZOverride hc
  have he : eraseTrace (LaunchCharacterReplicated v bXYOverride bZOverride s) = eraseTrace s := by
    rw [hl, hz, ← hq]
    rfl
  have hu : eraseTrace (OnMovementUpdated E DeltaSeconds OldLocation OldVelocity
        (LaunchCharacterReplicated v bXYOverride bZOverride s))
      = eraseTrace (OnMovementUpdated E DeltaSeconds OldLocation OldVelocity s) := by
    rw [OnMovementUpdated_eraseTrace, he, ← OnMovementUpdated_eraseTrace]
  have hh := HandlePendingLaunch_eraseTrace E (OnMovementUpdated E DeltaSeconds OldLocation
    OldVelocity (LaunchCharacterReplicated v bXYOverride bZOverride s))
  have hh0 := HandlePendingLaunch_eraseTrace E
    (OnMovementUpdated E DeltaSeconds OldLocation OldVelocity s)
  rw [hu] at hh
  have e2 := hh.2.trans hh0.2.symm
  refine ⟨by rw [hl], e2, congrArg (fun x => x.Velocity) e2,
    congrArg (fun x => x.MovementMode) e2, congrArg (fun x => x.CustomMovementMode) e2,
    hh.1.trans hh0.1.symm, fun hp hU hP => ?_⟩
  obtain ⟨s1, h1L, h1P, hshape⟩ := OnMovementUpdated_shape E DeltaSeconds OldLocation OldVelocity
    (LaunchCharacterReplicated v bXYOverride bZOverride s)
  have hL : s1.LaunchVelocityCustom = ⟨0, 0, 0⟩ := by
    rw [h1L, hl]
    exact hz
  have hP1 : s1.PendingLaunchVelocity = ⟨0, 0, 0⟩ := by
    rw [h1P hU hP, hl]
    exact hp
  have hpend : (OnMovementUpdated E DeltaSeconds OldLocation OldVelocity
      (LaunchCharacterReplicated v bXYOverride bZOverride s)).PendingLaunchVelocity
        = ⟨0, 0, 0⟩ := by
    rw [hshape]
    split_ifs
    · exact hL
    · exact hP1
  simp [HandlePendingLaunch, hpend, FVector.IsZero]

/-- C28, exercised: on the walking component with nothing queued or pending, the request
`(-300, 0, 50)` without overrides composes to zero, nothing is launched, and the velocity
stays `(300, 0, -50)`. -/
theorem zero_launch_dropped_witness :
    demoWalking.CustomCharacter = true ∧
    composedLaunch demoWalking ⟨-300, 0, 50⟩ false false = ⟨0, 0, 0⟩ ∧
    demoWalking.LaunchVelocityCustom = ⟨0, 0, 0⟩ ∧
    (HandlePendingLaunch demoEngine (OnMovementUpdated demoEngine 1 ⟨0, 0, 0⟩ ⟨0, 0, 0⟩
      (LaunchCharacterReplicated ⟨-300, 0, 50⟩ false false demoWalking))).1 = false ∧
    (HandlePendingLaunch demoEngine (OnMovementUpdated demoEngine 1 ⟨0, 0, 0⟩ ⟨0, 0, 0⟩
      (LaunchCharacterReplicated ⟨-300, 0, 50⟩ false false demoWalking))).2.Velocity
      = ⟨300, 0, -50⟩ :=
  have h := zero_launch_dropped demoEngine demoWalking ⟨-300, 0, 50⟩ false false 1 ⟨0, 0, 0⟩
    ⟨0, 0, 0⟩ rfl (by decide) rfl
  ⟨rfl, by decide, rfl, h.2.2.2.2.2.2 rfl (fun _ _ _ _ => rfl) (fun _ _ _ => rfl),
    h.2.2.1.trans (by decide)⟩

end UTutCharacterMovementComponent

/-! ## Time accounting of the hand-over to the fallback integrator -/

namespace UTutCharacterMovementComponent
variable {R : Type}

/-- The minimum tick time is positive. -/
theorem MIN_TICK_TIME_pos [LinearOrderedField R] : 0 < MIN_TICK_TIME R := by
  unfold MIN_TICK_TIME
  positivity

/-- One pass through the loop body accounts for its time step: a hand-over passes on the time
left after the pass and the iteration count of the pass. -/
theorem PhysWallRun_subTick_accounts [LinearOrderedField R] (E : Engine R) (W : World R)
    (P : Host R) (s : UTutCharacterMovementComponent R) (remainingTime : R) (Iterations : Int) :
    stepAccounts remainingTime Iterations (PhysWallRun.subTick E W P s remainingTime Iterations)
    ∧ (PhysWallRun.subTick E W P s remainingTime Iterations).2.timeTick
      = P.GetSimulationTimeStep remainingTime Iterations := by
  rw [PhysWallRun_subTick_eq]
  split_ifs
  · simp [stepAccounts]
  · simp [stepAccounts]
  · simp [stepAccounts]
  · refine ⟨⟨?_, rfl⟩, rfl⟩
    unfold moveAlongWall
    split_ifs
    · exact Or.inr rfl
    · exact Or.inl rfl

/-- Without a whole tick of time left the loop is not entered. -/
theorem PhysWallRun_loop_stops [LinearOrderedField R] (E : Engine R) (W : World R) (P : Host R)
    (s : UTutCharacterMovementComponent R) (remainingTime : R) (Iterations : Int)
    (subTicks : List (SubTick R)) (h : remainingTime < MIN_TICK_TIME R) :
    PhysWallRun.loop E W P s remainingTime Iterations subTicks
      = ⟨s, remainingTime, Iterations, subTicks, none⟩ := by
  rw [PhysWallRun.loop]
  rw [dif_neg (fun hg => absurd hg.1 (not_le.2 h))]

/-- When the loop hands over to the fallback integrator, the passes it added are completed
passes followed by the exiting one, the time handed over is the time the loop started with
less the time steps of all of them, and the iteration count handed over is the one the loop
started with plus their number. -/
theorem PhysWallRun_loop_handoff [LinearOrderedField R] (E : Engine R) (W : World R)
    (P : Host R) :
    ∀ (n : Nat) (s : UTutCharacterMovementComponent R) (remainingTime : R) (Iterations : Int)
      (subTicks : List (SubTick R)) (t : R) (i : Int),
      (P.MaxSimulationIterations - Iterations).toNat = n →
      (PhysWallRun.loop E W P s remainingTime Iterations subTicks).handoff = some (t, i) →
      ∃ (ts : List (SubTick R)) (last : SubTick R),
        (PhysWallRun.loop E W P s remainingTime Iterations subTicks).subTicks
          = subTicks ++ (ts ++ [last]) ∧
        (∀ x ∈ ts, x.ending = SubTickEnd.moved) ∧
        (last.ending = SubTickEnd.lostWall ∨ last.ending = SubTickEnd.tooSlow) ∧
        t + totalTime ts + last.timeTick = remainingTime ∧
        i = Iterations + ts.length + 1 := by
  intro n
  induction n with
  | zero =>
    intro s remainingTime Iterations subTicks t i hn h
    rw [PhysWallRun.loop] at h
    have hlt : ¬ Iterations < P.MaxSimulationIterations := by omega
    simp [hlt] at h
  | succ k ih =>
    intro s remainingTime Iterations subTicks t i hn h
    rw [PhysWallRun.loop] at h ⊢
    split_ifs at h ⊢ with hg
    have hacc := (PhysWallRun_subTick_accounts E W P s remainingTime (Iterations + 1)).1
    generalize PhysWallRun.subTick E W P s remainingTime (Iterations + 1) = r at hacc h ⊢
    rcases r with ⟨step, t0⟩
    cases step with
    | returned s1 rt1 it1 =>
      simp only [stepAccounts] at hacc
      simp only [Option.some.injEq, Prod.mk.injEq] at h
      obtain ⟨h1, h2, h3⟩ := hacc
      refine ⟨[], t0, by simp, by simp, h3, ?_, ?_⟩
      · rw [← h.1, h1]
        simp [totalTime]
      · rw [← h.2, h2]
        simp
    | broke s1 rt1 => simp at h
    | next s1 rt1 =>
      simp only [stepAccounts] at hacc
      obtain ⟨h1, h2⟩ := hacc
      rcases h1 with h1 | h1
      · obtain ⟨ts, last, e1, e2, e3, e4, e5⟩ :=
          ih s1 rt1 (Iterations + 1) (subTicks ++ [t0]) t i (by omega) h
        refine ⟨t0 :: ts, last, ?_, ?_, e3, ?_, ?_⟩
        · simp only at e1 ⊢
          rw [e1]
          simp
        · intro x hx
          rcases List.mem_cons.1 hx with hx | hx
          · rw [hx]
            exact h2
          · exact e2 x hx
        · rw [h1] at e4
          simp only [totalTime, List.map_cons, List.sum_cons] at e4 ⊢
          linarith
        · simp only [List.length_cons]
          push_cast
          omega
      · exfalso
        simp only at h
        rw [h1, PhysWallRun_loop_stops E W P s1 0 _ _ MIN_TICK_TIME_pos] at h
        simp at h

/-- The completed passes of a list of passes that ends with the exiting one. -/
theorem integrated_append_exit (ts : List (SubTick R)) (last : SubTick R)
    (h1 : ∀ x ∈ ts, x.ending = SubTickEnd.moved)
    (h2 : last.ending = SubTickEnd.lostWall ∨ last.ending = SubTickEnd.tooSlow) :
    integrated (ts ++ [last]) = ts := by
  unfold integrated
  rw [List.filter_append]
  have e1 : List.filter (fun t => decide (t.ending = SubTickEnd.moved)) ts = ts :=
    List.filter_eq_self.2 (fun x hx => by simp [h1 x hx])
  have e2 : List.filter (fun t => decide (t.ending = SubTickEnd.moved)) [last] = [] := by
    rcases h2 with h2 | h2 <;> simp [h2]
  rw [e1, e2, List.append_nil]

/-- A hand-over by `PhysWallRun` is a hand-over by its loop, started with the time and the
iteration count of the call and no pass made. -/
theorem PhysWallRun_handoff_loop [LinearOrderedField R] (E : Engine R) (W : World R)
    (P : Host R) (deltaTime : R) (Iterations : Int) (s : UTutCharacterMovementComponent R)
    (x : R × Int) (h : (PhysWallRun E W P deltaTime Iterations s).handoff = some x) :
    (PhysWallRun.loop E W P { s with bJustTeleported := false } deltaTime Iterations
      []).handoff = some x ∧
    (PhysWallRun E W P deltaTime Iterations s).subTicks
      = (PhysWallRun.loop E W P { s with bJustTeleported := false } deltaTime Iterations
        []).subTicks := by
  by_cases h1 : deltaTime < MIN_TICK_TIME R
  · unfold PhysWallRun at h
    rw [if_pos h1] at h
    simp at h
  by_cases h2 : (!s.CustomCharacter || (!P.Controller && !P.bRunPhysicsWithNoController
      && !P.HasAnimRootMotion && !P.HasOverrideVelocity
      && decide (s.LocalRole ≠ .ROLE_SimulatedProxy))) = true
  · unfold PhysWallRun at h
    rw [if_neg h1, if_pos h2] at h
    simp at h
  unfold PhysWallRun at h ⊢
  rw [if_neg h1, if_neg h2] at h ⊢
  dsimp only at h ⊢
  generalize PhysWallRun.loop E W P _ deltaTime Iterations [] = r at h ⊢
  cases hr : r.handoff with
  | some y =>
    rw [hr] at h
    simp only [Option.some.injEq] at h
    rw [h]
    exact ⟨rfl, rfl⟩
  | none =>
    rw [hr] at h
    dsimp only at h
    split_ifs at h

/-- C21, as the code has it. When `PhysWallRun` hands over to the fallback integrator
(`StartNewPhysics` after `SetMovementMode(MOVE_Falling)`, because the wall cast misses, the
player pulls away or the speed test fails), its passes through the sub-tick loop are the
passes in which the movement was carried out, followed by the exiting pass; the time handed
over plus the total time of the passes in which movement was carried out plus the time step of
the exiting pass equals the `deltaTime` of the call; and the iteration count handed over is
the initial count plus the number of passes with movement plus one. The exiting pass takes its
time step and its iteration before the wall is tested, and gives neither back. -/
theorem PhysWallRun_handoff_accounts [LinearOrderedField R] (E : Engine R) (W : World R)
    (P : Host R) (deltaTime : R) (Iterations : Int) (s : UTutCharacterMovementComponent R)
    (t : R) (i : Int) (h : (PhysWallRun E W P deltaTime Iterations s).handoff = some (t, i)) :
    ∃ last : SubTick R,
      (PhysWallRun E W P deltaTime Iterations s).subTicks
        = integrated (PhysWallRun E W P deltaTime Iterations s).subTicks ++ [last] ∧
      (last.ending = SubTickEnd.lostWall ∨ last.ending = SubTickEnd.tooSlow) ∧
      t + totalTime (integrated (PhysWallRun E W P deltaTime Iterations s).subTicks)
        + last.timeTick = deltaTime ∧
      i = Iterations + (integrated (PhysWallRun E W P deltaTime Iterations s).subTicks).length
        + 1 := by
  obtain ⟨hl, hs⟩ := PhysWallRun_handoff_loop E W P deltaTime Iterations s (t, i) h
  obtain ⟨ts, last, e1, e2, e3, e4, e5⟩ :=
    PhysWallRun_loop_handoff E W P _ _ deltaTime Iterations [] t i rfl hl
  rw [hs, e1, List.nil_append, integrated_append_exit ts last e2 e3]
  exact ⟨last, rfl, e3, e4, e5⟩

/-- A call that enters the loop and finds no wall on the locked side in its first pass hands
over at once: the time it was called with less the time step of that pass, and the iteration
count plus one. -/
theorem PhysWallRun_first_pass_exit [LinearOrderedField R] (E : Engine R) (W : World R)
    (P : Host R) (deltaTime : R) (Iterations : Int) (s : UTutCharacterMovementComponent R)
    (hdt : ¬ deltaTime < MIN_TICK_TIME R) (hc : s.CustomCharacter = true)
    (hctl : P.Controller = true) (hit : Iterations < P.MaxSimulationIterations)
    (ho : s.CharacterOwner = true)
    (hmiss : (lockedCast W { s with bJustTeleported := false }).IsValidBlockingHit = false) :
    (PhysWallRun E W P deltaTime Iterations s).handoff
      = some (deltaTime - P.GetSimulationTimeStep deltaTime (Iterations + 1), Iterations + 1) ∧
    (PhysWallRun E W P deltaTime Iterations s).subTicks
      = [⟨P.GetSimulationTimeStep deltaTime (Iterations + 1), SubTickEnd.lostWall⟩] := by
  have hg : MIN_TICK_TIME R ≤ deltaTime ∧ Iterations < P.MaxSimulationIterations ∧
      ({ s with bJustTeleported := false } : UTutCharacterMovementComponent R).CharacterOwner
        = true ∧ (P.Controller = true ∨ P.bRunPhysicsWithNoController = true ∨
        ({ s with bJustTeleported := false } : UTutCharacterMovementComponent R).LocalRole
          = .ROLE_SimulatedProxy) :=
    ⟨not_lt.1 hdt, hit, ho, Or.inl hctl⟩
  have hloop : PhysWallRun.loop E W P { s with bJustTeleported := false } deltaTime Iterations []
      = ⟨exitToFalling E P (deltaTime - P.GetSimulationTimeStep deltaTime (Iterations + 1))
            (Iterations + 1) { s with bJustTeleported := false },
          deltaTime - P.GetSimulationTimeStep deltaTime (Iterations + 1), Iterations + 1,
          [⟨P.GetSimulationTimeStep deltaTime (Iterations + 1), SubTickEnd.lostWall⟩],
          some (deltaTime - P.GetSimulationTimeStep deltaTime (Iterations + 1),
            Iterations + 1)⟩ := by
    rw [PhysWallRun.loop, dif_pos hg, PhysWallRun_subTick_eq]
    have hm : (lockedCast W ({ ({ s with bJustTeleported := false } :
        UTutCharacterMovementComponent R) with bJustTeleported := false })).IsValidBlockingHit
          = false := hmiss
    rw [if_pos (by rw [hm]; rfl)]
    rfl
  have h2 : ¬ (!s.CustomCharacter || (!P.Controller && !P.bRunPhysicsWithNoController
      && !P.HasAnimRootMotion && !P.HasOverrideVelocity
      && decide (s.LocalRole ≠ .ROLE_SimulatedProxy))) = true := by
    simp [hc, hctl]
  unfold PhysWallRun
  rw [if_neg hdt, if_neg h2]
  dsimp only
  rw [hloop]
  exact ⟨rfl, rfl⟩

/-- C21, as stated, fails: a wall-running component called with a whole second, in a world
without any wall and with a time step that takes the whole remaining time, leaves the wall run
in its first pass. No pass carried out any movement, yet the time handed over is 0 instead
of 1, and the iteration count handed over is 1 instead of 0. -/
theorem PhysWallRun_exit_keeps_its_tick :
    (PhysWallRun demoEngineQ demoWorldQ demoHost 1 0 demoWallRunningQ).handoff = some (0, 1) ∧
    (PhysWallRun demoEngineQ demoWorldQ demoHost 1 0 demoWallRunningQ).subTicks
      = [⟨1, SubTickEnd.lostWall⟩] ∧
    (0 : ℚ) + totalTime (integrated
      (PhysWallRun demoEngineQ demoWorldQ demoHost 1 0 demoWallRunningQ).subTicks) ≠ 1 ∧
    (1 : Int) ≠ 0 + (integrated
      (PhysWallRun demoEngineQ demoWorldQ demoHost 1 0 demoWallRunningQ).subTicks).length := by
  have hdt : ¬ (1 : ℚ) < MIN_TICK_TIME ℚ := by norm_num [MIN_TICK_TIME]
  obtain ⟨h1, h2⟩ := PhysWallRun_first_pass_exit demoEngineQ demoWorldQ demoHost 1 0
    demoWallRunningQ hdt rfl rfl (by decide) rfl rfl
  have e : demoHost.GetSimulationTimeStep 1 (0 + 1) = 1 := rfl
  rw [e] at h1 h2
  rw [h1, h2]
  refine ⟨by norm_num, rfl, ?_, ?_⟩
  · simp [integrated, totalTime]
  · simp [integrated]

/-- C21, exercised on the same call: the time handed over, 0, plus the time of the exiting
pass, 1, is the second the call was made with, and the count handed over is 0 + 0 + 1. -/
theorem PhysWallRun_handoff_accounts_witness :
    (PhysWallRun demoEngineQ demoWorldQ demoHost 1 0 demoWallRunningQ).handoff = some (0, 1) ∧
    ∃ last : SubTick ℚ,
      (PhysWallRun demoEngineQ demoWorldQ demoHost 1 0 demoWallRunningQ).subTicks
        = integrated (PhysWallRun demoEngineQ demoWorldQ demoHost 1 0 demoWallRunningQ).subTicks
          ++ [last] ∧
      (last.ending = SubTickEnd.lostWall ∨ last.ending = SubTickEnd.tooSlow) ∧
      (0 : ℚ) + totalTime (integrated
        (PhysWallRun demoEngineQ demoWorldQ demoHost 1 0 demoWallRunningQ).subTicks)
        + last.timeTick = 1 ∧
      (1 : Int) = 0 + (integrated
        (PhysWallRun demoEngineQ demoWorldQ demoHost 1 0 demoWallRunningQ).subTicks).length
        + 1 :=
  have hdt : ¬ (1 : ℚ) < MIN_TICK_TIME ℚ := by norm_num [MIN_TICK_TIME]
  have h : (PhysWallRun demoEngineQ demoWorldQ demoHost 1 0 demoWallRunningQ).handoff
      = some (0, 1) := by
    rw [(PhysWallRun_first_pass_exit demoEngineQ demoWorldQ demoHost 1 0 demoWallRunningQ hdt
      rfl rfl (by decide) rfl rfl).1]
    norm_num [demoHost]
  ⟨h, PhysWallRun_handoff_accounts demoEngineQ demoWorldQ demoHost 1 0 demoWallRunningQ 0 1 h⟩

end UTutCharacterMovementComponent

/-! ## A move received by the authority -/

namespace UTutCharacterMovementComponent

variable {R : Type}

/-- The post-advance hook leaves the sprint intent, the custom max speed and the flag byte as
it finds them. -/
theorem OnMovementUpdated_keeps_intent [Zero R] (E : Engine R) (DeltaSeconds : R)
    (OldLocation OldVelocity : FVector R) (s : UTutCharacterMovementComponent R) :
    (OnMovementUpdated E DeltaSeconds OldLocation OldVelocity s).bWantsToSprint
      = s.bWantsToSprint ∧
    (OnMovementUpdated E DeltaSeconds OldLocation OldVelocity s).CustomMaxSpeed
      = s.CustomMaxSpeed ∧
    (OnMovementUpdated E DeltaSeconds OldLocation OldVelocity s).MovementFlagCustom
      = s.MovementFlagCustom := by
  have h := fun m (x : UTutCharacterMovementComponent R) => SetMovementMode_own E m 0 x
  rw [OnMovementUpdated_eq]
  unfold latchLaunch scheduleFlight
  split_ifs <;> simp [(h _ _).1, (h _ _).2.2.1, (h _ _).2.2.2.1]

/-- C24, as stated, fails: the client's queued launch `(300, 0, 500)` is written into the
authority's component, but the base movement step runs the component's own `OnMovementUpdated`,
which moves it into `PendingLaunchVelocity` and clears it: when `MoveAutonomous` returns
`LaunchVelocityCustom` is zero, not the client's value. This is so for move data that went
over the wire and for move data that holds the client's values to begin with. -/
theorem MoveAutonomous_consumes_launch :
    demoClient.LaunchVelocityCustom = ⟨300, 0, 500⟩ ∧
    (MoveAutonomous demoMovementStep
      (some (receivedMoveData demoCodec .NewMove
        (sentMoveData demoSavedMoveEngine demoClientFill demoClient 1 ⟨0, 0, 0⟩ demoSavedMove
          .NewMove demoStaleMoveData) [] demoStaleMoveData))
      0 1 0 ⟨1, 0, 0⟩ demoWalking).LaunchVelocityCustom = ⟨0, 0, 0⟩ ∧
    (MoveAutonomous demoMovementStep
      (some (receivedMoveData demoCodec .NewMove
        (sentMoveData demoSavedMoveEngine demoClientFill demoClient 1 ⟨0, 0, 0⟩ demoSavedMove
          .NewMove demoStaleMoveData) [] demoStaleMoveData))
      0 1 0 ⟨1, 0, 0⟩ demoWalking).PendingLaunchVelocity = ⟨300, 0, 500⟩ ∧
    (MoveAutonomous demoMovementStep
      (some (sentMoveData demoSavedMoveEngine demoClientFill demoClient 1 ⟨0, 0, 0⟩
        demoSavedMove .NewMove demoStaleMoveData))
      0 1 0 ⟨1, 0, 0⟩ demoWalking).LaunchVelocityCustom = ⟨0, 0, 0⟩ := by
  decide

/-- C24, as the code has it. Client-to-authority propagation. For every client component `c`:
the move data filled by `ClientFillNetworkMoveData` from the saved move that `SetMoveFor`
captured from `c` holds `c`'s sprint intent, custom max speed, queued launch velocity and flag
byte (the move data has no member for the wall-run side); encoding it and decoding it with
`Serialize` gives the same move data back (the base class's part of the stream reading back
what it wrote); and `MoveAutonomous`, with current move data that holds these four values,
writes them unvalidated into the authority's component and hands that component, everything
else (the wall-run side included) as it was, to the base `MoveAutonomous`. Without current
move data the base `MoveAutonomous` gets the authority's component as it is. What the four
members are when `MoveAutonomous` returns is up to the base movement step: the component's
own `OnMovementUpdated`, which that step runs, keeps the sprint intent, the custom max speed
and the flag byte of the component it is handed, and when it latches (mode not `MOVE_None`,
active, valid data) moves the client's launch velocity into `PendingLaunchVelocity` and leaves
`LaunchVelocityCustom` zero. -/
theorem client_to_authority {S B : Type} [Zero R] [NatCast R] [DecidableEq R]
    (SE : SavedMoveEngine S R) (F : S → ENetworkMoveType → B → B) (C : BaseCodec B R)
    (SM : R → R → Nat → FVector R → UTutCharacterMovementComponent R →
      UTutCharacterMovementComponent R) (E : Engine R)
    (c a : UTutCharacterMovementComponent R) (InDeltaTime : R) (NewAccel : FVector R)
    (m0 : FCustomSavedMove S R) (t : ENetworkMoveType) (d0 d1 : FCustomNetworkMoveData B R)
    (rest : List (Item R)) (ClientTimeStamp DeltaTime : R) (CompressedFlags : Nat)
    (Accel OldLocation OldVelocity : FVector R) :
    (sentMoveData SE F c InDeltaTime NewAccel m0 t d0).custom = c.networked ∧
    (C.RoundTrips →
      receivedMoveData C t (sentMoveData SE F c InDeltaTime NewAccel m0 t d0) rest d1
        = sentMoveData SE F c InDeltaTime NewAccel m0 t d0 ∧
      MoveAutonomous SM
          (some (receivedMoveData C t (sentMoveData SE F c InDeltaTime NewAccel m0 t d0) rest d1))
          ClientTimeStamp DeltaTime CompressedFlags Accel a
        = SM ClientTimeStamp DeltaTime CompressedFlags Accel (handedToBase c a)) ∧
    (∀ d : FCustomNetworkMoveData B R, d.custom = c.networked →
      MoveAutonomous SM (some d) ClientTimeStamp DeltaTime CompressedFlags Accel a
        = SM ClientTimeStamp DeltaTime CompressedFlags Accel (handedToBase c a)) ∧
    MoveAutonomous SM (none : Option (FCustomNetworkMoveData B R))
        ClientTimeStamp DeltaTime CompressedFlags Accel a
      = SM ClientTimeStamp DeltaTime CompressedFlags Accel a ∧
    (OnMovementUpdated E DeltaTime OldLocation OldVelocity (handedToBase c a)).bWantsToSprint = c.bWantsToSprint ∧
    (OnMovementUpdated E DeltaTime OldLocation OldVelocity (handedToBase c a)).CustomMaxSpeed = c.CustomMaxSpeed ∧
    (OnMovementUpdated E DeltaTime OldLocation OldVelocity (handedToBase c a)).MovementFlagCustom
      = c.MovementFlagCustom ∧
    ((OnMovementUpdated E DeltaTime OldLocation OldVelocity (handedToBase c a)).MovementMode ≠ .MOVE_None ∧
      (OnMovementUpdated E DeltaTime OldLocation OldVelocity (handedToBase c a)).IsActive = true ∧
      (OnMovementUpdated E DeltaTime OldLocation OldVelocity (handedToBase c a)).HasValidData = true →
      (OnMovementUpdated E DeltaTime OldLocation OldVelocity (handedToBase c a)).LaunchVelocityCustom = ⟨0, 0, 0⟩ ∧
      (OnMovementUpdated E DeltaTime OldLocation OldVelocity (handedToBase c a)).PendingLaunchVelocity
        = c.LaunchVelocityCustom) := by
  have hsome : ∀ d : FCustomNetworkMoveData B R, d.custom = c.networked →
      MoveAutonomous SM (some d) ClientTimeStamp DeltaTime CompressedFlags Accel a
        = SM ClientTimeStamp DeltaTime CompressedFlags Accel (handedToBase c a) := by
    intro d hd
    simp only [FCustomNetworkMoveData.custom, networked, Prod.mk.injEq] at hd
    obtain ⟨h1, h2, h3, h4⟩ := hd
    unfold MoveAutonomous
    simp only [h1, h2, h3, h4]
    rfl
  have hk := OnMovementUpdated_keeps_intent E DeltaTime OldLocation OldVelocity
    (handedToBase c a)
  refine ⟨rfl, fun hC => ?_, hsome, rfl, hk.1, hk.2.1, hk.2.2, fun hl => ?_⟩
  · have hrecv := FCustomNetworkMoveData.Serialize_reads_back C hC t
      (sentMoveData SE F c InDeltaTime NewAccel m0 t d0) d1 rest
    refine ⟨hrecv, ?_⟩
    rw [hrecv]
    exact hsome _ rfl
  · obtain ⟨s1, h1L, _, he⟩ := OnMovementUpdated_shape E DeltaTime OldLocation OldVelocity
      (handedToBase c a)
    rw [he] at hl ⊢
    by_cases hc : (decide (s1.MovementMode ≠ .MOVE_None) && s1.IsActive && s1.HasValidData) = true
    · rw [if_pos hc]
      exact ⟨rfl, h1L⟩
    · rw [if_neg hc] at hl
      exact absurd (by simpa [IsActive, HasValidData, and_assoc] using hl) hc

/-- C24, exercised: the sprint intent, the speed 950, the launch `(300, 0, 500)` and the
wants-to-fly bit of the client reach the base step of the walking authority, whose wall-run
side stays; the component's `OnMovementUpdated` then keeps the first two and the flag byte and
latches the launch. -/
theorem client_to_authority_witness :
    demoCodec.RoundTrips ∧
    (MoveAutonomous demoMoveAutonomous
      (some (receivedMoveData demoCodec .NewMove
        (sentMoveData demoSavedMoveEngine demoClientFill demoClient 1 ⟨0, 0, 0⟩ demoSavedMove
          .NewMove demoStaleMoveData) [] demoStaleMoveData))
      0 1 0 ⟨1, 0, 0⟩ demoWalking).networked = (true, 950, ⟨300, 0, 500⟩, 1) ∧
    (MoveAutonomous demoMoveAutonomous
      (some (receivedMoveData demoCodec .NewMove
        (sentMoveData demoSavedMoveEngine demoClientFill demoClient 1 ⟨0, 0, 0⟩ demoSavedMove
          .NewMove demoStaleMoveData) [] demoStaleMoveData))
      0 1 0 ⟨1, 0, 0⟩ demoWalking).bWallRunIsRight = false ∧
    (OnMovementUpdated demoEngine 1 ⟨0, 0, 0⟩ ⟨0, 0, 0⟩
      (handedToBase demoClient demoWalking)).PendingLaunchVelocity
      = ⟨300, 0, 500⟩ :=
  have h := client_to_authority demoSavedMoveEngine demoClientFill demoCodec
    demoMoveAutonomous demoEngine demoClient demoWalking 1 ⟨0, 0, 0⟩ demoSavedMove .NewMove
    demoStaleMoveData demoStaleMoveData [] 0 1 0 ⟨1, 0, 0⟩ ⟨0, 0, 0⟩ ⟨0, 0, 0⟩
  ⟨fun _ _ _ => rfl, by rw [(h.2.1 (fun _ _ _ => rfl)).2]; rfl,
    by rw [(h.2.1 (fun _ _ _ => rfl)).2]; rfl,
    (h.2.2.2.2.2.2.2 (by decide)).2⟩

end UTutCharacterMovementComponent

end TutCMC
